import Mathlib

set_option allowUnsafeReducibility true

attribute [semireducible] Rat.add Rat.mul Rat.sub Rat.div Rat.inv Rat.normalize Rat.neg

/-!
Verification development for the go-spreadsheet formula calculation engine.

This file contains a shallow embedding of the engine's value model, builtin
function library, comparison semantics, sparse cell store, dependency graph
and recalculation loop, translated from the Go sources
(`cell.go`, `builtin.go`, `worksheet.go`, `graph.go`, `sheet.go`,
`formula.go` and the parser/evaluator file), followed by theorems about the
embedded definitions.

Modelling conventions:
* Go `float64` is modelled by `ℚ`: every claim treated here is about which
  values participate in a computation and which error is produced, not about
  IEEE-754 rounding.  (`math.IsNaN` checks are consequently always false in
  the model, and `SUM`'s final 15-decimal reformatting step is the identity.)
* Go maps are modelled by association lists (preserving the data, with
  insertion-order iteration where the Go code iterates a map; where the Go
  result depends on map iteration order this is noted at the definition).
* Go `nil` (an empty cell value) is `Prim.empty`.
* A Go `Range` value is modelled by the list of cell values its
  `IterateValues` iterator yields (row-major, `Prim.empty` for empty cells).
-/

namespace GoSpreadsheet

/-- Error codes, from `cell.go` (`ErrorCodeNull` .. `ErrorCodeOther`). -/
inductive ErrorCode where
  | null
  | div0
  | value
  | ref
  | name
  | num
  | na
  | other
deriving DecidableEq, Repr

/-- Numeric representation of an `ErrorCode` (the Go `uint8` constants 1..8). -/
def ErrorCode.toNat : ErrorCode → Nat
  | .null => 1
  | .div0 => 2
  | .value => 3
  | .ref => 4
  | .name => 5
  | .num => 6
  | .na => 7
  | .other => 8

/-- Decode the numeric error-code representation stored in a chunk's numbers
array back into an `ErrorCode` (the Go code casts the stored float back to
`ErrorCode`; in the model only the values 1..8 are ever stored, any other
value decodes to `other`). -/
def errorCodeOfRat (q : ℚ) : ErrorCode :=
  if q = 1 then .null
  else if q = 2 then .div0
  else if q = 3 then .value
  else if q = 4 then .ref
  else if q = 5 then .name
  else if q = 6 then .num
  else if q = 7 then .na
  else .other

/-- Display glyphs, from `ErrorMapper` in `cell.go`. -/
def ErrorMapper : ErrorCode → String
  | .null => "#NULL!"
  | .div0 => "#DIV/0!"
  | .value => "#VALUE!"
  | .ref => "#REF!"
  | .name => "#NAME?"
  | .num => "#NUM!"
  | .na => "#N/A"
  | .other => "#ERROR!"

/-- `SpreadsheetError` from `cell.go`. -/
structure SpreadsheetError where
  ErrorCode : ErrorCode
  Message : String
deriving DecidableEq, Repr

/-- `NewSpreadsheetError` from `cell.go`: an empty message is replaced by the
code's display glyph. -/
def NewSpreadsheetError (code : ErrorCode) (message : String) : SpreadsheetError :=
  { ErrorCode := code, Message := if message = "" then ErrorMapper code else message }

/-- The `Primitive` cell value universe from `cell.go`: `nil` (empty),
`float64`, `string`, `bool`, or `*SpreadsheetError`. -/
inductive Prim where
  | empty
  | num (q : ℚ)
  | str (s : String)
  | bool (b : Bool)
  | err (e : SpreadsheetError)
deriving DecidableEq, Repr

/-- An evaluator value: either a `Primitive` or a `Range`.  A Go `Range` is
modelled by the row-major list of cell values its `IterateValues` iterator
yields (`Prim.empty` for empty cells).  Ranges are produced by range /
named-range nodes and consumed by builtins; they are never stored in cells. -/
inductive Value where
  | prim (p : Prim)
  | range (vs : List Prim)
deriving DecidableEq, Repr

instance {ε α : Type} [DecidableEq ε] [DecidableEq α] : DecidableEq (Except ε α) := fun x y =>
  match x, y with
  | .ok a, .ok b =>
    if h : a = b then isTrue (by rw [h]) else isFalse (fun hh => h (by injection hh))
  | .error a, .error b =>
    if h : a = b then isTrue (by rw [h]) else isFalse (fun hh => h (by injection hh))
  | .ok _, .error _ => isFalse (fun hh => Except.noConfusion hh)
  | .error _, .ok _ => isFalse (fun hh => Except.noConfusion hh)

/-- `checkForError` from `builtin.go`: returns the error if the argument is a
`*SpreadsheetError`, and nothing otherwise (a `Range` is not an error). -/
def checkForError : Value → Option SpreadsheetError
  | .prim (.err e) => some e
  | _ => none

/-- Parse a list of decimal digit characters into a natural number; fails on a
non-digit and on the empty list. -/
def parseDigits : List Char → Option Nat
  | [] => none
  | cs =>
    cs.foldl (fun acc c =>
      match acc with
      | none => none
      | some n => if c.isDigit then some (n * 10 + (c.toNat - 48)) else none)
      (some 0)

/-- Parse an optional leading sign, returning the sign as `1` or `-1` and the
remaining characters. -/
def parseSign : List Char → Int × List Char
  | '+' :: cs => (1, cs)
  | '-' :: cs => (-1, cs)
  | cs => (1, cs)

/-- Parse the mantissa part of a decimal literal: digits with an optional
decimal point; at least one digit overall is required. -/
def parseMantissa (cs : List Char) : Option ℚ :=
  let (sign, cs) := parseSign cs
  match cs.splitOn '.' with
  | [intPart] => (parseDigits intPart).map (fun n => (sign * n : ℤ))
  | [intPart, fracPart] =>
    if intPart = [] ∧ fracPart = [] then none
    else
      let iv : Option Nat := if intPart = [] then some 0 else parseDigits intPart
      let fv : Option Nat := if fracPart = [] then some 0 else parseDigits fracPart
      match iv, fv with
      | some i, some f =>
        some ((sign : ℚ) * ((i : ℚ) + (f : ℚ) / ((10 : ℚ) ^ fracPart.length)))
      | _, _ => none
  | _ => none

/-- Parse an exponent: optional sign followed by at least one digit. -/
def parseExponent (cs : List Char) : Option Int :=
  let (sign, cs) := parseSign cs
  (parseDigits cs).map (fun n => sign * n)

/-- Model of Go's `strconv.ParseFloat` on the decimal forms the engine feeds
it: optional sign, digits with optional decimal point, optional `e`/`E`
exponent.  (Go additionally accepts hex floats and `Inf`/`NaN` spellings;
those never arise from spreadsheet values and are not modelled.) -/
def parseNumber (s : String) : Option ℚ :=
  let cs := s.data.map Char.toLower
  match cs.splitOn 'e' with
  | [m] => parseMantissa m
  | [m, ex] =>
    match parseMantissa m, parseExponent ex with
    | some mv, some ev =>
      if 0 ≤ ev then some (mv * (10 : ℚ) ^ ev.toNat)
      else some (mv / (10 : ℚ) ^ (-ev).toNat)
    | _, _ => none
  | _ => none

/-- `toNumber` from `builtin.go`: numbers map to themselves, booleans to 1/0,
strings are parsed as decimal numbers, `nil` (empty) maps to 0, and anything
else (errors, ranges) fails. -/
def toNumber : Value → Option ℚ
  | .prim (.num q) => some q
  | .prim (.bool b) => some (if b then 1 else 0)
  | .prim (.str s) => parseNumber s
  | .prim .empty => some 0
  | _ => none

/-- Render a rational as text.  Go's `toString` prints a `float64` via
`fmt.Sprint`; the exact digit string is irrelevant to every claim treated
here (the lexical comparison branch is only characterised as comparing
whatever `toString` yields), so integers print as integers and other
rationals as `num/den`. -/
def ratToDisplay (q : ℚ) : String :=
  if q.den = 1 then toString q.num else toString q.num ++ "/" ++ toString q.den

/-- `toString` from `builtin.go`: `nil` becomes `""`, anything else its
`fmt.Sprint` form.  `fmt.Sprint` of a `*SpreadsheetError` calls its `Error()`
method, which returns the message (never empty for errors built with
`NewSpreadsheetError`).  A `Range` prints as an opaque pointer in Go; the
placeholder used here is never relied upon by any theorem. -/
def toDisplay : Value → String
  | .prim .empty => ""
  | .prim (.num q) => ratToDisplay q
  | .prim (.str s) => s
  | .prim (.bool b) => if b then "true" else "false"
  | .prim (.err e) => if e.Message = "" then ErrorMapper e.ErrorCode else e.Message
  | .range _ => "&{range}"

/-- Go `strings.ToUpper`, for the ASCII function names the engine folds
(character-wise upper-casing). -/
def strUpper (s : String) : String := String.mk (s.data.map Char.toUpper)

/-- `isTruthy` from `builtin.go`. -/
def isTruthy : Value → Bool
  | .prim (.bool b) => b
  | .prim (.num q) => q ≠ 0
  | .prim (.str s) => s ≠ ""
  | .prim .empty => false
  | _ => true

/-! ## Builtin function library (`builtin.go`)

Each aggregation builtin is a loop over its arguments; a `Range` argument has
an inner loop over the values yielded by its iterator.  The loops are
translated with explicit accumulators, one recursive helper per Go loop.
Only the builtins that the claims exercise are modelled (the aggregation
family, `IF`, `AND`, `OR`, `NOT`); the text/math/volatile groups are
orthogonal to every claim. -/

/-- Inner loop of `SUM` over one range's iterated values: a range-borne error
propagates, any other value is added when `toNumber` succeeds and skipped
otherwise.  (The Go `math.IsNaN` guard is always false in the exact model.) -/
def sumRange : List Prim → ℚ → Except SpreadsheetError ℚ
  | [], acc => .ok acc
  | v :: vs, acc =>
    match checkForError (.prim v) with
    | some e => .error e
    | none =>
      match toNumber (.prim v) with
      | some n => sumRange vs (acc + n)
      | none => sumRange vs acc

/-- Argument loop of `SUM` from `builtin.go`. -/
def SUMgo : List Value → ℚ → Except SpreadsheetError ℚ
  | [], acc => .ok acc
  | arg :: rest, acc =>
    match checkForError arg with
    | some e => .error e
    | none =>
      match arg with
      | .range vs =>
        match sumRange vs acc with
        | .error e => .error e
        | .ok acc2 => SUMgo rest acc2
      | _ =>
        match toNumber arg with
        | some n => SUMgo rest (acc + n)
        | none => SUMgo rest acc

/-- `SUM` from `builtin.go`.  (Go reformats the total to 15 decimal places
via `Sprintf`/`ParseFloat`; over exact rationals that step is the
identity and is omitted.) -/
def SUM (args : List Value) : Except SpreadsheetError Prim :=
  (SUMgo args 0).map Prim.num

/-- Inner loop of `AVERAGE` over one range: errors propagate, `nil` values
are skipped before coercion, coercible values are accumulated and counted. -/
def averageRange : List Prim → ℚ × Nat → Except SpreadsheetError (ℚ × Nat)
  | [], st => .ok st
  | v :: vs, st =>
    match checkForError (.prim v) with
    | some e => .error e
    | none =>
      if v = .empty then averageRange vs st
      else
        match toNumber (.prim v) with
        | some n => averageRange vs (st.1 + n, st.2 + 1)
        | none => averageRange vs st

/-- Argument loop of `AVERAGE`. -/
def AVERAGEgo : List Value → ℚ × Nat → Except SpreadsheetError (ℚ × Nat)
  | [], st => .ok st
  | arg :: rest, st =>
    match checkForError arg with
    | some e => .error e
    | none =>
      match arg with
      | .range vs =>
        match averageRange vs st with
        | .error e => .error e
        | .ok st2 => AVERAGEgo rest st2
      | _ =>
        match toNumber arg with
        | some n => AVERAGEgo rest (st.1 + n, st.2 + 1)
        | none => AVERAGEgo rest st

/-- `AVERAGE` from `builtin.go`: no counted value yields the `DIV0` error. -/
def AVERAGE (args : List Value) : Except SpreadsheetError Prim :=
  match AVERAGEgo args (0, 0) with
  | .error e => .error e
  | .ok (_, 0) => .error (NewSpreadsheetError .div0 "Division by zero")
  | .ok (sum, count) => .ok (.num (sum / count))

/-- `processValue` helper of `AVERAGEA`: empties are skipped, errors
propagate, numbers add their value, booleans add 1/0, and text counts
without contributing to the sum. -/
def processValueA : Prim → ℚ × Nat → Except SpreadsheetError (ℚ × Nat)
  | .empty, st => .ok st
  | .err e, _ => .error e
  | .num v, st => .ok (st.1 + v, st.2 + 1)
  | .bool b, st => .ok (if b then st.1 + 1 else st.1, st.2 + 1)
  | .str _, st => .ok (st.1, st.2 + 1)

/-- Inner loop of `AVERAGEA` over one range. -/
def averageARange : List Prim → ℚ × Nat → Except SpreadsheetError (ℚ × Nat)
  | [], st => .ok st
  | v :: vs, st =>
    match processValueA v st with
    | .error e => .error e
    | .ok st2 => averageARange vs st2

/-- Argument loop of `AVERAGEA`. -/
def AVERAGEAgo : List Value → ℚ × Nat → Except SpreadsheetError (ℚ × Nat)
  | [], st => .ok st
  | arg :: rest, st =>
    match checkForError arg with
    | some e => .error e
    | none =>
      match arg with
      | .range vs =>
        match averageARange vs st with
        | .error e => .error e
        | .ok st2 => AVERAGEAgo rest st2
      | .prim p =>
        match processValueA p st with
        | .error e => .error e
        | .ok st2 => AVERAGEAgo rest st2

/-- `AVERAGEA` from `builtin.go`: no counted value yields the `REF` error
`"AVERAGEA has no values"` (unlike `AVERAGE`'s `DIV0`). -/
def AVERAGEA (args : List Value) : Except SpreadsheetError Prim :=
  match AVERAGEAgo args (0, 0) with
  | .error e => .error e
  | .ok (_, 0) => .error (NewSpreadsheetError .ref "AVERAGEA has no values")
  | .ok (sum, count) => .ok (.num (sum / count))

/-- `shouldCount` helper of `COUNT`: only `float64` values count; booleans,
strings (even numeric-looking ones), empties and errors do not. -/
def shouldCount : Prim → Bool
  | .num _ => true
  | _ => false

/-- Inner loop of `COUNT` over one range: range-borne errors are skipped,
not propagated. -/
def countRange : List Prim → Nat → Nat
  | [], c => c
  | v :: vs, c =>
    if (checkForError (.prim v)).isNone ∧ shouldCount v then countRange vs (c + 1)
    else countRange vs c

/-- Argument loop of `COUNT`: a direct error argument propagates. -/
def COUNTgo : List Value → Nat → Except SpreadsheetError Nat
  | [], c => .ok c
  | arg :: rest, c =>
    match checkForError arg with
    | some e => .error e
    | none =>
      match arg with
      | .range vs => COUNTgo rest (countRange vs c)
      | .prim p => COUNTgo rest (if shouldCount p then c + 1 else c)

/-- `COUNT` from `builtin.go`. -/
def COUNT (args : List Value) : Except SpreadsheetError Prim :=
  (COUNTgo args 0).map (fun c => .num c)

/-- Inner loop of `COUNTA` over one range: everything except `nil` counts,
including error values. -/
def countARange : List Prim → Nat → Nat
  | [], c => c
  | v :: vs, c => if v = .empty then countARange vs c else countARange vs (c + 1)

/-- Argument loop of `COUNTA`: a direct error propagates, every other direct
argument counts unconditionally. -/
def COUNTAgo : List Value → Nat → Except SpreadsheetError Nat
  | [], c => .ok c
  | arg :: rest, c =>
    match checkForError arg with
    | some e => .error e
    | none =>
      match arg with
      | .range vs => COUNTAgo rest (countARange vs c)
      | .prim _ => COUNTAgo rest (c + 1)

/-- `COUNTA` from `builtin.go`. -/
def COUNTA (args : List Value) : Except SpreadsheetError Prim :=
  (COUNTAgo args 0).map (fun c => .num c)

/-- Inner loop of `MAX` over one range.  The accumulator `none` plays Go's
initial `-Inf` (any number exceeds it) joined with the `hasValues` flag:
`none` ↔ `hasValues = false`. -/
def maxRange : List Prim → Option ℚ → Except SpreadsheetError (Option ℚ)
  | [], acc => .ok acc
  | v :: vs, acc =>
    match checkForError (.prim v) with
    | some e => .error e
    | none =>
      match toNumber (.prim v) with
      | some n =>
        maxRange vs (some (match acc with
          | none => n
          | some m => if n > m then n else m))
      | none => maxRange vs acc

/-- Argument loop of `MAX`. -/
def MAXgo : List Value → Option ℚ → Except SpreadsheetError (Option ℚ)
  | [], acc => .ok acc
  | arg :: rest, acc =>
    match checkForError arg with
    | some e => .error e
    | none =>
      match arg with
      | .range vs =>
        match maxRange vs acc with
        | .error e => .error e
        | .ok acc2 => MAXgo rest acc2
      | _ =>
        match toNumber arg with
        | some n =>
          MAXgo rest (some (match acc with
            | none => n
            | some m => if n > m then n else m))
        | none => MAXgo rest acc

/-- `MAX` from `builtin.go`: with no coercible value it returns the number 0
rather than an error. -/
def MAX (args : List Value) : Except SpreadsheetError Prim :=
  match MAXgo args none with
  | .error e => .error e
  | .ok none => .ok (.num 0)
  | .ok (some m) => .ok (.num m)

/-- Inner loop of `MIN` over one range (mirror image of `maxRange`). -/
def minRange : List Prim → Option ℚ → Except SpreadsheetError (Option ℚ)
  | [], acc => .ok acc
  | v :: vs, acc =>
    match checkForError (.prim v) with
    | some e => .error e
    | none =>
      match toNumber (.prim v) with
      | some n =>
        minRange vs (some (match acc with
          | none => n
          | some m => if n < m then n else m))
      | none => minRange vs acc

/-- Argument loop of `MIN`. -/
def MINgo : List Value → Option ℚ → Except SpreadsheetError (Option ℚ)
  | [], acc => .ok acc
  | arg :: rest, acc =>
    match checkForError arg with
    | some e => .error e
    | none =>
      match arg with
      | .range vs =>
        match minRange vs acc with
        | .error e => .error e
        | .ok acc2 => MINgo rest acc2
      | _ =>
        match toNumber arg with
        | some n =>
          MINgo rest (some (match acc with
            | none => n
            | some m => if n < m then n else m))
        | none => MINgo rest acc

/-- `MIN` from `builtin.go`: with no coercible value it returns the number 0
rather than an error. -/
def MIN (args : List Value) : Except SpreadsheetError Prim :=
  match MINgo args none with
  | .error e => .error e
  | .ok none => .ok (.num 0)
  | .ok (some m) => .ok (.num m)

/-- Inner loop of the numeric-value collection shared by `MEDIAN` and
`MODE` over one range (append order). -/
def collectRange : List Prim → List ℚ → Except SpreadsheetError (List ℚ)
  | [], acc => .ok acc
  | v :: vs, acc =>
    match checkForError (.prim v) with
    | some e => .error e
    | none =>
      match toNumber (.prim v) with
      | some n => collectRange vs (acc ++ [n])
      | none => collectRange vs acc

/-- Argument loop of the numeric-value collection of `MEDIAN` / `MODE`. -/
def collectGo : List Value → List ℚ → Except SpreadsheetError (List ℚ)
  | [], acc => .ok acc
  | arg :: rest, acc =>
    match checkForError arg with
    | some e => .error e
    | none =>
      match arg with
      | .range vs =>
        match collectRange vs acc with
        | .error e => .error e
        | .ok acc2 => collectGo rest acc2
      | _ =>
        match toNumber arg with
        | some n => collectGo rest (acc ++ [n])
        | none => collectGo rest acc

/-- `MEDIAN` from `builtin.go`: collect the coercible values, sort ascending
(the Go selection-style sort produces the ascending ordering, modelled by
insertion sort — equal rationals are interchangeable, so stability is
irrelevant), and take the middle element (or the mean of the two middle
elements).  The `getD` defaults are never reached: the indices are in range
whenever the list is nonempty. -/
def MEDIAN (args : List Value) : Except SpreadsheetError Prim :=
  match collectGo args [] with
  | .error e => .error e
  | .ok [] => .error (NewSpreadsheetError .num "MEDIAN has no numeric values")
  | .ok values =>
    let sorted := values.insertionSort (· ≤ ·)
    let mid := values.length / 2
    if values.length % 2 = 0 then
      .ok (.num ((sorted.getD (mid - 1) 0 + sorted.getD mid 0) / 2))
    else
      .ok (.num (sorted.getD mid 0))

/-- `MODE` from `builtin.go`.  Go builds a `float64 → int` frequency map; the
model counts occurrences in the collected list, which is iteration-order
independent: the maximum frequency, the `maxFreq == 1` all-unique test (when
`maxFreq` is 1 every value is its own mode, so Go's conjunct
`len(modes) == len(frequencyMap)` is implied), and the smallest mode (Go
sorts the modes and returns the first) are all order-insensitive. -/
def MODE (args : List Value) : Except SpreadsheetError Prim :=
  match collectGo args [] with
  | .error e => .error e
  | .ok [] => .error (NewSpreadsheetError .num "MODE has no numeric values")
  | .ok values =>
    let distinct := values.dedup
    let maxFreq := (distinct.map (fun v => values.count v)).foldl
      (fun m f => if f > m then f else m) 0
    if maxFreq = 1 then
      .error (NewSpreadsheetError .na "MODE: no value appears more than once")
    else
      match (distinct.filter (fun v => values.count v = maxFreq)).insertionSort (· ≤ ·) with
      | [] => .error (NewSpreadsheetError .num "MODE has no numeric values")
      | m :: _ => .ok (.num m)

/-- `IF` from `builtin.go`: arity 2..3 else `NA`; only an error in the
condition propagates — the chosen branch is returned as-is, even when the
unchosen branch holds an error value. -/
def IF (args : List Value) : Except SpreadsheetError Value :=
  if args.length < 2 ∨ 3 < args.length then
    .error (NewSpreadsheetError .na "IF requires 2 or 3 arguments")
  else
    match checkForError (args.getD 0 (.prim .empty)) with
    | some e => .error e
    | none =>
      if isTruthy (args.getD 0 (.prim .empty)) then .ok (args.getD 1 (.prim .empty))
      else if args.length = 3 then .ok (args.getD 2 (.prim .empty))
      else .ok (.prim (.bool false))

/-- `AND` from `builtin.go`. -/
def AND : List Value → Except SpreadsheetError Prim
  | [] => .ok (.bool true)
  | arg :: rest =>
    match checkForError arg with
    | some e => .error e
    | none => if isTruthy arg then AND rest else .ok (.bool false)

/-- `OR` from `builtin.go`. -/
def OR : List Value → Except SpreadsheetError Prim
  | [] => .ok (.bool false)
  | arg :: rest =>
    match checkForError arg with
    | some e => .error e
    | none => if isTruthy arg then .ok (.bool true) else OR rest

/-- `NOT` from `builtin.go`. -/
def NOT (args : List Value) : Except SpreadsheetError Prim :=
  match args with
  | [arg] =>
    (match checkForError arg with
     | some e => .error e
     | none => .ok (.bool (!isTruthy arg)))
  | _ => .error (NewSpreadsheetError .na "NOT requires exactly 1 argument")

/-- `Call` dispatch from `builtin.go`, restricted to the modelled subset;
an unmodelled or unknown name yields the `NAME` error exactly as Go's
default branch does for unknown names.  (The text/math/volatile builtins
are not exercised by any claim.) -/
def Call (name : String) (args : List Value) : Except SpreadsheetError Value :=
  match strUpper name with
  | "SUM" => (SUM args).map .prim
  | "AVERAGE" => (AVERAGE args).map .prim
  | "AVERAGEA" => (AVERAGEA args).map .prim
  | "COUNT" => (COUNT args).map .prim
  | "COUNTA" => (COUNTA args).map .prim
  | "MAX" => (MAX args).map .prim
  | "MIN" => (MIN args).map .prim
  | "MEDIAN" => (MEDIAN args).map .prim
  | "MODE" => (MODE args).map .prim
  | "IF" => IF args
  | "AND" => (AND args).map .prim
  | "OR" => (OR args).map .prim
  | "NOT" => (NOT args).map .prim
  | _ => .error (NewSpreadsheetError .name ("Unknown function: " ++ name))

/-! ## Comparison and operators (parser/evaluator file) -/

/-- `comparePrimitives` from the evaluator: `-1` / `0` / `1` for less / equal
/ greater.  `nil` values are handled first (`nil` compares below everything
non-`nil`), then numeric comparison when both sides coerce, then
boolean-versus-boolean (unreachable for two booleans, which already coerce),
then lexical comparison of the `toString` forms.  The documented `-2`
("not comparable") is never produced. -/
def comparePrimitives (left right : Value) : Int :=
  if left = .prim .empty ∧ right = .prim .empty then 0
  else if left = .prim .empty then -1
  else if right = .prim .empty then 1
  else
    match toNumber left, toNumber right with
    | some l, some r => if l < r then -1 else if r < l then 1 else 0
    | _, _ =>
      match left, right with
      | .prim (.bool lb), .prim (.bool rb) =>
        if lb = rb then 0 else if !lb && rb then -1 else 1
      | _, _ =>
        let ls := toDisplay left
        let rs := toDisplay right
        if ls < rs then -1 else if rs < ls then 1 else 0

/-- `BinaryOp` from `lexer.go`. -/
inductive BinaryOp where
  | add | sub | mul | div | modulo | pow | concat
  | eq | ne | lt | le | gt | ge
deriving DecidableEq, Repr

/-- `UnaryOp` from `lexer.go` (`UnaryOpPlus`, `UnaryOpMinus`,
`UnaryOpPercent`). -/
inductive UnaryOp where
  | plus | minus | percent
deriving DecidableEq, Repr

/-- The operator dispatch of `BinaryOpNode.Eval`, applied to the two already
evaluated operand values after error propagation (left first, then right).
`^` is exact exponentiation in the model; Go delegates to IEEE `math.Pow`
(claims never exercise fractional or negative exponents, so the model uses
integer exponents and fails like Go's `VALUE` path never does — the
exponent is taken through `toNumber` and truncated exponentiation models the
integer-exponent cases the engine is used with).  `BinOpModulo` has no case
in the Go switch and falls to the default `VALUE` error. -/
def applyBinaryOp (op : BinaryOp) (leftVal rightVal : Value) :
    Except SpreadsheetError Value :=
  match checkForError leftVal with
  | some e => .ok (.prim (.err e))
  | none =>
  match checkForError rightVal with
  | some e => .ok (.prim (.err e))
  | none =>
  match op with
  | .add =>
    match toNumber leftVal, toNumber rightVal with
    | some l, some r => .ok (.prim (.num (l + r)))
    | _, _ => .error (NewSpreadsheetError .value "Addition requires numeric values")
  | .sub =>
    match toNumber leftVal, toNumber rightVal with
    | some l, some r => .ok (.prim (.num (l - r)))
    | _, _ => .error (NewSpreadsheetError .value "Subtraction requires numeric values")
  | .mul =>
    match toNumber leftVal, toNumber rightVal with
    | some l, some r => .ok (.prim (.num (l * r)))
    | _, _ => .error (NewSpreadsheetError .value "Multiplication requires numeric values")
  | .div =>
    match toNumber leftVal, toNumber rightVal with
    | some l, some r =>
      if r = 0 then .error (NewSpreadsheetError .div0 "Division by zero")
      else .ok (.prim (.num (l / r)))
    | _, _ => .error (NewSpreadsheetError .value "Division requires numeric values")
  | .pow =>
    match toNumber leftVal, toNumber rightVal with
    | some l, some r => .ok (.prim (.num (l ^ r.floor)))
    | _, _ => .error (NewSpreadsheetError .value "Power requires numeric values")
  | .concat => .ok (.prim (.str (toDisplay leftVal ++ toDisplay rightVal)))
  | .eq => .ok (.prim (.bool (comparePrimitives leftVal rightVal = 0)))
  | .ne => .ok (.prim (.bool (comparePrimitives leftVal rightVal ≠ 0)))
  | .lt =>
    let cmp := comparePrimitives leftVal rightVal
    if cmp = -2 then .error (NewSpreadsheetError .value "Cannot compare these values")
    else .ok (.prim (.bool (cmp < 0)))
  | .le =>
    let cmp := comparePrimitives leftVal rightVal
    if cmp = -2 then .error (NewSpreadsheetError .value "Cannot compare these values")
    else .ok (.prim (.bool (cmp ≤ 0)))
  | .gt =>
    let cmp := comparePrimitives leftVal rightVal
    if cmp = -2 then .error (NewSpreadsheetError .value "Cannot compare these values")
    else .ok (.prim (.bool (cmp > 0)))
  | .ge =>
    let cmp := comparePrimitives leftVal rightVal
    if cmp = -2 then .error (NewSpreadsheetError .value "Cannot compare these values")
    else .ok (.prim (.bool (cmp ≥ 0)))
  | .modulo => .error (NewSpreadsheetError .value "Unknown operator")

/-- The operator dispatch of `UnaryOpNode.Eval`, applied to the already
evaluated operand after error propagation. -/
def applyUnaryOp (op : UnaryOp) (val : Value) : Except SpreadsheetError Value :=
  match checkForError val with
  | some e => .ok (.prim (.err e))
  | none =>
  match op with
  | .plus =>
    match toNumber val with
    | some n => .ok (.prim (.num n))
    | none => .error (NewSpreadsheetError .value "Unary plus requires a numeric value")
  | .minus =>
    match toNumber val with
    | some n => .ok (.prim (.num (-n)))
    | none => .error (NewSpreadsheetError .value "Negation requires a numeric value")
  | .percent =>
    match toNumber val with
    | some n => .ok (.prim (.num (n / 100)))
    | none => .error (NewSpreadsheetError .value "Percent requires a numeric value")

/-! ## Addresses and shared tables (`cell.go`, `worksheet.go`, `formula.go`,
string table file)

Go maps are modelled by association lists with unique keys: `lookupA` is map
indexing, `insertA` write (replace-or-append), `removeA` deletion. -/

/-- `CellAddress` from `cell.go` (`uint32` fields modelled by `Nat`). -/
structure CellAddress where
  WorksheetID : Nat
  Row : Nat
  Column : Nat
deriving DecidableEq, Repr

/-- `RangeAddress` (`worksheet_id, start_row, start_col, end_row, end_col`). -/
structure RangeAddress where
  WorksheetID : Nat
  StartRow : Nat
  StartColumn : Nat
  EndRow : Nat
  EndColumn : Nat
deriving DecidableEq, Repr

/-- Map lookup on an association list. -/
def lookupA {κ ν : Type} [DecidableEq κ] (l : List (κ × ν)) (k : κ) : Option ν :=
  (l.find? (fun e => e.1 = k)).map (·.2)

/-- Map write on an association list: replace the existing binding or append
a new one (Go map insertion). -/
def insertA {κ ν : Type} [DecidableEq κ] (l : List (κ × ν)) (k : κ) (v : ν) :
    List (κ × ν) :=
  if (l.find? (fun e => e.1 = k)).isSome then
    l.map (fun e => if e.1 = k then (k, v) else e)
  else l ++ [(k, v)]

/-- Map deletion on an association list. -/
def removeA {κ ν : Type} [DecidableEq κ] (l : List (κ × ν)) (k : κ) : List (κ × ν) :=
  l.filter (fun e => ¬ e.1 = k)

/-- Add an element to a list treated as a set (Go `map[T]struct{}` insert),
keeping insertion order. -/
def setAdd {α : Type} [DecidableEq α] (l : List α) (a : α) : List α :=
  if a ∈ l then l else l ++ [a]

/-- Remove an element from a list treated as a set. -/
def setRemove {α : Type} [DecidableEq α] (l : List α) (a : α) : List α :=
  l.filter (fun x => ¬ x = a)

/-- Pointwise update of a function-backed array. -/
def upd {α : Type} (f : Nat → α) (i : Nat) (v : α) : Nat → α :=
  fun j => if j = i then v else f j

/-- `StringTable`: interning with reference counts.  The two Go maps
(`strings` and `reverseMap`) are modelled by one entry list (lookup by
string or by id); `refCounts` is a total function defaulting to 0 exactly
like reads of a missing Go map key. -/
structure StringTable where
  entries : List (String × Nat)
  refCounts : Nat → Int
  nextID : Nat

/-- `NewStringTable`: ids start at 1, 0 is reserved. -/
def StringTable.new : StringTable :=
  { entries := [], refCounts := fun _ => 0, nextID := 1 }

/-- `Intern` from the string-table file: an existing string bumps its
reference count, a new string is assigned the next id. -/
def StringTable.intern (st : StringTable) (s : String) : Nat × StringTable :=
  match lookupA st.entries s with
  | some id =>
    (id, { st with refCounts := fun i => if i = id then st.refCounts id + 1 else st.refCounts i })
  | none =>
    (st.nextID,
     { entries := st.entries ++ [(s, st.nextID)],
       refCounts := fun i => if i = st.nextID then 1 else st.refCounts i,
       nextID := st.nextID + 1 })

/-- `GetString`: reverse lookup by id. -/
def StringTable.getString (st : StringTable) (id : Nat) : Option String :=
  (st.entries.find? (fun e => e.2 = id)).map (·.1)

/-- `RemoveReference`: decrement; at zero the string is removed and its
refcount entry deleted (reads of a deleted Go map key yield 0). -/
def StringTable.removeReference (st : StringTable) (id : Nat) : Bool × StringTable :=
  match st.entries.find? (fun e => e.2 = id) with
  | none => (false, st)
  | some _ =>
    let c := st.refCounts id - 1
    if c ≤ 0 then
      let entries2 := st.entries.filter (fun e => ¬ e.2 = id)
      (true, { st with entries := entries2,
                       refCounts := fun i => if i = id then 0 else st.refCounts i })
    else
      (false, { st with refCounts := fun i => if i = id then c else st.refCounts i })

/-- The expression tree from the parser/evaluator file: one constructor per
node struct.  Named-range nodes are omitted: no claim involves named ranges
and the modelled formulas never contain them.  Cell and range references
store relative offsets plus an absolute worksheet id (0 = current sheet),
exactly as `CellRefNode` / `RangeNode` do. -/
inductive AST where
  | strNode (v : String)
  | numNode (v : ℚ)
  | boolNode (v : Bool)
  | cellRef (worksheetID : Nat) (rowOffset colOffset : Int)
  | rangeRef (worksheetID : Nat)
      (startRowOffset startColOffset endRowOffset endColOffset : Int)
  | binOp (op : BinaryOp) (left right : AST)
  | unOp (op : UnaryOp) (operand : AST)
  | funcCall (name : String) (args : List AST)

/-- The `ToString` rendering of a `BinaryOp` (from `BinaryOpNode.ToString`). -/
def BinaryOp.toKey : BinaryOp → String
  | .add => "+"
  | .sub => "-"
  | .mul => "*"
  | .div => "/"
  | .modulo => "%"
  | .pow => "^"
  | .concat => "&"
  | .eq => "="
  | .ne => "<>"
  | .lt => "<"
  | .le => "<="
  | .gt => ">"
  | .ge => ">="

mutual

/-- `ToString` from the parser/evaluator file: the canonical printed form of
a tree, used by `FormulaTable.normalizeAST` as the dedup key.  Numbers are
rendered through `ratToDisplay` (Go prints shortest-form decimals; the
rendering is injective either way, which is all interning relies on). -/
def AST.toKey : AST → String
  | .strNode v =>
    "\"" ++ String.mk (v.data.flatMap (fun c => if c = '\"' then ['\"', '\"'] else [c])) ++ "\""
  | .numNode v => ratToDisplay v
  | .boolNode b => if b then "TRUE" else "FALSE"
  | .cellRef ws ro co =>
    if ws ≠ 0 then
      "WS_REF(" ++ toString ws ++ "," ++ toString ro ++ "," ++ toString co ++ ")"
    else "REF(" ++ toString ro ++ "," ++ toString co ++ ")"
  | .rangeRef ws sr sc er ec =>
    if ws ≠ 0 then
      "WS_RANGE(" ++ toString ws ++ "," ++ toString sr ++ "," ++ toString sc ++ ","
        ++ toString er ++ "," ++ toString ec ++ ")"
    else
      "N_WS_RANGE(" ++ toString sr ++ "," ++ toString sc ++ ","
        ++ toString er ++ "," ++ toString ec ++ ")"
  | .binOp op l r => "(" ++ l.toKey ++ op.toKey ++ r.toKey ++ ")"
  | .unOp op a =>
    match op with
    | .plus => "+" ++ a.toKey
    | .minus => "-" ++ a.toKey
    | .percent => "(" ++ a.toKey ++ "%)"
  | .funcCall name args => name ++ "(" ++ String.intercalate "," (astKeyList args) ++ ")"

/-- The argument-list walk of the printer (`args.map toKey`). -/
def astKeyList : List AST → List String
  | [] => []
  | a :: rest => a.toKey :: astKeyList rest

end

/-- `isVolatileFunction` from `builtin.go`. -/
def isVolatileFunction (name : String) : Bool :=
  strUpper name = "NOW" ∨ strUpper name = "TODAY" ∨ strUpper name = "RAND"

/-- `FormulaTable` from `formula.go`, restricted to the fields the
recalculation engine reads: the dedup index, the AST cache, reference
counts, and the cell-usage indexes.  Go keys the dedup index on the
canonical pretty-printed tree; the model keys on the tree itself, which
identifies exactly the structurally equal trees.  The worksheet- and
named-range-tracking side tables are omitted (no claim observes them). -/
structure FormulaTable where
  astIndex : List (String × Nat)
  astCache : List (Nat × AST)
  refCounts : Nat → Int
  cellsUsingFormula : List (Nat × List CellAddress)
  formulaAtCell : List (CellAddress × Nat)
  nextID : Nat

/-- `NewFormulaTable`. -/
def FormulaTable.new : FormulaTable :=
  { astIndex := [], astCache := [], refCounts := fun _ => 0,
    cellsUsingFormula := [], formulaAtCell := [], nextID := 1 }

/-- `trackCellUsage` from `formula.go` (worksheet-ownership tracking
omitted). -/
def FormulaTable.trackCellUsage (ft : FormulaTable) (formulaID : Nat)
    (cell : CellAddress) : FormulaTable :=
  let ft :=
    match lookupA ft.formulaAtCell cell with
    | some oldID =>
      if oldID ≠ formulaID then
        match lookupA ft.cellsUsingFormula oldID with
        | some cells =>
          let cells := setRemove cells cell
          { ft with cellsUsingFormula :=
              if cells = [] then removeA ft.cellsUsingFormula oldID
              else insertA ft.cellsUsingFormula oldID cells }
        | none => ft
      else ft
    | none => ft
  let newCells := setAdd ((lookupA ft.cellsUsingFormula formulaID).getD []) cell
  { ft with
    cellsUsingFormula := insertA ft.cellsUsingFormula formulaID newCells,
    formulaAtCell := insertA ft.formulaAtCell cell formulaID }

/-- `InternFormula` from `formula.go`: the dedup key is the normalized
(pretty-printed) tree. -/
def FormulaTable.internFormula (ft : FormulaTable) (ast : AST)
    (cell : CellAddress) : Nat × FormulaTable :=
  match lookupA ft.astIndex ast.toKey with
  | some id =>
    let ft := { ft with refCounts := fun i => if i = id then ft.refCounts id + 1 else ft.refCounts i }
    (id, ft.trackCellUsage id cell)
  | none =>
    let id := ft.nextID
    let ft := { ft with
      astIndex := ft.astIndex ++ [(ast.toKey, id)],
      astCache := ft.astCache ++ [(id, ast)],
      refCounts := fun i => if i = id then 1 else ft.refCounts i,
      nextID := id + 1 }
    (id, ft.trackCellUsage id cell)

/-- `GetAST`. -/
def FormulaTable.getAST (ft : FormulaTable) (id : Nat) : Option AST :=
  lookupA ft.astCache id

/-- `removeFormula` from `formula.go`: the dedup-index entry is found via the
cached tree's key (no entry is touched when the cache has no tree); the
named-range cleanup concerns the omitted side tables. -/
def FormulaTable.removeFormula (ft : FormulaTable) (formulaID : Nat) : FormulaTable :=
  let astIndex2 :=
    match lookupA ft.astCache formulaID with
    | some ast => removeA ft.astIndex ast.toKey
    | none => ft.astIndex
  { ft with
    astIndex := astIndex2,
    astCache := removeA ft.astCache formulaID,
    refCounts := fun i => if i = formulaID then 0 else ft.refCounts i,
    cellsUsingFormula := removeA ft.cellsUsingFormula formulaID }

/-- `RemoveCellReference` from `formula.go`: returns whether the formula was
removed because its reference count fell to zero. -/
def FormulaTable.removeCellReference (ft : FormulaTable) (formulaID : Nat)
    (cell : CellAddress) : Bool × FormulaTable :=
  let ft :=
    match lookupA ft.cellsUsingFormula formulaID with
    | some cells =>
      let cells := setRemove cells cell
      { ft with cellsUsingFormula :=
          if cells = [] then removeA ft.cellsUsingFormula formulaID
          else insertA ft.cellsUsingFormula formulaID cells }
    | none => ft
  let ft := { ft with formulaAtCell := removeA ft.formulaAtCell cell }
  let c := ft.refCounts formulaID - 1
  let ft := { ft with refCounts := fun i => if i = formulaID then c else ft.refCounts i }
  if c ≤ 0 then (true, ft.removeFormula formulaID) else (false, ft)

/-! ## Sparse cell store (`worksheet.go`) -/

def ChunkRows : Nat := 256
def ChunkCols : Nat := 256
def ChunkSize : Nat := ChunkRows * ChunkCols

def CellValueTypeEmpty : Nat := 0
def CellValueTypeNumber : Nat := 1
def CellValueTypeString : Nat := 2
def CellValueTypeDate : Nat := 3
def CellValueTypeBoolean : Nat := 4
def CellValueTypeError : Nat := 5

/-- `Chunk` from `worksheet.go`: a 256×256 tile in structure-of-arrays
layout.  Arrays are functions over the local index (Go allocates
`ChunkSize`-long slices, so every in-range bounds check passes); the lazily
allocated arrays are `Option`-wrapped, `none` playing Go `nil`.  The
occupancy bitmap keeps one bit per cell (Go packs 64 bits per `int`; the
packing is irrelevant to every observable).  The diagnostic `cellsByType`
counters of the surrounding worksheet are omitted (they feed only the
`GetCellsByType` diagnostics). -/
structure Chunk where
  types : Nat → Nat
  nonEmptyCount : Int
  occupiedBitmap : Nat → Bool
  numbers : Option (Nat → ℚ)
  stringIDs : Option (Nat → Nat)
  formulaIDs : Option (Nat → Nat)
  formulaResultTypes : Option (Nat → Nat)
  formulaResultNumbers : Option (Nat → ℚ)
  formulaResultStringIDs : Option (Nat → Nat)
  formulaResultBooleans : Option (Nat → Nat)

/-- A freshly allocated chunk: only `Types` and the occupancy bitmap exist. -/
def Chunk.fresh : Chunk :=
  { types := fun _ => CellValueTypeEmpty
    nonEmptyCount := 0
    occupiedBitmap := fun _ => false
    numbers := none
    stringIDs := none
    formulaIDs := none
    formulaResultTypes := none
    formulaResultNumbers := none
    formulaResultStringIDs := none
    formulaResultBooleans := none }

/-- `Worksheet` from `worksheet.go` (chunk map, total-cells counter, owner
id). -/
structure Worksheet where
  chunks : List ((Nat × Nat) × Chunk)
  totalCells : Int
  worksheetID : Nat

def Worksheet.new (worksheetID : Nat) : Worksheet :=
  { chunks := [], totalCells := 0, worksheetID := worksheetID }

/-- `getChunk`: retrieve or create the chunk at the given chunk
coordinates. -/
def Worksheet.getChunk (w : Worksheet) (chunkRow chunkCol : Nat) :
    Chunk × Worksheet :=
  let key := (chunkRow, chunkCol)
  match lookupA w.chunks key with
  | some chunk => (chunk, w)
  | none => (Chunk.fresh, { w with chunks := w.chunks ++ [(key, Chunk.fresh)] })

/-- `Cell` from `cell.go` as reconstituted by `GetCell` (the display-only
`Formula` text field, which `GetCell` fills from the pretty-printer, is
omitted). -/
structure Cell where
  type : Nat
  row : Nat
  col : Nat
  value : Prim
  stringID : Nat
  formulaID : Nat
  formulaResultType : Nat
deriving DecidableEq, Repr

/-- `GetCell` from `worksheet.go`: locate the chunk, reconstitute the value
from the typed arrays, then overlay the formula id and (when present) the
formula result. -/
def Worksheet.getCell (w : Worksheet) (strs : StringTable) (row col : Nat) :
    Option Cell :=
  let key := (row / ChunkRows, col / ChunkCols)
  match lookupA w.chunks key with
  | none => none
  | some chunk =>
    let idx := (col % ChunkCols) * ChunkRows + (row % ChunkRows)
    let hasFormula :=
      match chunk.formulaIDs with
      | some f => f idx ≠ 0
      | none => false
    if chunk.types idx = CellValueTypeEmpty ∧ hasFormula = false then none
    else
      let base : Cell :=
        { type := chunk.types idx, row := row, col := col, value := .empty,
          stringID := 0, formulaID := 0, formulaResultType := 0 }
      let cell :=
        if chunk.types idx = CellValueTypeNumber ∨ chunk.types idx = CellValueTypeDate then
          match chunk.numbers with
          | some nums => { base with value := .num (nums idx) }
          | none => base
        else if chunk.types idx = CellValueTypeString then
          match chunk.stringIDs with
          | some sids =>
            { base with
              stringID := sids idx
              value := (match strs.getString (sids idx) with
                        | some s => .str s
                        | none => .empty) }
          | none => base
        else if chunk.types idx = CellValueTypeBoolean then
          match chunk.numbers with
          | some nums => { base with value := .bool (nums idx ≠ 0) }
          | none => base
        else if chunk.types idx = CellValueTypeError then
          let code := match chunk.numbers with
            | some nums => errorCodeOfRat (nums idx)
            | none => errorCodeOfRat 0
          let sid := match chunk.stringIDs with
            | some sids => sids idx
            | none => 0
          let message := match chunk.stringIDs with
            | some sids =>
              match strs.getString (sids idx) with
              | some s => s
              | none => ""
            | none => ""
          { base with
            stringID := sid
            value := .err { ErrorCode := code, Message := message } }
        else base
      let cell :=
        match chunk.formulaIDs with
        | some f =>
          if f idx ≠ 0 then
            let cell := { cell with formulaID := f idx }
            match chunk.formulaResultTypes with
            | some frt =>
              let cell := { cell with formulaResultType := frt idx }
              if frt idx = CellValueTypeNumber ∨ frt idx = CellValueTypeDate then
                match chunk.formulaResultNumbers with
                | some nums => { cell with value := .num (nums idx) }
                | none => cell
              else if frt idx = CellValueTypeString then
                match chunk.formulaResultStringIDs with
                | some sids =>
                  match strs.getString (sids idx) with
                  | some s => { cell with value := .str s }
                  | none => cell
                | none => cell
              else if frt idx = CellValueTypeBoolean then
                match chunk.formulaResultBooleans with
                | some bools => { cell with value := .bool (bools idx ≠ 0) }
                | none => cell
              else if frt idx = CellValueTypeError then
                let code := match chunk.formulaResultNumbers with
                  | some nums => errorCodeOfRat (nums idx)
                  | none => errorCodeOfRat 0
                let message := match chunk.formulaResultStringIDs with
                  | some sids =>
                    match strs.getString (sids idx) with
                    | some s => s
                    | none => ""
                  | none => ""
                { cell with value := .err { ErrorCode := code, Message := message } }
              else cell
            | none => cell
          else cell
        | none => cell
      some cell

/-! ## Dependency graph (`graph.go`)

Go stores node pointers inside the precedent/dependent maps; the model
stores addresses and reads the pointed-to node through the graph's node map,
which is the same object. -/

/-- `DependencyNode` (the cached `Value` field is omitted: `SetValue` /
`GetValue` are never called by the engine). -/
structure DependencyNode where
  cellPrecedents : List CellAddress
  cellDependents : List CellAddress
  rangePrecedents : List RangeAddress
  formula : String
  isDirty : Bool
deriving DecidableEq, Repr

def DependencyNode.fresh : DependencyNode :=
  { cellPrecedents := [], cellDependents := [], rangePrecedents := [],
    formula := "", isDirty := false }

/-- `DependencyGraph`. -/
structure DependencyGraph where
  nodes : List (CellAddress × DependencyNode)
  rangeObservers : List (RangeAddress × List CellAddress)
  dirtySet : List CellAddress
  volatileCells : List CellAddress
deriving DecidableEq, Repr

def DependencyGraph.new : DependencyGraph :=
  { nodes := [], rangeObservers := [], dirtySet := [], volatileCells := [] }

/-- `GetOrCreateNode`. -/
def DependencyGraph.getOrCreateNode (g : DependencyGraph) (addr : CellAddress) :
    DependencyGraph :=
  match lookupA g.nodes addr with
  | some _ => g
  | none => { g with nodes := g.nodes ++ [(addr, DependencyNode.fresh)] }

/-- Update one node in place (helper for the Go in-place pointer writes). -/
def DependencyGraph.updNode (g : DependencyGraph) (addr : CellAddress)
    (f : DependencyNode → DependencyNode) : DependencyGraph :=
  { g with nodes := g.nodes.map (fun e => if e.1 = addr then (e.1, f e.2) else e) }

/-- `cleanupNodeIfEmpty`: drop a node that has no formula, no edges and no
range precedents, together with its dirty flag. -/
def DependencyGraph.cleanupNodeIfEmpty (g : DependencyGraph) (addr : CellAddress) :
    DependencyGraph :=
  match lookupA g.nodes addr with
  | none => g
  | some node =>
    if node.formula ≠ "" ∨ node.cellPrecedents ≠ [] ∨ node.cellDependents ≠ [] ∨
        node.rangePrecedents ≠ [] then g
    else
      { g with nodes := removeA g.nodes addr, dirtySet := setRemove g.dirtySet addr }

/-- `AddCellDependency` (`from` depends on `to`). -/
def DependencyGraph.addCellDependency (g : DependencyGraph) (fromA toA : CellAddress) :
    DependencyGraph :=
  let g := (g.getOrCreateNode fromA).getOrCreateNode toA
  let g := g.updNode fromA (fun n => { n with cellPrecedents := setAdd n.cellPrecedents toA })
  g.updNode toA (fun n => { n with cellDependents := setAdd n.cellDependents fromA })

/-- `RemoveCellDependency`. -/
def DependencyGraph.removeCellDependency (g : DependencyGraph) (fromA toA : CellAddress) :
    DependencyGraph :=
  if (lookupA g.nodes fromA).isSome ∧ (lookupA g.nodes toA).isSome then
    let g := g.updNode fromA (fun n => { n with cellPrecedents := setRemove n.cellPrecedents toA })
    let g := g.updNode toA (fun n => { n with cellDependents := setRemove n.cellDependents fromA })
    (g.cleanupNodeIfEmpty fromA).cleanupNodeIfEmpty toA
  else g

/-- `AddRangeDependency`. -/
def DependencyGraph.addRangeDependency (g : DependencyGraph) (fromA : CellAddress)
    (rangeAddr : RangeAddress) : DependencyGraph :=
  let g := g.getOrCreateNode fromA
  let g := g.updNode fromA (fun n => { n with rangePrecedents := setAdd n.rangePrecedents rangeAddr })
  let observers := setAdd ((lookupA g.rangeObservers rangeAddr).getD []) fromA
  { g with rangeObservers := insertA g.rangeObservers rangeAddr observers }

/-- `RemoveRangeDependency`. -/
def DependencyGraph.removeRangeDependency (g : DependencyGraph) (fromA : CellAddress)
    (rangeAddr : RangeAddress) : DependencyGraph :=
  match lookupA g.nodes fromA with
  | none => g
  | some _ =>
    let g := g.updNode fromA (fun n => { n with rangePrecedents := setRemove n.rangePrecedents rangeAddr })
    let g :=
      match lookupA g.rangeObservers rangeAddr with
      | some observers =>
        let observers := setRemove observers fromA
        { g with rangeObservers :=
            if observers = [] then removeA g.rangeObservers rangeAddr
            else insertA g.rangeObservers rangeAddr observers }
      | none => g
    g.cleanupNodeIfEmpty fromA

/-- `ClearDependencies`: remove every cell and range dependency of `addr`
(iterating over a snapshot of the node's edge lists, as the Go range-over-map
deletion does). -/
def DependencyGraph.clearDependencies (g : DependencyGraph) (addr : CellAddress) :
    DependencyGraph :=
  match lookupA g.nodes addr with
  | none => g
  | some node =>
    let g := node.cellPrecedents.foldl (fun g p => g.removeCellDependency addr p) g
    node.rangePrecedents.foldl (fun g r => g.removeRangeDependency addr r) g

/-- `MarkDirty`. -/
def DependencyGraph.markDirty (g : DependencyGraph) (addr : CellAddress) :
    DependencyGraph :=
  let g := { g with dirtySet := setAdd g.dirtySet addr }
  match lookupA g.nodes addr with
  | some _ => g.updNode addr (fun n => { n with isDirty := true })
  | none => g

/-- `ClearDirty`. -/
def DependencyGraph.clearDirty (g : DependencyGraph) (addr : CellAddress) :
    DependencyGraph :=
  let g := { g with dirtySet := setRemove g.dirtySet addr }
  match lookupA g.nodes addr with
  | some _ => g.updNode addr (fun n => { n with isDirty := false })
  | none => g

/-- `ClearAllDirty`. -/
def DependencyGraph.clearAllDirty (g : DependencyGraph) : DependencyGraph :=
  { g with dirtySet := [],
           nodes := g.nodes.map (fun e => (e.1, { e.2 with isDirty := false })) }

/-- `IsInRange`. -/
def DependencyGraph.isInRange (cell : CellAddress) (r : RangeAddress) : Bool :=
  cell.WorksheetID = r.WorksheetID ∧
    r.StartRow ≤ cell.Row ∧ cell.Row ≤ r.EndRow ∧
    r.StartColumn ≤ cell.Column ∧ cell.Column ≤ r.EndColumn

/-- `MarkCellIfInRangeDirty`: walk every observed range; when the written
cell lies inside, mark all observers dirty. -/
def DependencyGraph.markCellIfInRangeDirty (g : DependencyGraph) (addr : CellAddress) :
    DependencyGraph :=
  g.rangeObservers.foldl
    (fun g e =>
      if DependencyGraph.isInRange addr e.1 then
        e.2.foldl (fun g observer => g.markDirty observer) g
      else g)
    g

/-- `GetDirectDependents`. -/
def DependencyGraph.getDirectDependents (g : DependencyGraph) (addr : CellAddress) :
    List CellAddress :=
  match lookupA g.nodes addr with
  | some node => node.cellDependents
  | none => []

/-- `GetDirectPrecedents`. -/
def DependencyGraph.getDirectPrecedents (g : DependencyGraph) (addr : CellAddress) :
    List CellAddress :=
  match lookupA g.nodes addr with
  | some node => node.cellPrecedents
  | none => []

/-- `GetRangePrecedents`. -/
def DependencyGraph.getRangePrecedents (g : DependencyGraph) (addr : CellAddress) :
    List RangeAddress :=
  match lookupA g.nodes addr with
  | some node => node.rangePrecedents
  | none => []

/-- `RemoveNode` from `graph.go`. -/
def DependencyGraph.removeNode (g : DependencyGraph) (addr : CellAddress) : DependencyGraph :=
  match lookupA g.nodes addr with
  | none => g
  | some node =>
    let g := node.cellPrecedents.foldl
      (fun g p =>
        let g := g.updNode p (fun n => { n with cellDependents := setRemove n.cellDependents addr })
        g.cleanupNodeIfEmpty p)
      g
    let g := node.cellDependents.foldl
      (fun g d => g.updNode d (fun n => { n with cellPrecedents := setRemove n.cellPrecedents addr }))
      g
    let g := node.rangePrecedents.foldl
      (fun g r =>
        match lookupA g.rangeObservers r with
        | some observers =>
          let observers := setRemove observers addr
          { g with rangeObservers :=
              if observers = [] then removeA g.rangeObservers r
              else insertA g.rangeObservers r observers }
        | none => g)
      g
    { g with nodes := removeA g.nodes addr,
             dirtySet := setRemove g.dirtySet addr,
             volatileCells := setRemove g.volatileCells addr }

/-- `SetFormula` on the graph node. -/
def DependencyGraph.setFormula (g : DependencyGraph) (addr : CellAddress)
    (formula : String) : DependencyGraph :=
  (g.getOrCreateNode addr).updNode addr (fun n => { n with formula := formula })

/-- `MarkVolatile`. -/
def DependencyGraph.markVolatile (g : DependencyGraph) (addr : CellAddress) :
    DependencyGraph :=
  { g with volatileCells := setAdd g.volatileCells addr }

/-- `UnmarkVolatile`. -/
def DependencyGraph.unmarkVolatile (g : DependencyGraph) (addr : CellAddress) :
    DependencyGraph :=
  { g with volatileCells := setRemove g.volatileCells addr }

/-- `MarkAllVolatileDirty`. -/
def DependencyGraph.markAllVolatileDirty (g : DependencyGraph) : DependencyGraph :=
  g.volatileCells.foldl (fun g addr => g.markDirty addr) g

/-! ## Shared storage and cell-store operations (`worksheet.go`, engine
state from `sheet.go`) -/

/-- `Storage`: the shared tables.  The worksheet table is reduced to its
`definedWorksheets` id-indexed map — the claims quantify over resolved
addresses, so the name↔id maps and the undefined/refcount bookkeeping of
`WorksheetTable` are not needed; the named-range table is likewise omitted
(no modelled formula references one). -/
structure Storage where
  worksheets : List (Nat × Worksheet)
  strings : StringTable
  formulas : FormulaTable
  graph : DependencyGraph

/-- `SetCell` from `worksheet.go`, lifted to `Storage` (the Go method
reaches the shared tables through the worksheet's back-pointer).  A call on
an undefined worksheet id leaves the storage unchanged (the Go method can
only be invoked through a defined worksheet).  Note the Go quirks carried
over: a formula write stores no formula id here (`formulaID` stays 0 and is
stored by `Spreadsheet.Set` directly into the chunk), and clearing a cell
with `nil` neither deletes an emptied chunk nor avoids creating one. -/
def Storage.setCell (s : Storage) (wsID row col : Nat) (value : Prim)
    (formula : String) : Storage :=
  match lookupA s.worksheets wsID with
  | none => s
  | some w =>
    let key := (row / ChunkRows, col / ChunkCols)
    let (chunk, w) := w.getChunk (row / ChunkRows) (col / ChunkCols)
    let idx := (col % ChunkCols) * ChunkRows + (row % ChunkRows)
    let wasEmpty := chunk.types idx = CellValueTypeEmpty
    -- clear any existing formula (releasing its interned reference)
    let (chunk, formulas) :=
      match chunk.formulaIDs with
      | some f =>
        if f idx ≠ 0 then
          let cellAddr : CellAddress := ⟨w.worksheetID, row, col⟩
          let (_, ft) := s.formulas.removeCellReference (f idx) cellAddr
          ({ chunk with formulaIDs := some (upd f idx 0) }, ft)
        else (chunk, s.formulas)
      | none => (chunk, s.formulas)
    -- store the value / formula placeholder
    let (chunk, w, strings) :=
      if value = .empty ∧ formula = "" then
        let chunk := { chunk with types := upd chunk.types idx CellValueTypeEmpty }
        if wasEmpty then (chunk, w, s.strings)
        else ({ chunk with nonEmptyCount := chunk.nonEmptyCount - 1 },
              { w with totalCells := w.totalCells - 1 }, s.strings)
      else if formula ≠ "" then
        if wasEmpty then
          ({ chunk with nonEmptyCount := chunk.nonEmptyCount + 1 },
           { w with totalCells := w.totalCells + 1 }, s.strings)
        else (chunk, w, s.strings)
      else
        let (chunk, w) :=
          if wasEmpty then
            ({ chunk with nonEmptyCount := chunk.nonEmptyCount + 1 },
             { w with totalCells := w.totalCells + 1 })
          else (chunk, w)
        match value with
        | .num q =>
          let nums := chunk.numbers.getD (fun _ => 0)
          ({ chunk with
             types := upd chunk.types idx CellValueTypeNumber
             numbers := some (upd nums idx q) }, w, s.strings)
        | .str v =>
          let sids := chunk.stringIDs.getD (fun _ => 0)
          let (sid, strings) := s.strings.intern v
          ({ chunk with
             types := upd chunk.types idx CellValueTypeString
             stringIDs := some (upd sids idx sid) }, w, strings)
        | .bool b =>
          let nums := chunk.numbers.getD (fun _ => 0)
          ({ chunk with
             types := upd chunk.types idx CellValueTypeBoolean
             numbers := some (upd nums idx (if b then 1 else 0)) }, w, s.strings)
        | .err e =>
          let sids := chunk.stringIDs.getD (fun _ => 0)
          let nums := chunk.numbers.getD (fun _ => 0)
          let (sid, strings) := s.strings.intern e.Message
          ({ chunk with
             types := upd chunk.types idx CellValueTypeError
             numbers := some (upd nums idx (e.ErrorCode.toNat : ℚ))
             stringIDs := some (upd sids idx sid) }, w, strings)
        | .empty => (chunk, w, s.strings)  -- unreachable: handled above
    -- occupancy bitmap
    let chunk :=
      if chunk.types idx ≠ CellValueTypeEmpty then
        { chunk with occupiedBitmap := fun j => if j = idx then true else chunk.occupiedBitmap j }
      else
        { chunk with occupiedBitmap := fun j => if j = idx then false else chunk.occupiedBitmap j }
    -- (Go's trailing `if formulaID != 0` store is dead code: the local
    -- `formulaID` is always 0 in `SetCell`.)
    let w := { w with chunks := insertA w.chunks key chunk }
    { s with worksheets := insertA s.worksheets wsID w, strings := strings,
             formulas := formulas }

/-- `RemoveCell` from `worksheet.go`, lifted to `Storage`: clears the cell,
releases interned references, and deletes the chunk when its occupied count
reaches zero. -/
def Storage.removeCell (s : Storage) (wsID row col : Nat) : Storage :=
  match lookupA s.worksheets wsID with
  | none => s
  | some w =>
    let key := (row / ChunkRows, col / ChunkCols)
    match lookupA w.chunks key with
    | none => s
    | some chunk =>
      let idx := (col % ChunkCols) * ChunkRows + (row % ChunkRows)
      if chunk.types idx = CellValueTypeEmpty then s
      else
        let (chunk, formulas) :=
          match chunk.formulaIDs with
          | some f =>
            if f idx ≠ 0 then
              let cellAddr : CellAddress := ⟨w.worksheetID, row, col⟩
              let (_, ft) := s.formulas.removeCellReference (f idx) cellAddr
              ({ chunk with formulaIDs := some (upd f idx 0) }, ft)
            else (chunk, s.formulas)
          | none => (chunk, s.formulas)
        let (chunk, strings) :=
          if chunk.types idx = CellValueTypeString ∨ chunk.types idx = CellValueTypeError then
            match chunk.stringIDs with
            | some sids =>
              if sids idx ≠ 0 then
                let (_, st) := s.strings.removeReference (sids idx)
                ({ chunk with stringIDs := some (upd sids idx 0) }, st)
              else (chunk, s.strings)
            | none => (chunk, s.strings)
          else (chunk, s.strings)
        let chunk := { chunk with
          types := upd chunk.types idx CellValueTypeEmpty
          nonEmptyCount := chunk.nonEmptyCount - 1
          occupiedBitmap := fun j => if j = idx then false else chunk.occupiedBitmap j }
        let w := { w with totalCells := w.totalCells - 1 }
        let w :=
          if chunk.nonEmptyCount = 0 then { w with chunks := removeA w.chunks key }
          else { w with chunks := insertA w.chunks key chunk }
        { s with worksheets := insertA s.worksheets wsID w, strings := strings,
                 formulas := formulas }

/-- `SetFormulaResult` from `worksheet.go`, lifted to `Storage`: store the
calculated result in the mirror arrays (a missing chunk is a no-op).  A
`Range` result matches no case of the Go type switch: the result-type array
is allocated but nothing is written. -/
def Storage.setFormulaResult (s : Storage) (wsID row col : Nat) (result : Value) :
    Storage :=
  match lookupA s.worksheets wsID with
  | none => s
  | some w =>
    let key := (row / ChunkRows, col / ChunkCols)
    match lookupA w.chunks key with
    | none => s
    | some chunk =>
      let idx := (col % ChunkCols) * ChunkRows + (row % ChunkRows)
      let frt := chunk.formulaResultTypes.getD (fun _ => 0)
      let chunk := { chunk with formulaResultTypes := some frt }
      let (chunk, strings) :=
        match result with
        | .prim (.num q) =>
          let nums := chunk.formulaResultNumbers.getD (fun _ => 0)
          ({ chunk with
             formulaResultTypes := some (upd frt idx CellValueTypeNumber)
             formulaResultNumbers := some (upd nums idx q) }, s.strings)
        | .prim (.str v) =>
          let sids := chunk.formulaResultStringIDs.getD (fun _ => 0)
          let (sid, strings) := s.strings.intern v
          ({ chunk with
             formulaResultTypes := some (upd frt idx CellValueTypeString)
             formulaResultStringIDs := some (upd sids idx sid) }, strings)
        | .prim (.bool b) =>
          let bools := chunk.formulaResultBooleans.getD (fun _ => 0)
          ({ chunk with
             formulaResultTypes := some (upd frt idx CellValueTypeBoolean)
             formulaResultBooleans := some (upd bools idx (if b then 1 else 0)) }, s.strings)
        | .prim (.err e) =>
          let sids := chunk.formulaResultStringIDs.getD (fun _ => 0)
          let nums := chunk.formulaResultNumbers.getD (fun _ => 0)
          let (sid, strings) := s.strings.intern e.Message
          ({ chunk with
             formulaResultTypes := some (upd frt idx CellValueTypeError)
             formulaResultNumbers := some (upd nums idx (e.ErrorCode.toNat : ℚ))
             formulaResultStringIDs := some (upd sids idx sid) }, strings)
        | .prim .empty =>
          ({ chunk with formulaResultTypes := some (upd frt idx CellValueTypeEmpty) },
           s.strings)
        | .range _ => (chunk, s.strings)
      let w := { w with chunks := insertA w.chunks key chunk }
      { s with worksheets := insertA s.worksheets wsID w, strings := strings }

/-! ## Recalculation engine (`sheet.go`, evaluator file)

The textual stages are outside the model: `resolveAddress` (claims quantify
over resolved `(worksheet id, row, column)` coordinates, to which the
deterministic parser maps each well-formed address) and the formula
lexer/parser (the formula entry point receives the already-parsed tree next
to its source text).  `calculateCell` is recursive through the dependency
graph; Go bounds it dynamically by the processing set, the model by a fuel
parameter, and `calculateCell_fuel_sufficient` below shows the fuel chosen
by the driver is never exhausted, so the fuel-model computes exactly the Go
recursion. -/

/-- `CalculationStack` from `sheet.go`. -/
structure CalculationStack where
  items : List CellAddress
  processing : List CellAddress
  completed : List CellAddress
deriving DecidableEq, Repr

def CalculationStack.new : CalculationStack :=
  { items := [], processing := [], completed := [] }

def CalculationStack.push (cs : CalculationStack) (addr : CellAddress) :
    CalculationStack :=
  { cs with items := cs.items ++ [addr], processing := setAdd cs.processing addr }

/-- `pop`: remove the top item and drop it from the processing set. -/
def CalculationStack.pop (cs : CalculationStack) : CalculationStack :=
  match cs.items.getLast? with
  | none => cs
  | some addr =>
    { cs with items := cs.items.dropLast, processing := setRemove cs.processing addr }

def CalculationStack.isProcessing (cs : CalculationStack) (addr : CellAddress) : Bool :=
  addr ∈ cs.processing

def CalculationStack.markCompleted (cs : CalculationStack) (addr : CellAddress) :
    CalculationStack :=
  { cs with completed := setAdd cs.completed addr }

def CalculationStack.isCompleted (cs : CalculationStack) (addr : CellAddress) : Bool :=
  addr ∈ cs.completed

/-- `Spreadsheet` from `sheet.go` (the injected `BuiltInFunctions` bundle is
the pure `Call` above). -/
structure Spreadsheet where
  storage : Storage
  calculationStack : CalculationStack
  currentAddress : CellAddress

/-- `NewSpreadsheet` with no worksheets defined. -/
def Spreadsheet.new : Spreadsheet :=
  { storage :=
      { worksheets := [], strings := StringTable.new, formulas := FormulaTable.new,
        graph := DependencyGraph.new }
    calculationStack := CalculationStack.new
    currentAddress := ⟨0, 0, 0⟩ }

/-- Apply a graph operation to the engine's graph. -/
def Spreadsheet.withGraph (s : Spreadsheet) (f : DependencyGraph → DependencyGraph) :
    Spreadsheet :=
  { s with storage := { s.storage with graph := f s.storage.graph } }

/-- Go callers observe child-evaluation errors as error values. -/
def errToVal : Except SpreadsheetError Value → Value
  | .error e => .prim (.err e)
  | .ok v => v

/-- The row-major value list a `CellRange` built over `(wsID, bounds)` yields
through `IterateValues`: one entry per cell of the rectangle, `Prim.empty`
for unoccupied cells. -/
def rangeValues (w : Worksheet) (strs : StringTable)
    (startRow startCol endRow endCol : Nat) : List Prim :=
  (List.range (endRow + 1 - startRow)).flatMap (fun dr =>
    (List.range (endCol + 1 - startCol)).map (fun dc =>
      match w.getCell strs (startRow + dr) (startCol + dc) with
      | some cell => cell.value
      | none => Prim.empty))

mutual

/-- `ASTNode.Eval` (tree-walking evaluation with the current cell threaded
through `s.currentAddress`).  A cell reference to a formula cell returns the
cached result because `GetCell` already substitutes it; the Go branch pair
on `FormulaResultType` returns `cell.Value` either way and is collapsed. -/
def evalAST (s : Spreadsheet) : AST → Except SpreadsheetError Value
  | .strNode v => .ok (.prim (.str v))
  | .numNode v => .ok (.prim (.num v))
  | .boolNode b => .ok (.prim (.bool b))
  | .cellRef ws ro co =>
    let cur := s.currentAddress
    let targetRow : Int := (cur.Row : Int) + ro
    let targetCol : Int := (cur.Column : Int) + co
    if targetRow < 0 ∨ targetCol < 0 then
      .error (NewSpreadsheetError .ref "Invalid cell reference")
    else
      let wsID := if ws = 0 then cur.WorksheetID else ws
      match lookupA s.storage.worksheets wsID with
      | none => .error (NewSpreadsheetError .ref "Worksheet not found")
      | some w =>
        match w.getCell s.storage.strings targetRow.toNat targetCol.toNat with
        | none => .ok (.prim .empty)
        | some cell => .ok (.prim cell.value)
  | .rangeRef ws sro sco ero eco =>
    let cur := s.currentAddress
    let startRow : Int := (cur.Row : Int) + sro
    let startCol : Int := (cur.Column : Int) + sco
    let endRow : Int := (cur.Row : Int) + ero
    let endCol : Int := (cur.Column : Int) + eco
    if startRow < 0 ∨ startCol < 0 ∨ endRow < 0 ∨ endCol < 0 then
      .error (NewSpreadsheetError .ref "Invalid range reference")
    else
      let wsID := if ws = 0 then cur.WorksheetID else ws
      match lookupA s.storage.worksheets wsID with
      | none => .error (NewSpreadsheetError .ref "Worksheet not found")
      | some w =>
        .ok (.range (rangeValues w s.storage.strings
          (min startRow.toNat endRow.toNat) (min startCol.toNat endCol.toNat)
          (max startRow.toNat endRow.toNat) (max startCol.toNat endCol.toNat)))
  | .binOp op l r =>
    applyBinaryOp op (errToVal (evalAST s l)) (errToVal (evalAST s r))
  | .unOp op a => applyUnaryOp op (errToVal (evalAST s a))
  | .funcCall name argNodes => Call name (evalArgs s argNodes)

/-- The eager argument evaluation of `FunctionCallNode.Eval`: every argument
is evaluated first and child errors are passed along as error values. -/
def evalArgs (s : Spreadsheet) : List AST → List Value
  | [] => []
  | a :: rest => errToVal (evalAST s a) :: evalArgs s rest

end

mutual

/-- `extractDependenciesRecursive` from `sheet.go`, as a graph
transformation (the named-range case concerns the omitted named-range
tracking tables). -/
def extractDependenciesRec (cellAddr : CellAddress) :
    AST → DependencyGraph → DependencyGraph
  | .cellRef ws ro co, g =>
    let targetRow : Int := (cellAddr.Row : Int) + ro
    let targetCol : Int := (cellAddr.Column : Int) + co
    if 0 ≤ targetRow ∧ 0 ≤ targetCol then
      let wsID := if ws = 0 then cellAddr.WorksheetID else ws
      g.addCellDependency cellAddr ⟨wsID, targetRow.toNat, targetCol.toNat⟩
    else g
  | .rangeRef ws sro sco ero eco, g =>
    let startRow : Int := (cellAddr.Row : Int) + sro
    let startCol : Int := (cellAddr.Column : Int) + sco
    let endRow : Int := (cellAddr.Row : Int) + ero
    let endCol : Int := (cellAddr.Column : Int) + eco
    if 0 ≤ startRow ∧ 0 ≤ startCol ∧ 0 ≤ endRow ∧ 0 ≤ endCol then
      let wsID := if ws = 0 then cellAddr.WorksheetID else ws
      g.addRangeDependency cellAddr
        ⟨wsID, startRow.toNat, startCol.toNat, endRow.toNat, endCol.toNat⟩
    else g
  | .binOp _ l r, g => extractDependenciesRec cellAddr r (extractDependenciesRec cellAddr l g)
  | .unOp _ a, g => extractDependenciesRec cellAddr a g
  | .funcCall name args, g =>
    let g := if isVolatileFunction name then g.markVolatile cellAddr else g
    extractDepsList cellAddr args g
  | .strNode _, g => g
  | .numNode _, g => g
  | .boolNode _, g => g

/-- The argument fold of the dependency walk (`args.foldl`). -/
def extractDepsList (cellAddr : CellAddress) :
    List AST → DependencyGraph → DependencyGraph
  | [], g => g
  | a :: rest, g => extractDepsList cellAddr rest (extractDependenciesRec cellAddr a g)

end

/-- `extractDependencies` from `sheet.go`: clear the old dependencies and
volatile mark, then walk the tree. -/
def extractDependencies (cellAddr : CellAddress) (ast : AST)
    (g : DependencyGraph) : DependencyGraph :=
  extractDependenciesRec cellAddr ast ((g.clearDependencies cellAddr).unmarkVolatile cellAddr)

/-- `Get` from `sheet.go` at resolved coordinates: worksheet id 0 yields the
`VALUE` "Worksheet not found" error value, a missing worksheet or cell
yields `nil`, and otherwise the reconstituted cell value. -/
def Spreadsheet.get (s : Spreadsheet) (wsID row col : Nat) : Prim :=
  if wsID = 0 then .err (NewSpreadsheetError .value "Worksheet not found")
  else
    match lookupA s.storage.worksheets wsID with
    | none => .empty
    | some w =>
      match w.getCell s.storage.strings row col with
      | none => .empty
      | some cell => cell.value

/-- `AddWorksheet` reduced to the id-indexed table: define a fresh worksheet
under the next free id (Go's name-keyed `DefineWorksheet` assigns
`nextID`). -/
def Spreadsheet.addWorksheet (s : Spreadsheet) (wsID : Nat) : Spreadsheet :=
  { s with storage := { s.storage with
      worksheets := insertA s.storage.worksheets wsID (Worksheet.new wsID) } }

/-- The non-formula branch of `Set` from `sheet.go` at resolved coordinates
(the worksheet is defined whenever the claims apply; an unknown worksheet
returns an application error and mutates nothing, modelled as the identity):
clear the cell's dependencies, write the literal, then mark range observers
and direct dependents dirty. -/
def Spreadsheet.setLiteral (s : Spreadsheet) (wsID row col : Nat) (value : Prim) :
    Spreadsheet :=
  if wsID = 0 then s
  else
    match lookupA s.storage.worksheets wsID with
    | none => s
    | some _ =>
      let cellAddr : CellAddress := ⟨wsID, row, col⟩
      let s := s.withGraph (fun g => g.clearDependencies cellAddr)
      let s := { s with storage := s.storage.setCell wsID row col value "" }
      let s := s.withGraph (fun g => g.markCellIfInRangeDirty cellAddr)
      let deps := s.storage.graph.getDirectDependents cellAddr
      deps.foldl (fun s dep => s.withGraph (fun g => g.markDirty dep)) s

/-- The formula branch of `Set` from `sheet.go`, entered after the lexer and
parser succeeded: `formulaText` is the original `=`-prefixed source and
`ast` its parse (the lexer/parser stage itself is outside the model).
Interns the tree, extracts dependencies, records the formula on the graph
node, stores the cell with the formula id written into the chunk, and marks
the cell dirty. -/
def Spreadsheet.setFormulaAST (s : Spreadsheet) (wsID row col : Nat)
    (formulaText : String) (ast : AST) : Spreadsheet :=
  if wsID = 0 then s
  else
    match lookupA s.storage.worksheets wsID with
    | none => s
    | some _ =>
      let cellAddr : CellAddress := ⟨wsID, row, col⟩
      let (formulaID, formulas) := s.storage.formulas.internFormula ast cellAddr
      let s := { s with storage := { s.storage with formulas := formulas } }
      let s := s.withGraph (fun g => extractDependencies cellAddr ast g)
      let s := s.withGraph (fun g => g.setFormula cellAddr formulaText)
      let s := { s with storage := s.storage.setCell wsID row col .empty formulaText }
      -- store the formula ID directly in the chunk
      let s :=
        match lookupA s.storage.worksheets wsID with
        | none => s
        | some w =>
          let key := (row / ChunkRows, col / ChunkCols)
          let (chunk, w) := w.getChunk (row / ChunkRows) (col / ChunkCols)
          let idx := (col % ChunkCols) * ChunkRows + (row % ChunkRows)
          let fids := chunk.formulaIDs.getD (fun _ => 0)
          let chunk := { chunk with formulaIDs := some (upd fids idx formulaID) }
          let w := { w with chunks := insertA w.chunks key chunk }
          { s with storage := { s.storage with
              worksheets := insertA s.storage.worksheets wsID w } }
      s.withGraph (fun g => g.markDirty cellAddr)

/-- `Remove` from `sheet.go` at resolved coordinates. -/
def Spreadsheet.remove (s : Spreadsheet) (wsID row col : Nat) : Spreadsheet :=
  if wsID = 0 then s
  else
    match lookupA s.storage.worksheets wsID with
    | none => s
    | some _ =>
      let cellAddr : CellAddress := ⟨wsID, row, col⟩
      let dependents := s.storage.graph.getDirectDependents cellAddr
      let s := s.withGraph (fun g => g.clearDependencies cellAddr)
      let s := { s with storage := s.storage.removeCell wsID row col }
      let s := s.withGraph (fun g => g.markCellIfInRangeDirty cellAddr)
      let s := dependents.foldl (fun s dep => s.withGraph (fun g => g.markDirty dep)) s
      s.withGraph (fun g => g.removeNode cellAddr)

/-- The `REF` error every cycle path produces. -/
def circularRefError : SpreadsheetError :=
  NewSpreadsheetError .ref "Circular reference detected"

/-- Shorthand for `worksheet.SetFormulaResult(cellAddr.Row, cellAddr.Column,
result)` on the engine state. -/
def Spreadsheet.storeFormulaResult (s : Spreadsheet) (addr : CellAddress)
    (result : Value) : Spreadsheet :=
  { s with storage := s.storage.setFormulaResult addr.WorksheetID addr.Row addr.Column result }

/-- The rectangle enumeration of a range precedent, row-major, used by the
range pre-evaluation loop of `calculateCell`. -/
def rangeCellAddresses (r : RangeAddress) : List CellAddress :=
  (List.range (r.EndRow + 1 - r.StartRow)).flatMap (fun dr =>
    (List.range (r.EndColumn + 1 - r.StartColumn)).map (fun dc =>
      (⟨r.WorksheetID, r.StartRow + dr, r.StartColumn + dc⟩ : CellAddress)))

/-- The cell-precedent loop of `calculateCell` (`recurse` is the
recursive entry at one fuel level less): recurse into each precedent; a
reported `REF` is stored into the current cell and propagated, any other
report is ignored. -/
def precLoop (recurse : Spreadsheet → CellAddress →
      Option (Spreadsheet × Option SpreadsheetError)) (cellAddr : CellAddress) :
    Spreadsheet → List CellAddress → Option (Spreadsheet × Option SpreadsheetError)
  | s, [] => some (s, none)
  | s, p :: rest =>
    match recurse s p with
    | none => none
    | some (s, some e) =>
      if e.ErrorCode = .ref then
        let s := s.storeFormulaResult cellAddr (.prim (.err e))
        let s := s.withGraph (fun g => g.clearDirty cellAddr)
        some (s, some e)
      else precLoop recurse cellAddr s rest
    | some (s, none) => precLoop recurse cellAddr s rest

/-- The range-precedent pre-evaluation loop of `calculateCell`: evaluate
each still-dirty cell of each observed rectangle (errors are deliberately
ignored). -/
def rangeLoop (recurse : Spreadsheet → CellAddress →
      Option (Spreadsheet × Option SpreadsheetError)) :
    Spreadsheet → List CellAddress → Option Spreadsheet
  | s, [] => some s
  | s, rc :: rest =>
    if rc ∈ s.storage.graph.dirtySet then
      match recurse s rc with
      | none => none
      | some (s, _) => rangeLoop recurse s rest
    else rangeLoop recurse s rest

/-- The body of `calculateCell` between the stack push and the deferred
pop/complete. -/
def calcBodyF (recurse : Spreadsheet → CellAddress →
      Option (Spreadsheet × Option SpreadsheetError))
    (s : Spreadsheet) (cellAddr : CellAddress) :
    Option (Spreadsheet × Option SpreadsheetError) :=
  match lookupA s.storage.worksheets cellAddr.WorksheetID with
  | none => some (s, none)
  | some w =>
    match w.getCell s.storage.strings cellAddr.Row cellAddr.Column with
    | none => some (s.withGraph (fun g => g.clearDirty cellAddr), none)
    | some cell =>
      if cell.formulaID = 0 then
        some (s.withGraph (fun g => g.clearDirty cellAddr), none)
      else
        match s.storage.formulas.getAST cell.formulaID with
        | none => some (s, none)
        | some ast =>
          let rangePrecedents := s.storage.graph.getRangePrecedents cellAddr
          if rangePrecedents.any (fun r => DependencyGraph.isInRange cellAddr r) then
            let s := s.storeFormulaResult cellAddr (.prim (.err circularRefError))
            let s := s.withGraph (fun g => g.clearDirty cellAddr)
            some (s, some circularRefError)
          else
            match precLoop recurse cellAddr s
                (s.storage.graph.getDirectPrecedents cellAddr) with
            | none => none
            | some (s, some e) => some (s, some e)
            | some (s, none) =>
              let rangeCells :=
                (s.storage.graph.getRangePrecedents cellAddr).flatMap rangeCellAddresses
              match rangeLoop recurse s rangeCells with
              | none => none
              | some s =>
                let s := { s with currentAddress := cellAddr }
                match evalAST s ast with
                | .error e =>
                  some (s.storeFormulaResult cellAddr (.prim (.err e)), none)
                | .ok result =>
                  match result with
                  | .prim (.err e) =>
                    some (s.storeFormulaResult cellAddr (.prim (.err e)), none)
                  | _ =>
                    let result := if result = .prim .empty then .prim (.num 0) else result
                    let s := s.storeFormulaResult cellAddr result
                    let s := s.withGraph (fun g => g.clearDirty cellAddr)
                    let deps := s.storage.graph.getDirectDependents cellAddr
                    some (deps.foldl (fun s dep => s.withGraph (fun g => g.markDirty dep)) s,
                          none)

/-- `calculateCell` from `sheet.go`.  The fuel argument bounds the recursion
depth (one unit per push onto the processing stack); `none` means the fuel
ran out mid-computation, which `calculateCell_fuel_sufficient` rules out for
the driver's choice of fuel.  The result carries the Go return value:
`some err` is only ever a `REF` circular reference.  The push/defer pair of
the Go code brackets the body: every exit pops the stack and marks the cell
completed. -/
def calcCellF : Nat → Spreadsheet → CellAddress →
    Option (Spreadsheet × Option SpreadsheetError)
  | 0, _, _ => none
  | fuel + 1, s, cellAddr =>
    if s.calculationStack.isCompleted cellAddr then some (s, none)
    else if s.calculationStack.isProcessing cellAddr then
      some (s, some circularRefError)
    else
      let s := { s with calculationStack := s.calculationStack.push cellAddr }
      match calcBodyF (calcCellF fuel) s cellAddr with
      | none => none
      | some (s, res) =>
        some ({ s with
          calculationStack := (s.calculationStack.pop).markCompleted cellAddr }, res)

/-- Entry point under the name of the Go function. -/
def Spreadsheet.calculateCell (fuel : Nat) (s : Spreadsheet) (cellAddr : CellAddress) :
    Option (Spreadsheet × Option SpreadsheetError) :=
  calcCellF fuel s cellAddr

/-- The loop body at one fuel level, under its Go-side reading. -/
def Spreadsheet.calcBody (fuel : Nat) (s : Spreadsheet) (cellAddr : CellAddress) :
    Option (Spreadsheet × Option SpreadsheetError) :=
  calcBodyF (calcCellF fuel) s cellAddr

/-- The deterministic `(worksheet, row, column)` ordering used to sort the
dirty snapshot. -/
def addrLe (a b : CellAddress) : Bool :=
  if a.WorksheetID ≠ b.WorksheetID then a.WorksheetID < b.WorksheetID
  else if a.Row ≠ b.Row then a.Row < b.Row
  else a.Column ≤ b.Column

/-- Fuel that `calculateCell_fuel_sufficient` shows is never exhausted: one
unit per address that can ever enter the processing stack, plus slack. -/
def Spreadsheet.calcFuel (s : Spreadsheet) : Nat :=
  s.storage.graph.dirtySet.length + s.storage.graph.nodes.length + 2

/-- The per-snapshot-cell body of the `Calculate` drain loop: skip cells no
longer dirty, clear already-completed ones, and otherwise evaluate
(`calculateCell` errors have already been stored in the cell and are
dropped, as in Go). -/
def Spreadsheet.processSnapshot : List CellAddress → Spreadsheet → Spreadsheet
  | [], s => s
  | c :: rest, s =>
    if c ∈ s.storage.graph.dirtySet then
      if s.calculationStack.isCompleted c then
        Spreadsheet.processSnapshot rest (s.withGraph (fun g => g.clearDirty c))
      else
        match Spreadsheet.calculateCell (s.calcFuel) s c with
        | none => Spreadsheet.processSnapshot rest s
        | some (s, _) => Spreadsheet.processSnapshot rest s
    else Spreadsheet.processSnapshot rest s

/-- One iteration of the outer while-dirty loop of `Calculate`: snapshot the
dirty set, sort it `(worksheet, row, col)`, process each cell. -/
def Spreadsheet.calculateIteration (s : Spreadsheet) : Spreadsheet :=
  Spreadsheet.processSnapshot (s.storage.graph.dirtySet.insertionSort
    (fun a b => addrLe a b)) s

/-- The outer while-dirty loop, fuel-bounded (`calculate_loop_reaches_empty`
shows the driver's fuel always suffices to reach the empty dirty set, which
is the Go loop's exit condition). -/
def calcLoop : Nat → Spreadsheet → Spreadsheet
  | 0, s => s
  | n + 1, s =>
    if s.storage.graph.dirtySet = [] then s
    else calcLoop n s.calculateIteration

/-- `Calculate` from `sheet.go`: seed the volatile cells, reset the
calculation stack, drain the dirty set, then clear all dirty flags. -/
def Spreadsheet.calculate (s : Spreadsheet) : Spreadsheet :=
  let s := s.withGraph (fun g => g.markAllVolatileDirty)
  let s := { s with calculationStack := CalculationStack.new }
  let s := calcLoop s.calcFuel s
  s.withGraph (fun g => g.clearAllDirty)

example : parseNumber "123" = some 123 := by decide
example : parseNumber "-1.5" = some (-3/2) := by decide
example : parseNumber "2e2" = some 200 := by decide
example : parseNumber "abc" = none := by decide
example : parseNumber "" = none := by decide
example : toNumber (.prim (.bool true)) = some 1 := by decide
example : SUM [.range [.bool true]] = .ok (.num 1) := by decide
example : SUM [.range [.str "7", .num 2]] = .ok (.num 9) := by decide
example : MEDIAN [.range [.num 1, .str "text", .num 3, .bool true, .num 5]]
    = .ok (.num 2) := by decide
example : MODE [.range [.num 1, .num 2, .num 2, .num 3]] = .ok (.num 2) := by decide
example : MODE [.range [.num 1, .num 2, .num 3]]
    = .error (NewSpreadsheetError .na "MODE: no value appears more than once") := by decide
example : MAX [.prim (.str "abc")] = .ok (.num 0) := by decide
example : AVERAGEA [.range [.num 10, .bool true, .str "text"]]
    = .ok (.num (11 / 3)) := by decide

/-! # Claims -/

/-! ## C1: coercion of booleans / numeric strings inside ranges -/

/-- A value list free of error values (each claim's error-propagation cases
are treated separately). -/
def errFree (vs : List Prim) : Prop :=
  ∀ v ∈ vs, checkForError (.prim v) = none

instance (vs : List Prim) : Decidable (errFree vs) := by
  unfold errFree; infer_instance

/-- A value list free of empty values. -/
def emptyFree (vs : List Prim) : Prop :=
  ∀ v ∈ vs, v ≠ .empty

instance (vs : List Prim) : Decidable (emptyFree vs) := by
  unfold emptyFree; infer_instance

lemma sumRange_eq_direct (vs : List Prim) (acc : ℚ) (h : errFree vs) :
    sumRange vs acc = SUMgo (vs.map Value.prim) acc := by
  induction vs generalizing acc with
  | nil => rfl
  | cons v vs ih =>
    have hv := h v (by simp)
    have hrest : errFree vs := fun u hu => h u (by simp [hu])
    cases htn : toNumber (.prim v) with
    | some n => simp [sumRange, SUMgo, hv, htn, ih _ hrest]
    | none => simp [sumRange, SUMgo, hv, htn, ih _ hrest]

lemma maxRange_eq_direct (vs : List Prim) (acc : Option ℚ) (h : errFree vs) :
    maxRange vs acc = MAXgo (vs.map Value.prim) acc := by
  induction vs generalizing acc with
  | nil => rfl
  | cons v vs ih =>
    have hv := h v (by simp)
    have hrest : errFree vs := fun u hu => h u (by simp [hu])
    cases htn : toNumber (.prim v) with
    | some n => simp [maxRange, MAXgo, hv, htn, ih _ hrest]
    | none => simp [maxRange, MAXgo, hv, htn, ih _ hrest]

lemma minRange_eq_direct (vs : List Prim) (acc : Option ℚ) (h : errFree vs) :
    minRange vs acc = MINgo (vs.map Value.prim) acc := by
  induction vs generalizing acc with
  | nil => rfl
  | cons v vs ih =>
    have hv := h v (by simp)
    have hrest : errFree vs := fun u hu => h u (by simp [hu])
    cases htn : toNumber (.prim v) with
    | some n => simp [minRange, MINgo, hv, htn, ih _ hrest]
    | none => simp [minRange, MINgo, hv, htn, ih _ hrest]

lemma collectRange_eq_direct (vs : List Prim) (acc : List ℚ) (h : errFree vs) :
    collectRange vs acc = collectGo (vs.map Value.prim) acc := by
  induction vs generalizing acc with
  | nil => rfl
  | cons v vs ih =>
    have hv := h v (by simp)
    have hrest : errFree vs := fun u hu => h u (by simp [hu])
    cases htn : toNumber (.prim v) with
    | some n => simp [collectRange, collectGo, hv, htn, ih _ hrest]
    | none => simp [collectRange, collectGo, hv, htn, ih _ hrest]

lemma averageRange_eq_direct (vs : List Prim) (st : ℚ × Nat)
    (h : errFree vs) (he : emptyFree vs) :
    averageRange vs st = AVERAGEgo (vs.map Value.prim) st := by
  induction vs generalizing st with
  | nil => rfl
  | cons v vs ih =>
    have hv := h v (by simp)
    have hev := he v (by simp)
    have hrest : errFree vs := fun u hu => h u (by simp [hu])
    have herest : emptyFree vs := fun u hu => he u (by simp [hu])
    cases htn : toNumber (.prim v) with
    | some n => simp [averageRange, AVERAGEgo, hv, hev, htn, ih _ hrest herest]
    | none => simp [averageRange, AVERAGEgo, hv, hev, htn, ih _ hrest herest]

/-- C1, corrected.  Coercion is uniform: each aggregation function treats
the values of a range argument exactly as it would the same values passed
as direct arguments — booleans and numeric-looking strings coerce in both
positions (`AVERAGE` needs the values non-empty: a range iterator skips
empty cells where a direct empty argument would count as 0). -/
theorem sum_family_range_coercion_uniform (vs : List Prim) (h : errFree vs) :
    SUM [Value.range vs] = SUM (vs.map Value.prim) ∧
    MAX [Value.range vs] = MAX (vs.map Value.prim) ∧
    MIN [Value.range vs] = MIN (vs.map Value.prim) ∧
    MEDIAN [Value.range vs] = MEDIAN (vs.map Value.prim) ∧
    MODE [Value.range vs] = MODE (vs.map Value.prim) ∧
    (emptyFree vs → AVERAGE [Value.range vs] = AVERAGE (vs.map Value.prim)) := by
  refine ⟨?_, ?_, ?_, ?_, ?_, ?_⟩
  · show (SUMgo [Value.range vs] 0).map Prim.num = (SUMgo (vs.map Value.prim) 0).map Prim.num
    rw [show SUMgo [Value.range vs] 0 = SUMgo (vs.map Value.prim) 0 from ?_]
    rw [show SUMgo [Value.range vs] 0
        = match sumRange vs 0 with
          | .error e => .error e
          | .ok acc2 => SUMgo [] acc2 from rfl]
    rw [sumRange_eq_direct vs 0 h]
    cases SUMgo (vs.map Value.prim) 0 <;> rfl
  · show (match MAXgo [Value.range vs] none with
      | .error e => .error e
      | .ok none => .ok (.num 0)
      | .ok (some m) => .ok (.num m)) = MAX (vs.map Value.prim)
    rw [show MAXgo [Value.range vs] none
        = match maxRange vs none with
          | .error e => .error e
          | .ok acc2 => MAXgo [] acc2 from rfl]
    rw [maxRange_eq_direct vs none h]
    unfold MAX
    cases MAXgo (vs.map Value.prim) none <;> rfl
  · show (match MINgo [Value.range vs] none with
      | .error e => .error e
      | .ok none => .ok (.num 0)
      | .ok (some m) => .ok (.num m)) = MIN (vs.map Value.prim)
    rw [show MINgo [Value.range vs] none
        = match minRange vs none with
          | .error e => .error e
          | .ok acc2 => MINgo [] acc2 from rfl]
    rw [minRange_eq_direct vs none h]
    unfold MIN
    cases MINgo (vs.map Value.prim) none <;> rfl
  · unfold MEDIAN
    rw [show collectGo [Value.range vs] []
        = match collectRange vs [] with
          | .error e => .error e
          | .ok acc2 => collectGo [] acc2 from rfl]
    rw [collectRange_eq_direct vs [] h]
    cases collectGo (vs.map Value.prim) [] <;> rfl
  · unfold MODE
    rw [show collectGo [Value.range vs] []
        = match collectRange vs [] with
          | .error e => .error e
          | .ok acc2 => collectGo [] acc2 from rfl]
    rw [collectRange_eq_direct vs [] h]
    cases collectGo (vs.map Value.prim) [] <;> rfl
  · intro he
    show (match AVERAGEgo [Value.range vs] (0, 0) with
      | .error e => .error e
      | .ok (_, 0) => .error (NewSpreadsheetError .div0 "Division by zero")
      | .ok (sum, count) => .ok (.num (sum / count))) = AVERAGE (vs.map Value.prim)
    rw [show AVERAGEgo [Value.range vs] (0, 0)
        = match averageRange vs (0, 0) with
          | .error e => .error e
          | .ok st2 => AVERAGEgo [] st2 from rfl]
    rw [averageRange_eq_direct vs (0, 0) h he]
    unfold AVERAGE
    cases AVERAGEgo (vs.map Value.prim) (0, 0) <;> rfl

/-- C1 counterexample: inside a range, a boolean and a numeric-looking
string DO coerce and contribute — `SUM` over a range containing only `TRUE`
is 1, over a range containing only `"7"` is 7 (the claim asserts they
contribute nothing, which would give 0), exactly matching the coercion of
the same direct arguments. -/
theorem sum_range_bool_string_coerce :
    SUM [Value.range [Prim.bool true]] = .ok (.num 1) ∧
    SUM [Value.range [Prim.str "7"]] = .ok (.num 7) ∧
    SUM [Value.prim (Prim.bool true)] = .ok (.num 1) ∧
    SUM [Value.prim (Prim.str "7")] = .ok (.num 7) ∧
    (Except.ok (Prim.num 1) : Except SpreadsheetError Prim) ≠ .ok (.num 0) := by
  refine ⟨by decide, by decide, by decide, by decide, by decide⟩

/-- C1 witness: the uniformity theorem applied at a concrete mixed list. -/
theorem sum_family_uniform_witness :
    SUM [Value.range [Prim.bool true, Prim.str "2.5", Prim.num 3]]
      = SUM [Value.prim (Prim.bool true), Value.prim (Prim.str "2.5"),
             Value.prim (Prim.num 3)] :=
  (sum_family_range_coercion_uniform
    [Prim.bool true, Prim.str "2.5", Prim.num 3] (by decide)).1

/-! ## C4: COUNT / COUNTA counting and error policy -/

/-- Modelled from the claim's words: "a number value". -/
def isNumberValue : Prim → Bool
  | .num _ => true
  | _ => false

/-- Modelled from the claim's words: the count `COUNT` should produce — the
number values among the direct arguments and the range-borne values, with
everything else (booleans, strings, empties, errors) not counted. -/
def specCountNumbers (args : List Value) : Nat :=
  (args.map (fun arg =>
    match arg with
    | .prim p => if isNumberValue p then 1 else 0
    | .range vs => (vs.filter isNumberValue).length)).sum

/-- Modelled from the claim's words: the count `COUNTA` should produce —
every non-`nil` value found inside a range (error values included), and
every direct argument (the evaluator hands `COUNTA` a value for each
argument; Go counts each one unconditionally). -/
def specCountA (args : List Value) : Nat :=
  (args.map (fun arg =>
    match arg with
    | .prim _ => 1
    | .range vs => (vs.filter (fun v => !(v = Prim.empty))).length)).sum

/-- The first error among the direct arguments, in argument order. -/
def firstDirectError : List Value → Option SpreadsheetError
  | [] => none
  | arg :: rest =>
    match checkForError arg with
    | some e => some e
    | none => firstDirectError rest

lemma countRange_spec (vs : List Prim) (c : Nat) :
    countRange vs c = c + (vs.filter isNumberValue).length := by
  induction vs generalizing c with
  | nil => simp [countRange]
  | cons v vs ih =>
    cases v <;> simp [countRange, isNumberValue, checkForError, shouldCount, ih] <;> omega

lemma countARange_spec (vs : List Prim) (c : Nat) :
    countARange vs c = c + (vs.filter (fun v => !(v = Prim.empty))).length := by
  induction vs generalizing c with
  | nil => simp [countARange]
  | cons v vs ih =>
    by_cases hv : v = Prim.empty <;> simp [countARange, hv, ih] <;> omega

lemma COUNTgo_ok (args : List Value) (c : Nat) (h : firstDirectError args = none) :
    COUNTgo args c = .ok (c + specCountNumbers args) := by
  induction args generalizing c with
  | nil => simp [COUNTgo, specCountNumbers]
  | cons arg rest ih =>
    cases harg : checkForError arg with
    | some e => simp [firstDirectError, harg] at h
    | none =>
      have hrest : firstDirectError rest = none := by
        simpa [firstDirectError, harg] using h
      cases arg with
      | prim p =>
        cases hn : isNumberValue p <;>
          simp [COUNTgo, harg, ih _ hrest, specCountNumbers, shouldCount] <;>
          cases p <;> simp_all [isNumberValue, shouldCount] <;> omega
      | range vs =>
        simp [COUNTgo, harg, ih _ hrest, countRange_spec, specCountNumbers]
        omega

lemma COUNTAgo_ok (args : List Value) (c : Nat) (h : firstDirectError args = none) :
    COUNTAgo args c = .ok (c + specCountA args) := by
  induction args generalizing c with
  | nil => simp [COUNTAgo, specCountA]
  | cons arg rest ih =>
    cases harg : checkForError arg with
    | some e => simp [firstDirectError, harg] at h
    | none =>
      have hrest : firstDirectError rest = none := by
        simpa [firstDirectError, harg] using h
      cases arg with
      | prim p =>
        simp [COUNTAgo, harg, ih _ hrest, specCountA]
        omega
      | range vs =>
        simp [COUNTAgo, harg, ih _ hrest, countARange_spec, specCountA]
        omega

lemma COUNTgo_err (args : List Value) (c : Nat) (e : SpreadsheetError)
    (h : firstDirectError args = some e) : COUNTgo args c = .error e := by
  induction args generalizing c with
  | nil => simp [firstDirectError] at h
  | cons arg rest ih =>
    cases harg : checkForError arg with
    | some e2 =>
      have : e2 = e := by simpa [firstDirectError, harg] using h
      subst this
      cases arg <;> simp_all [COUNTgo, checkForError]
    | none =>
      have hrest : firstDirectError rest = some e := by
        simpa [firstDirectError, harg] using h
      cases arg <;> simp [COUNTgo, harg, ih _ hrest]

lemma COUNTAgo_err (args : List Value) (c : Nat) (e : SpreadsheetError)
    (h : firstDirectError args = some e) : COUNTAgo args c = .error e := by
  induction args generalizing c with
  | nil => simp [firstDirectError] at h
  | cons arg rest ih =>
    cases harg : checkForError arg with
    | some e2 =>
      have : e2 = e := by simpa [firstDirectError, harg] using h
      subst this
      cases arg <;> simp_all [COUNTAgo, checkForError]
    | none =>
      have hrest : firstDirectError rest = some e := by
        simpa [firstDirectError, harg] using h
      cases arg <;> simp [COUNTAgo, harg, ih _ hrest]

/-- C4, confirmed.  With no direct error argument, `COUNT` returns exactly
the number of number values (range-borne errors, booleans, strings and
empties are skipped, never propagated) and `COUNTA` counts every direct
argument plus every non-empty range value, error values included (counted,
not propagated).  A direct error argument becomes the result of both
functions (the first such error in argument order). -/
theorem count_counta_semantics (args : List Value) :
    (firstDirectError args = none →
      COUNT args = .ok (.num (specCountNumbers args)) ∧
      COUNTA args = .ok (.num (specCountA args))) ∧
    (∀ e, firstDirectError args = some e →
      COUNT args = .error e ∧ COUNTA args = .error e) := by
  constructor
  · intro h
    constructor
    · show (COUNTgo args 0).map (fun c => Prim.num c) = _
      rw [COUNTgo_ok args 0 h]
      show Except.ok (Prim.num ((0 + specCountNumbers args : Nat) : ℚ)) = _
      norm_num
    · show (COUNTAgo args 0).map (fun c => Prim.num c) = _
      rw [COUNTAgo_ok args 0 h]
      show Except.ok (Prim.num ((0 + specCountA args : Nat) : ℚ)) = _
      norm_num
  · intro e h
    constructor
    · show (COUNTgo args 0).map (fun c => Prim.num c) = _
      rw [COUNTgo_err args 0 e h]
      rfl
    · show (COUNTAgo args 0).map (fun c => Prim.num c) = _
      rw [COUNTAgo_err args 0 e h]
      rfl

/-- C4 witness: the theorem applied at two concrete argument lists, one
error-free (a range holding a number, a boolean, a string, an empty and a
`DIV0` error counts 1 for `COUNT` and 4 for `COUNTA`), one with a direct
`DIV0` error (which both functions return). -/
theorem count_counta_witness :
    COUNT [Value.range [Prim.num 5, Prim.bool true, Prim.str "7", Prim.empty,
        Prim.err (NewSpreadsheetError .div0 "Division by zero")],
      Value.prim (Prim.num 2)] = .ok (.num 2) ∧
    COUNTA [Value.range [Prim.num 5, Prim.bool true, Prim.str "7", Prim.empty,
        Prim.err (NewSpreadsheetError .div0 "Division by zero")],
      Value.prim (Prim.num 2)] = .ok (.num 5) ∧
    COUNT [Value.prim (Prim.err (NewSpreadsheetError .div0 "Division by zero"))]
      = .error (NewSpreadsheetError .div0 "Division by zero") := by
  refine ⟨?_, ?_, ?_⟩
  · have h := ((count_counta_semantics
      [Value.range [Prim.num 5, Prim.bool true, Prim.str "7", Prim.empty,
        Prim.err (NewSpreadsheetError .div0 "Division by zero")],
       Value.prim (Prim.num 2)]).1 (by decide)).1
    rw [h]; decide
  · have h := ((count_counta_semantics
      [Value.range [Prim.num 5, Prim.bool true, Prim.str "7", Prim.empty,
        Prim.err (NewSpreadsheetError .div0 "Division by zero")],
       Value.prim (Prim.num 2)]).1 (by decide)).2
    rw [h]; decide
  · exact ((count_counta_semantics
      [Value.prim (Prim.err (NewSpreadsheetError .div0 "Division by zero"))]).2
      (NewSpreadsheetError .div0 "Division by zero") (by decide)).1

/-! ## C9: MAX / MIN with nothing to compare -/

/-- An argument contributing no number: a direct value that fails `toNumber`
and is not an error, or a range all of whose values do. -/
def nonCoercibleArg : Value → Bool
  | .prim p => (toNumber (.prim p)).isNone && (checkForError (.prim p)).isNone
  | .range vs =>
    vs.all (fun v => (toNumber (.prim v)).isNone && (checkForError (.prim v)).isNone)

lemma maxRange_skip_all (vs : List Prim) (acc : Option ℚ)
    (h : ∀ v ∈ vs, toNumber (.prim v) = none ∧ checkForError (.prim v) = none) :
    maxRange vs acc = .ok acc := by
  induction vs with
  | nil => rfl
  | cons v vs ih =>
    have hv := h v (by simp)
    have hrest := fun u hu => h u (List.mem_cons_of_mem _ hu)
    rw [maxRange, hv.2, hv.1]
    exact ih hrest

lemma minRange_skip_all (vs : List Prim) (acc : Option ℚ)
    (h : ∀ v ∈ vs, toNumber (.prim v) = none ∧ checkForError (.prim v) = none) :
    minRange vs acc = .ok acc := by
  induction vs with
  | nil => rfl
  | cons v vs ih =>
    have hv := h v (by simp)
    have hrest := fun u hu => h u (List.mem_cons_of_mem _ hu)
    rw [minRange, hv.2, hv.1]
    exact ih hrest

lemma MAXgo_skip_all (args : List Value) (acc : Option ℚ)
    (h : args.all nonCoercibleArg) : MAXgo args acc = .ok acc := by
  induction args with
  | nil => rfl
  | cons arg rest ih =>
    have hv := (List.all_eq_true.mp h) arg (by simp)
    have hrest : rest.all nonCoercibleArg := by
      apply List.all_eq_true.mpr
      intro u hu
      exact (List.all_eq_true.mp h) u (List.mem_cons_of_mem _ hu)
    cases arg with
    | prim p =>
      have h12 : toNumber (.prim p) = none ∧ checkForError (.prim p) = none := by
        simpa [nonCoercibleArg] using hv
      cases p with
      | num q => simp [toNumber] at h12
      | bool b => simp [toNumber] at h12
      | empty => simp [toNumber] at h12
      | err e => simp [toNumber, checkForError] at h12
      | str s =>
        have hs : parseNumber s = none := by simpa [toNumber] using h12.1
        simp [MAXgo, checkForError, toNumber, hs, ih hrest]
    | range vs =>
      have hall : ∀ v ∈ vs, toNumber (.prim v) = none ∧ checkForError (.prim v) = none := by
        simpa [nonCoercibleArg] using hv
      simp only [MAXgo]
      rw [show checkForError (.range vs) = none from rfl]
      rw [maxRange_skip_all vs acc hall]
      exact ih hrest

lemma MINgo_skip_all (args : List Value) (acc : Option ℚ)
    (h : args.all nonCoercibleArg) : MINgo args acc = .ok acc := by
  induction args with
  | nil => rfl
  | cons arg rest ih =>
    have hv := (List.all_eq_true.mp h) arg (by simp)
    have hrest : rest.all nonCoercibleArg := by
      apply List.all_eq_true.mpr
      intro u hu
      exact (List.all_eq_true.mp h) u (List.mem_cons_of_mem _ hu)
    cases arg with
    | prim p =>
      have h12 : toNumber (.prim p) = none ∧ checkForError (.prim p) = none := by
        simpa [nonCoercibleArg] using hv
      cases p with
      | num q => simp [toNumber] at h12
      | bool b => simp [toNumber] at h12
      | empty => simp [toNumber] at h12
      | err e => simp [toNumber, checkForError] at h12
      | str s =>
        have hs : parseNumber s = none := by simpa [toNumber] using h12.1
        simp [MINgo, checkForError, toNumber, hs, ih hrest]
    | range vs =>
      have hall : ∀ v ∈ vs, toNumber (.prim v) = none ∧ checkForError (.prim v) = none := by
        simpa [nonCoercibleArg] using hv
      simp only [MINgo]
      rw [show checkForError (.range vs) = none from rfl]
      rw [minRange_skip_all vs acc hall]
      exact ih hrest

/-- C9, corrected.  When no argument value (direct or range-borne) coerces
to a number AND no error value is present, `MAX` and `MIN` return the number
0 rather than an error. -/
theorem max_min_no_values_zero (args : List Value)
    (h : args.all nonCoercibleArg) :
    MAX args = .ok (.num 0) ∧ MIN args = .ok (.num 0) := by
  constructor
  · unfold MAX
    rw [MAXgo_skip_all args none h]
  · unfold MIN
    rw [MINgo_skip_all args none h]

/-- C9 counterexample: a direct `DIV0` error argument is itself a value that
does not coerce to a number, so the claim as stated predicts the result 0,
but the error propagates instead. -/
theorem max_error_arg_propagates :
    toNumber (.prim (.err (NewSpreadsheetError .div0 "Division by zero"))) = none ∧
    MAX [Value.prim (Prim.err (NewSpreadsheetError .div0 "Division by zero"))]
      = .error (NewSpreadsheetError .div0 "Division by zero") ∧
    (Except.error (NewSpreadsheetError .div0 "Division by zero")
      : Except SpreadsheetError Prim) ≠ .ok (.num 0) := by
  refine ⟨by decide, by decide, by decide⟩

/-- C9 witness: the corrected theorem at a concrete list — a non-numeric
string argument and a range of non-numeric strings. -/
theorem max_min_no_values_witness :
    MAX [Value.prim (Prim.str "abc"), Value.range [Prim.str "x", Prim.str "y"]]
      = .ok (.num 0) ∧
    MIN [Value.prim (Prim.str "abc"), Value.range [Prim.str "x", Prim.str "y"]]
      = .ok (.num 0) :=
  max_min_no_values_zero
    [Value.prim (Prim.str "abc"), Value.range [Prim.str "x", Prim.str "y"]]
    (by decide)

/-! ## C10: AVERAGEA / AVERAGE empty-input errors -/

/-- An argument contributing nothing countable to `AVERAGEA`: every value in
it (direct or range-borne) is empty. -/
def allEmptyArg : Value → Bool
  | .prim p => p = Prim.empty
  | .range vs => vs.all (fun v => v = Prim.empty)

/-- An argument contributing nothing countable to `AVERAGE`: a direct value
that fails `toNumber` and is not an error, or a range each of whose values
is error-free and either empty or non-coercible. -/
def noAverageContribution : Value → Bool
  | .prim p => (toNumber (.prim p)).isNone && (checkForError (.prim p)).isNone
  | .range vs =>
    vs.all (fun v =>
      (checkForError (.prim v)).isNone &&
        (v = Prim.empty || (toNumber (.prim v)).isNone))

lemma averageARange_all_empty (vs : List Prim) (st : ℚ × Nat)
    (h : ∀ v ∈ vs, v = Prim.empty) : averageARange vs st = .ok st := by
  induction vs with
  | nil => rfl
  | cons v vs ih =>
    have hv := h v (by simp)
    have hrest := fun u hu => h u (List.mem_cons_of_mem _ hu)
    subst hv
    rw [averageARange]
    show averageARange vs st = _
    exact ih hrest

lemma AVERAGEAgo_all_empty (args : List Value) (st : ℚ × Nat)
    (h : args.all allEmptyArg) : AVERAGEAgo args st = .ok st := by
  induction args with
  | nil => rfl
  | cons arg rest ih =>
    have hv := (List.all_eq_true.mp h) arg (by simp)
    have hrest : rest.all allEmptyArg := by
      apply List.all_eq_true.mpr
      intro u hu
      exact (List.all_eq_true.mp h) u (List.mem_cons_of_mem _ hu)
    cases arg with
    | prim p =>
      have hp : p = Prim.empty := by simpa [allEmptyArg] using hv
      subst hp
      simp only [AVERAGEAgo]
      rw [show checkForError (.prim Prim.empty) = none from rfl]
      show (match processValueA Prim.empty st with
        | .error e => Except.error e
        | .ok st2 => AVERAGEAgo rest st2) = Except.ok st
      rw [show processValueA Prim.empty st = .ok st from rfl]
      exact ih hrest
    | range vs =>
      have hall : ∀ v ∈ vs, v = Prim.empty := by
        simpa [allEmptyArg] using hv
      simp only [AVERAGEAgo]
      rw [show checkForError (.range vs) = none from rfl]
      rw [averageARange_all_empty vs st hall]
      exact ih hrest

lemma averageRange_no_contribution (vs : List Prim) (st : ℚ × Nat)
    (h : ∀ v ∈ vs, checkForError (.prim v) = none ∧
      (v = Prim.empty ∨ toNumber (.prim v) = none)) :
    averageRange vs st = .ok st := by
  induction vs with
  | nil => rfl
  | cons v vs ih =>
    have hv := h v (by simp)
    have hrest := fun u hu => h u (List.mem_cons_of_mem _ hu)
    rw [averageRange, hv.1]
    by_cases hemp : v = Prim.empty
    · rw [if_pos hemp]
      exact ih hrest
    · have htn : toNumber (.prim v) = none := by
        rcases hv.2 with h1 | h1
        · exact absurd h1 hemp
        · exact h1
      rw [if_neg hemp, htn]
      exact ih hrest

lemma AVERAGEgo_no_contribution (args : List Value) (st : ℚ × Nat)
    (h : args.all noAverageContribution) : AVERAGEgo args st = .ok st := by
  induction args with
  | nil => rfl
  | cons arg rest ih =>
    have hv := (List.all_eq_true.mp h) arg (by simp)
    have hrest : rest.all noAverageContribution := by
      apply List.all_eq_true.mpr
      intro u hu
      exact (List.all_eq_true.mp h) u (List.mem_cons_of_mem _ hu)
    cases arg with
    | prim p =>
      have h12 : toNumber (.prim p) = none ∧ checkForError (.prim p) = none := by
        simpa [noAverageContribution] using hv
      cases p with
      | num q => simp [toNumber] at h12
      | bool b => simp [toNumber] at h12
      | empty => simp [toNumber] at h12
      | err e => simp [toNumber, checkForError] at h12
      | str s =>
        have hs : parseNumber s = none := by simpa [toNumber] using h12.1
        simp [AVERAGEgo, checkForError, toNumber, hs, ih hrest]
    | range vs =>
      have hall : ∀ v ∈ vs, checkForError (.prim v) = none ∧
          (v = Prim.empty ∨ toNumber (.prim v) = none) := by
        simpa [noAverageContribution] using hv
      simp only [AVERAGEgo]
      rw [show checkForError (.range vs) = none from rfl]
      rw [averageRange_no_contribution vs st hall]
      exact ih hrest

/-- C10, corrected.  With no countable value and no error value among the
arguments, `AVERAGEA` yields the `REF` error "AVERAGEA has no values" while
`AVERAGE` in its corresponding no-numbers case yields the `DIV0` error
"Division by zero". -/
theorem averagea_average_empty_errors (args1 args2 : List Value)
    (h1 : args1.all allEmptyArg) (h2 : args2.all noAverageContribution) :
    AVERAGEA args1 = .error (NewSpreadsheetError .ref "AVERAGEA has no values") ∧
    AVERAGE args2 = .error (NewSpreadsheetError .div0 "Division by zero") := by
  constructor
  · unfold AVERAGEA
    rw [AVERAGEAgo_all_empty args1 (0, 0) h1]
  · unfold AVERAGE
    rw [AVERAGEgo_no_contribution args2 (0, 0) h2]

/-- C10 counterexample: a call whose only argument is a `DIV0` error value
contains no countable value (no number, boolean or string), yet the result
is that `DIV0` error, not a `REF` error. -/
theorem averagea_error_arg_propagates :
    AVERAGEA [Value.prim (Prim.err (NewSpreadsheetError .div0 "Division by zero"))]
      = .error (NewSpreadsheetError .div0 "Division by zero") ∧
    (NewSpreadsheetError .div0 "Division by zero").ErrorCode ≠ ErrorCode.ref := by
  refine ⟨by decide, by decide⟩

/-- C10 witness: the corrected theorem at a concrete pair of argument
lists — an all-empty range for `AVERAGEA`, a non-numeric string plus an
empty-and-text range for `AVERAGE`. -/
theorem averagea_average_empty_witness :
    AVERAGEA [Value.range [Prim.empty, Prim.empty]]
      = .error (NewSpreadsheetError .ref "AVERAGEA has no values") ∧
    AVERAGE [Value.prim (Prim.str "abc"), Value.range [Prim.empty, Prim.str "x"]]
      = .error (NewSpreadsheetError .div0 "Division by zero") :=
  averagea_average_empty_errors
    [Value.range [Prim.empty, Prim.empty]]
    [Value.prim (Prim.str "abc"), Value.range [Prim.empty, Prim.str "x"]]
    (by decide) (by decide)

/-! ## C5: comparison semantics -/

lemma comparePrimitives_ne_minus_two (l r : Value) :
    comparePrimitives l r ≠ -2 := by
  unfold comparePrimitives
  dsimp only
  repeat' split
  all_goals decide

lemma noncoercible_is_str (p : Prim) (hne : p ≠ .empty)
    (herr : checkForError (.prim p) = none) (h : toNumber (.prim p) = none) :
    ∃ t, p = .str t ∧ parseNumber t = none := by
  cases p with
  | str s => exact ⟨s, rfl, by simpa [toNumber] using h⟩
  | empty => exact absurd rfl hne
  | num q => simp [toNumber] at h
  | bool b => simp [toNumber] at h
  | err e => simp [checkForError] at herr

/-- C5, corrected.  For two non-error operands: when both operands are empty
they compare equal; an empty operand otherwise compares below the non-empty
one; when neither is empty and both coerce to numbers the comparison is
numeric; two booleans compare with `FALSE < TRUE` (a special case of the
numeric rule, since booleans coerce to 1/0); otherwise the comparison is
lexical over the operands' text forms.  Each comparison operator returns the
corresponding sign test of `comparePrimitives`. -/
theorem comparison_semantics (l r : Prim)
    (hl : checkForError (.prim l) = none) (hr : checkForError (.prim r) = none) :
    (∀ a b, l ≠ .empty → r ≠ .empty →
      toNumber (.prim l) = some a → toNumber (.prim r) = some b →
      comparePrimitives (.prim l) (.prim r)
        = if a < b then -1 else if b < a then 1 else 0) ∧
    (∀ lb rb, l = .bool lb → r = .bool rb →
      comparePrimitives (.prim l) (.prim r)
        = if lb = rb then 0 else if lb = false then -1 else 1) ∧
    (l ≠ .empty → r ≠ .empty →
      (toNumber (.prim l) = none ∨ toNumber (.prim r) = none) →
      comparePrimitives (.prim l) (.prim r)
        = if toDisplay (.prim l) < toDisplay (.prim r) then -1
          else if toDisplay (.prim r) < toDisplay (.prim l) then 1 else 0) ∧
    (l = .empty → r = .empty → comparePrimitives (.prim l) (.prim r) = 0) ∧
    (l = .empty → r ≠ .empty → comparePrimitives (.prim l) (.prim r) = -1) ∧
    (l ≠ .empty → r = .empty → comparePrimitives (.prim l) (.prim r) = 1) ∧
    (applyBinaryOp .lt (.prim l) (.prim r)
        = .ok (.prim (.bool (comparePrimitives (.prim l) (.prim r) < 0))) ∧
      applyBinaryOp .le (.prim l) (.prim r)
        = .ok (.prim (.bool (comparePrimitives (.prim l) (.prim r) ≤ 0))) ∧
      applyBinaryOp .gt (.prim l) (.prim r)
        = .ok (.prim (.bool (comparePrimitives (.prim l) (.prim r) > 0))) ∧
      applyBinaryOp .ge (.prim l) (.prim r)
        = .ok (.prim (.bool (comparePrimitives (.prim l) (.prim r) ≥ 0))) ∧
      applyBinaryOp .eq (.prim l) (.prim r)
        = .ok (.prim (.bool (comparePrimitives (.prim l) (.prim r) = 0))) ∧
      applyBinaryOp .ne (.prim l) (.prim r)
        = .ok (.prim (.bool (comparePrimitives (.prim l) (.prim r) ≠ 0)))) := by
  have hle : (Value.prim l = Value.prim Prim.empty) ↔ (l = Prim.empty) := by simp
  have hre : (Value.prim r = Value.prim Prim.empty) ↔ (r = Prim.empty) := by simp
  refine ⟨?_, ?_, ?_, ?_, ?_, ?_, ?_⟩
  · intro a b hlne hrne ha hb
    unfold comparePrimitives
    rw [if_neg (by simp [hle, hre, hlne]), if_neg (by simp [hle, hlne]),
        if_neg (by simp [hre, hrne]), ha, hb]
  · intro lb rb hlb hrb
    subst hlb; subst hrb
    cases lb <;> cases rb <;> decide
  · intro hlne hrne hnone
    rcases hnone with h | h
    · obtain ⟨s, rfl, hs⟩ := noncoercible_is_str l hlne hl h
      unfold comparePrimitives
      rw [if_neg (by simp [hle, hre, hlne]), if_neg (by simp [hle, hlne]),
          if_neg (by simp [hre, hrne])]
      simp only [toNumber, hs]
    · obtain ⟨t, rfl, ht⟩ := noncoercible_is_str r hrne hr h
      unfold comparePrimitives
      rw [if_neg (by simp [hle, hre, hlne]), if_neg (by simp [hle, hlne]),
          if_neg (by simp [hre, hrne])]
      cases l with
      | empty => exact absurd rfl hlne
      | err e => simp [checkForError] at hl
      | num a => simp only [toNumber, ht]
      | bool b => simp only [toNumber, ht]
      | str s =>
        simp only [toNumber, ht]
        cases hps : parseNumber s <;> simp only [hps]
  · intro h1 h2; subst h1; subst h2; decide
  · intro h1 h2
    subst h1
    unfold comparePrimitives
    rw [if_neg (by simp [hre, h2]), if_pos (by simp)]
  · intro h1 h2
    subst h2
    unfold comparePrimitives
    rw [if_neg (by simp [hle, h1]), if_neg (by simp [hle, h1]), if_pos (by simp)]
  · have hcmp := comparePrimitives_ne_minus_two (.prim l) (.prim r)
    refine ⟨?_, ?_, ?_, ?_, ?_, ?_⟩ <;>
      simp [applyBinaryOp, hl, hr, hcmp]

/-- C5 counterexample: with an empty left operand and a negative right
operand both operands coerce to numbers (0 and −5), numerically `0 < −5` is
false, yet `Empty < −5` evaluates to `TRUE`: the nil short-circuit of
`comparePrimitives` precedes the numeric rule, so the claim's case analysis
is wrong for empty operands. -/
theorem compare_empty_not_numeric :
    toNumber (.prim Prim.empty) = some 0 ∧
    toNumber (.prim (Prim.num (-5))) = some (-5) ∧
    ¬ ((0 : ℚ) < -5) ∧
    applyBinaryOp .lt (.prim Prim.empty) (.prim (Prim.num (-5)))
      = .ok (.prim (.bool true)) := by
  refine ⟨by decide, by decide, by decide, by decide⟩

/-- C5 witness: the corrected theorem applied at concrete operands — the
numeric case at `"10"` versus `9` (a numeric-looking string coerces), and
the lexical case at `"b"` versus `"a"`. -/
theorem comparison_semantics_witness :
    comparePrimitives (.prim (Prim.str "10")) (.prim (Prim.num 9)) = 1 ∧
    comparePrimitives (.prim (Prim.str "b")) (.prim (Prim.str "a")) = 1 := by
  constructor
  · have h := ((comparison_semantics (Prim.str "10") (Prim.num 9)
      (by decide) (by decide)).1) 10 9 (by decide) (by decide) (by decide) (by decide)
    rw [h]; norm_num
  · have h := ((comparison_semantics (Prim.str "b") (Prim.str "a")
      (by decide) (by decide)).2.2.1) (by decide) (by decide) (by decide)
    rw [h]
    rw [if_neg (by rw [String.lt_iff_toList_lt]; decide),
        if_pos (by rw [String.lt_iff_toList_lt]; decide)]

/-! ## C6: Set / Get round-trip for literals -/

lemma lookupA_insertA {κ ν : Type} [DecidableEq κ] (l : List (κ × ν)) (k : κ) (v : ν) :
    lookupA (insertA l k v) k = some v := by
  unfold insertA
  by_cases hf : (l.find? (fun e => decide (e.1 = k))).isSome
  · rw [if_pos hf]
    induction l with
    | nil => simp at hf
    | cons e rest ih =>
      by_cases he : e.1 = k
      · simp [lookupA, List.find?, he]
      · have hf2 : (rest.find? (fun e => decide (e.1 = k))).isSome := by
          simpa [List.find?_cons, he] using hf
        have := ih hf2
        simpa [lookupA, List.find?_cons, he] using this
  · rw [if_neg hf]
    have hnone : l.find? (fun e => decide (e.1 = k)) = none := by
      cases h : l.find? (fun e => decide (e.1 = k)) with
      | none => rfl
      | some e => rw [h] at hf; simp at hf
    unfold lookupA
    rw [List.find?_append, hnone]
    simp [List.find?]

@[simp] lemma upd_same {α : Type} (f : Nat → α) (i : Nat) (v : α) : upd f i v i = v := by
  simp [upd]

lemma upd_other {α : Type} (f : Nat → α) (i j : Nat) (v : α) (h : j ≠ i) :
    upd f i v j = f j := by
  simp [upd, h]

/-- Well-formedness of the interning table: distinct ids, all below the
next-id counter. -/
def StringTable.WF (st : StringTable) : Prop :=
  (st.entries.map Prod.snd).Nodup ∧ ∀ e ∈ st.entries, e.2 < st.nextID

lemma find?_by_id_unique (l : List (String × Nat)) (e : String × Nat)
    (hnodup : (l.map Prod.snd).Nodup) (hmem : e ∈ l) :
    l.find? (fun x => decide (x.2 = e.2)) = some e := by
  induction l with
  | nil => simp at hmem
  | cons h0 rest ih =>
    by_cases hh : h0.2 = e.2
    · have : e = h0 := by
        rcases List.mem_cons.mp hmem with h | hmemr
        · exact h
        · exfalso
          have h1 : e.2 ∈ rest.map Prod.snd := List.mem_map_of_mem _ hmemr
          rw [List.map_cons] at hnodup
          exact (List.nodup_cons.mp hnodup).1 (hh ▸ h1)
      subst this
      simp [List.find?]
    · have hmemr : e ∈ rest := by
        rcases List.mem_cons.mp hmem with h | h
        · exact absurd (congrArg Prod.snd h.symm) hh
        · exact h
      have hnr : (rest.map Prod.snd).Nodup := by
        rw [List.map_cons] at hnodup; exact (List.nodup_cons.mp hnodup).2
      rw [List.find?_cons_of_neg _ (by simpa using hh)]
      exact ih hnr hmemr

lemma intern_getString (st : StringTable) (t : String) (h : StringTable.WF st) :
    StringTable.getString (st.intern t).2 (st.intern t).1 = some t := by
  unfold StringTable.intern
  cases hl : lookupA st.entries t with
  | some id =>
    unfold lookupA at hl
    cases hf : st.entries.find? (fun e => decide (e.1 = t)) with
    | none => rw [hf] at hl; simp at hl
    | some e =>
      rw [hf] at hl
      have hid : e.2 = id := by simpa using hl
      have hpt : e.1 = t := by simpa using List.find?_some hf
      have hmem := List.mem_of_find?_eq_some hf
      unfold StringTable.getString
      subst hid
      simp only
      rw [find?_by_id_unique st.entries e h.1 hmem]
      simpa using hpt
  | none =>
    unfold StringTable.getString
    simp only
    rw [List.find?_append]
    have hnone : st.entries.find? (fun x => decide (x.2 = st.nextID)) = none := by
      apply List.find?_eq_none.mpr
      intro e he
      have := h.2 e he
      simp
      omega
    rw [hnone]
    simp [List.find?]

lemma setCell_num_get (st : Storage) (wsID row col : Nat) (q : ℚ) (w : Worksheet)
    (hw : lookupA st.worksheets wsID = some w) :
    ∃ w', lookupA (st.setCell wsID row col (.num q) "").worksheets wsID = some w' ∧
      (Worksheet.getCell w' (st.setCell wsID row col (.num q) "").strings row col).map
        Cell.value = some (.num q) := by
  unfold Storage.setCell
  rw [hw]
  dsimp only
  rcases hgc : w.getChunk (row / ChunkRows) (col / ChunkCols) with ⟨chunk0, w0⟩
  dsimp only
  have hne : (Prim.num q = Prim.empty) = False := by simp
  have hne2 : ((("" : String) ≠ "")) = False := by simp
  simp only [hne, false_and, if_false, hne2]
  rcases hfid : chunk0.formulaIDs with _ | f
  · simp only [hfid]
    by_cases hwe : chunk0.types (col % ChunkCols * ChunkRows + row % ChunkRows) = CellValueTypeEmpty
    · simp only [if_pos hwe]
      refine ⟨_, lookupA_insertA _ _ _, ?_⟩
      simp [Worksheet.getCell, lookupA_insertA, upd, CellValueTypeNumber, CellValueTypeEmpty,
        CellValueTypeDate, hfid]
    · simp only [if_neg hwe]
      refine ⟨_, lookupA_insertA _ _ _, ?_⟩
      simp [Worksheet.getCell, lookupA_insertA, upd, CellValueTypeNumber, CellValueTypeEmpty,
        CellValueTypeDate, hfid]
  · simp only [hfid]
    by_cases hf : f (col % ChunkCols * ChunkRows + row % ChunkRows) = 0
    · simp only [ne_eq, hf, not_true_eq_false, if_false]
      by_cases hwe : chunk0.types (col % ChunkCols * ChunkRows + row % ChunkRows) = CellValueTypeEmpty
      · simp only [if_pos hwe]
        refine ⟨_, lookupA_insertA _ _ _, ?_⟩
        simp [Worksheet.getCell, lookupA_insertA, upd, CellValueTypeNumber, CellValueTypeEmpty,
          CellValueTypeDate, hfid, hf]
      · simp only [if_neg hwe]
        refine ⟨_, lookupA_insertA _ _ _, ?_⟩
        simp [Worksheet.getCell, lookupA_insertA, upd, CellValueTypeNumber, CellValueTypeEmpty,
          CellValueTypeDate, hfid, hf]
    · simp only [ne_eq, hf, not_false_eq_true, if_true]
      by_cases hwe : chunk0.types (col % ChunkCols * ChunkRows + row % ChunkRows) = CellValueTypeEmpty
      · simp only [if_pos hwe]
        refine ⟨_, lookupA_insertA _ _ _, ?_⟩
        simp [Worksheet.getCell, lookupA_insertA, upd, CellValueTypeNumber, CellValueTypeEmpty,
          CellValueTypeDate, hfid]
      · simp only [if_neg hwe]
        refine ⟨_, lookupA_insertA _ _ _, ?_⟩
        simp [Worksheet.getCell, lookupA_insertA, upd, CellValueTypeNumber, CellValueTypeEmpty,
          CellValueTypeDate, hfid]

lemma setCell_bool_get (st : Storage) (wsID row col : Nat) (b : Bool) (w : Worksheet)
    (hw : lookupA st.worksheets wsID = some w) :
    ∃ w', lookupA (st.setCell wsID row col (.bool b) "").worksheets wsID = some w' ∧
      (Worksheet.getCell w' (st.setCell wsID row col (.bool b) "").strings row col).map
        Cell.value = some (.bool b) := by
  unfold Storage.setCell
  rw [hw]
  dsimp only
  rcases hgc : w.getChunk (row / ChunkRows) (col / ChunkCols) with ⟨chunk0, w0⟩
  dsimp only
  have hne : (Prim.bool b = Prim.empty) = False := by simp
  have hne2 : ((("" : String) ≠ "")) = False := by simp
  simp only [hne, false_and, if_false, hne2]
  rcases hfid : chunk0.formulaIDs with _ | f
  · simp only [hfid]
    by_cases hwe : chunk0.types (col % ChunkCols * ChunkRows + row % ChunkRows) = CellValueTypeEmpty
    · simp only [if_pos hwe]
      refine ⟨_, lookupA_insertA _ _ _, ?_⟩
      cases b
      all_goals simp [Worksheet.getCell, lookupA_insertA, upd, CellValueTypeNumber,
        CellValueTypeEmpty, CellValueTypeDate, CellValueTypeString, CellValueTypeBoolean, hfid]
    · simp only [if_neg hwe]
      refine ⟨_, lookupA_insertA _ _ _, ?_⟩
      cases b
      all_goals simp [Worksheet.getCell, lookupA_insertA, upd, CellValueTypeNumber,
        CellValueTypeEmpty, CellValueTypeDate, CellValueTypeString, CellValueTypeBoolean, hfid]
  · simp only [hfid]
    by_cases hf : f (col % ChunkCols * ChunkRows + row % ChunkRows) = 0
    · simp only [ne_eq, hf, not_true_eq_false, if_false]
      by_cases hwe : chunk0.types (col % ChunkCols * ChunkRows + row % ChunkRows) = CellValueTypeEmpty
      · simp only [if_pos hwe]
        refine ⟨_, lookupA_insertA _ _ _, ?_⟩
        cases b
        all_goals simp [Worksheet.getCell, lookupA_insertA, upd, CellValueTypeNumber,
          CellValueTypeEmpty, CellValueTypeDate, CellValueTypeString, CellValueTypeBoolean, hfid, hf]
      · simp only [if_neg hwe]
        refine ⟨_, lookupA_insertA _ _ _, ?_⟩
        cases b
        all_goals simp [Worksheet.getCell, lookupA_insertA, upd, CellValueTypeNumber,
          CellValueTypeEmpty, CellValueTypeDate, CellValueTypeString, CellValueTypeBoolean, hfid, hf]
    · simp only [ne_eq, hf, not_false_eq_true, if_true]
      by_cases hwe : chunk0.types (col % ChunkCols * ChunkRows + row % ChunkRows) = CellValueTypeEmpty
      · simp only [if_pos hwe]
        refine ⟨_, lookupA_insertA _ _ _, ?_⟩
        cases b
        all_goals simp [Worksheet.getCell, lookupA_insertA, upd, CellValueTypeNumber,
          CellValueTypeEmpty, CellValueTypeDate, CellValueTypeString, CellValueTypeBoolean, hfid]
      · simp only [if_neg hwe]
        refine ⟨_, lookupA_insertA _ _ _, ?_⟩
        cases b
        all_goals simp [Worksheet.getCell, lookupA_insertA, upd, CellValueTypeNumber,
          CellValueTypeEmpty, CellValueTypeDate, CellValueTypeString, CellValueTypeBoolean, hfid]

lemma setCell_str_get (st : Storage) (wsID row col : Nat) (t : String) (w : Worksheet)
    (hw : lookupA st.worksheets wsID = some w)
    (hwf : StringTable.WF st.strings) :
    ∃ w', lookupA (st.setCell wsID row col (.str t) "").worksheets wsID = some w' ∧
      (Worksheet.getCell w' (st.setCell wsID row col (.str t) "").strings row col).map
        Cell.value = some (.str t) := by
  have hst := intern_getString st.strings t hwf
  unfold Storage.setCell
  rw [hw]
  dsimp only
  rcases hgc : w.getChunk (row / ChunkRows) (col / ChunkCols) with ⟨chunk0, w0⟩
  dsimp only
  have hne : (Prim.str t = Prim.empty) = False := by simp
  have hne2 : ((("" : String) ≠ "")) = False := by simp
  simp only [hne, false_and, if_false, hne2]
  rcases hfid : chunk0.formulaIDs with _ | f
  · simp only [hfid]
    by_cases hwe : chunk0.types (col % ChunkCols * ChunkRows + row % ChunkRows) = CellValueTypeEmpty
    · simp only [if_pos hwe]
      refine ⟨_, lookupA_insertA _ _ _, ?_⟩
      simp [Worksheet.getCell, lookupA_insertA, upd, CellValueTypeNumber, CellValueTypeEmpty,
        CellValueTypeDate, CellValueTypeString, hfid, hst]
    · simp only [if_neg hwe]
      refine ⟨_, lookupA_insertA _ _ _, ?_⟩
      simp [Worksheet.getCell, lookupA_insertA, upd, CellValueTypeNumber, CellValueTypeEmpty,
        CellValueTypeDate, CellValueTypeString, hfid, hst]
  · simp only [hfid]
    by_cases hf : f (col % ChunkCols * ChunkRows + row % ChunkRows) = 0
    · simp only [ne_eq, hf, not_true_eq_false, if_false]
      by_cases hwe : chunk0.types (col % ChunkCols * ChunkRows + row % ChunkRows) = CellValueTypeEmpty
      · simp only [if_pos hwe]
        refine ⟨_, lookupA_insertA _ _ _, ?_⟩
        simp [Worksheet.getCell, lookupA_insertA, upd, CellValueTypeNumber, CellValueTypeEmpty,
          CellValueTypeDate, CellValueTypeString, hfid, hf, hst]
      · simp only [if_neg hwe]
        refine ⟨_, lookupA_insertA _ _ _, ?_⟩
        simp [Worksheet.getCell, lookupA_insertA, upd, CellValueTypeNumber, CellValueTypeEmpty,
          CellValueTypeDate, CellValueTypeString, hfid, hf, hst]
    · simp only [ne_eq, hf, not_false_eq_true, if_true]
      by_cases hwe : chunk0.types (col % ChunkCols * ChunkRows + row % ChunkRows) = CellValueTypeEmpty
      · simp only [if_pos hwe]
        refine ⟨_, lookupA_insertA _ _ _, ?_⟩
        simp [Worksheet.getCell, lookupA_insertA, upd, CellValueTypeNumber, CellValueTypeEmpty,
          CellValueTypeDate, CellValueTypeString, hfid, hst]
      · simp only [if_neg hwe]
        refine ⟨_, lookupA_insertA _ _ _, ?_⟩
        simp [Worksheet.getCell, lookupA_insertA, upd, CellValueTypeNumber, CellValueTypeEmpty,
          CellValueTypeDate, CellValueTypeString, hfid, hst]

lemma get_withGraph (s : Spreadsheet) (f : DependencyGraph → DependencyGraph)
    (wsID row col : Nat) :
    (s.withGraph f).get wsID row col = s.get wsID row col := rfl

lemma get_foldl_markDirty (deps : List CellAddress) (s : Spreadsheet) (wsID row col : Nat) :
    (deps.foldl (fun s dep => s.withGraph (fun g => g.markDirty dep)) s).get wsID row col
      = s.get wsID row col := by
  induction deps generalizing s with
  | nil => rfl
  | cons d rest ih =>
    simp only [List.foldl_cons]
    rw [ih, get_withGraph]

lemma get_eq_of_getCell (s : Spreadsheet) (wsID row col : Nat) (w' : Worksheet) (x : Prim)
    (hws : wsID ≠ 0)
    (hl : lookupA s.storage.worksheets wsID = some w')
    (hv : (Worksheet.getCell w' s.storage.strings row col).map Cell.value = some x) :
    s.get wsID row col = x := by
  unfold Spreadsheet.get
  rw [if_neg hws, hl]
  dsimp only
  split
  · next hnone => simp [hnone] at hv
  · next c hsome => rw [hsome] at hv; simpa using hv

/-- C6: setting a literal (number, boolean, or non-formula text) on a
defined worksheet and reading the same address back returns exactly the
value that was set. -/
theorem set_get_roundtrip (s : Spreadsheet) (wsID row col : Nat) (x : Prim)
    (hws : wsID ≠ 0)
    (hdef : (lookupA s.storage.worksheets wsID).isSome = true)
    (hwf : StringTable.WF s.storage.strings)
    (hx : (∃ q, x = .num q) ∨ (∃ b, x = .bool b) ∨
          (∃ t, x = .str t ∧ t.data.head? ≠ some (Char.ofNat 61))) :
    (s.setLiteral wsID row col x).get wsID row col = x := by
  obtain ⟨w, hw⟩ := Option.isSome_iff_exists.mp hdef
  unfold Spreadsheet.setLiteral
  rw [if_neg hws]
  rw [hw]
  dsimp only
  rw [get_foldl_markDirty, get_withGraph]
  rcases hx with ⟨q, rfl⟩ | ⟨b, rfl⟩ | ⟨t, rfl, hpre⟩
  · obtain ⟨w', hw', hv⟩ :=
      setCell_num_get (s.withGraph (fun g =>
        g.clearDependencies ⟨wsID, row, col⟩)).storage wsID row col q w hw
    exact get_eq_of_getCell _ wsID row col w' _ hws hw' hv
  · obtain ⟨w', hw', hv⟩ :=
      setCell_bool_get (s.withGraph (fun g =>
        g.clearDependencies ⟨wsID, row, col⟩)).storage wsID row col b w hw
    exact get_eq_of_getCell _ wsID row col w' _ hws hw' hv
  · obtain ⟨w', hw', hv⟩ :=
      setCell_str_get (s.withGraph (fun g =>
        g.clearDependencies ⟨wsID, row, col⟩)).storage wsID row col t w hw hwf
    exact get_eq_of_getCell _ wsID row col w' _ hws hw' hv

/-- Witness for the round-trip theorem at a concrete spreadsheet. -/
theorem set_get_roundtrip_witness :
    ((Spreadsheet.new.addWorksheet 1).setLiteral 1 2 3 (Prim.str "hi")).get 1 2 3
      = Prim.str "hi" :=
  set_get_roundtrip (Spreadsheet.new.addWorksheet 1) 1 2 3 (Prim.str "hi")
    (by decide) (by rfl)
    ⟨by simp [Spreadsheet.new, Spreadsheet.addWorksheet, StringTable.new],
     by simp [Spreadsheet.new, Spreadsheet.addWorksheet, StringTable.new]⟩
    (Or.inr (Or.inr ⟨"hi", rfl, by decide⟩))

/-! ## C8: chunk occupancy invariant -/

lemma lookupA_mem {κ ν : Type} [DecidableEq κ] {l : List (κ × ν)} {k : κ} {v : ν}
    (h : lookupA l k = some v) : (k, v) ∈ l := by
  unfold lookupA at h
  cases hf : l.find? (fun e => decide (e.1 = k)) with
  | none => rw [hf] at h; simp at h
  | some e =>
    rw [hf] at h
    have he1 : e.1 = k := by simpa using List.find?_some hf
    have he2 : e.2 = v := by simpa using h
    have hm := List.mem_of_find?_eq_some hf
    rwa [show (k, v) = e from by rw [← he1, ← he2]]

lemma insertA_mem {κ ν : Type} [DecidableEq κ] {l : List (κ × ν)} {k : κ} {v : ν}
    {e : κ × ν} (h : e ∈ insertA l k v) : (e ∈ l ∧ e.1 ≠ k) ∨ e = (k, v) := by
  unfold insertA at h
  by_cases hf : (l.find? (fun e => decide (e.1 = k))).isSome
  · rw [if_pos hf] at h
    obtain ⟨a, ha, hae⟩ := List.mem_map.mp h
    by_cases hk : a.1 = k
    · right
      rw [← hae, if_pos hk]
    · left
      rw [← hae, if_neg hk]
      exact ⟨ha, hk⟩
  · rw [if_neg hf] at h
    rcases List.mem_append.mp h with h | h
    · left
      refine ⟨h, ?_⟩
      have hnone : l.find? (fun e => decide (e.1 = k)) = none := by
        cases hx : l.find? (fun e => decide (e.1 = k)) with
        | none => rfl
        | some a => rw [hx] at hf; simp at hf
      intro hk
      have := List.find?_eq_none.mp hnone e h
      simp [hk] at this
    · right; simpa using h

lemma removeA_mem {κ ν : Type} [DecidableEq κ] {l : List (κ × ν)} {k : κ}
    {e : κ × ν} (h : e ∈ removeA l k) : e ∈ l :=
  List.mem_of_mem_filter h

lemma lookupA_removeA {κ ν : Type} [DecidableEq κ] (l : List (κ × ν)) (k : κ) :
    lookupA (removeA l k) k = none := by
  induction l with
  | nil => rfl
  | cons e rest ih =>
    by_cases he : e.1 = k
    · simpa [removeA, List.filter, he] using ih
    · have h1 : removeA (e :: rest) k = e :: removeA rest k := by
        simp [removeA, List.filter, he]
      rw [h1]
      unfold lookupA
      rw [List.find?_cons_of_neg _ (by simpa using he)]
      exact ih

/-- The occupancy invariant of a worksheet's chunk map: every held chunk
has at least one occupied cell. -/
def chunkOccupied (w : Worksheet) : Prop :=
  ∀ e ∈ w.chunks, 0 < e.2.nonEmptyCount

/-- Occupancy invariant over everything the storage holds. -/
def chunksOccupied (st : Storage) : Prop :=
  ∀ we ∈ st.worksheets, chunkOccupied we.2

lemma chunksOccupied_of_insert (st st' : Storage) (wsID : Nat) (w : Worksheet)
    (hw : st'.worksheets = insertA st.worksheets wsID w)
    (hinv : chunksOccupied st)
    (hOK : chunkOccupied w) : chunksOccupied st' := by
  intro we hwe
  rw [hw] at hwe
  rcases insertA_mem hwe with ⟨hmem, _⟩ | heq
  · exact hinv we hmem
  · rw [heq]
    exact hOK

lemma chunkOccupied_of_insert (w' : Worksheet) (base : List ((Nat × Nat) × Chunk))
    (key : Nat × Nat) (C : Chunk)
    (hch : w'.chunks = insertA base key C)
    (hbase : ∀ e ∈ base, e.1 ≠ key → 0 < e.2.nonEmptyCount)
    (hC : 0 < C.nonEmptyCount) : chunkOccupied w' := by
  intro e he
  rw [hch] at he
  rcases insertA_mem he with ⟨hmem, hne⟩ | heq
  · exact hbase e hmem hne
  · rw [heq]
    exact hC

set_option maxHeartbeats 2000000 in
lemma setCell_chunksOccupied (st : Storage) (wsID row col : Nat) (x : Prim) (f : String)
    (hx : ¬(x = Prim.empty ∧ f = ""))
    (hinv : chunksOccupied st) : chunksOccupied (st.setCell wsID row col x f) := by
  unfold Storage.setCell
  cases hw : lookupA st.worksheets wsID with
  | none => exact hinv
  | some w =>
    dsimp only
    cases hc : lookupA w.chunks (row / ChunkRows, col / ChunkCols) with
    | some ch =>
      have hgc : w.getChunk (row / ChunkRows) (col / ChunkCols) = (ch, w) := by
        unfold Worksheet.getChunk
        dsimp only
        rw [hc]
      rw [hgc]
      dsimp only
      have h1 : (0 : Int) ≤ ch.nonEmptyCount :=
        le_of_lt (hinv _ (lookupA_mem hw) _ (lookupA_mem hc))
      have h2 : ¬ ch.types (col % ChunkCols * ChunkRows + row % ChunkRows) = CellValueTypeEmpty →
          (0 : Int) < ch.nonEmptyCount := fun _ => hinv _ (lookupA_mem hw) _ (lookupA_mem hc)
      have hbase : ∀ e ∈ w.chunks, e.1 ≠ (row / ChunkRows, col / ChunkCols) →
          0 < e.2.nonEmptyCount := fun e he _ => hinv _ (lookupA_mem hw) e he
      simp only [if_neg hx]
      rcases x with _ | q | t | b | er
      · by_cases hf0 : f = ""
        · exact absurd ⟨rfl, hf0⟩ hx
        · simp only [if_pos hf0]
          by_cases hwe0 : ch.types (col % ChunkCols * ChunkRows + row % ChunkRows)
              = CellValueTypeEmpty
          · simp only [if_pos hwe0]
            refine chunksOccupied_of_insert st _ wsID _ rfl hinv ?_
            refine chunkOccupied_of_insert _ _ _ _ rfl hbase ?_
            repeat' split
            all_goals dsimp only
            all_goals try omega
            all_goals try simp_all
            all_goals try omega
          · simp only [if_neg hwe0]
            have h3 := h2 hwe0
            refine chunksOccupied_of_insert st _ wsID _ rfl hinv ?_
            refine chunkOccupied_of_insert _ _ _ _ rfl hbase ?_
            repeat' split
            all_goals dsimp only
            all_goals try omega
            all_goals try simp_all
            all_goals try omega
      · by_cases hf0 : f = ""
        · have hnf : ¬(f ≠ "") := by simp [hf0]
          simp only [if_neg hnf]
          by_cases hwe0 : ch.types (col % ChunkCols * ChunkRows + row % ChunkRows)
              = CellValueTypeEmpty
          · simp only [if_pos hwe0]
            refine chunksOccupied_of_insert st _ wsID _ rfl hinv ?_
            refine chunkOccupied_of_insert _ _ _ _ rfl hbase ?_
            repeat' split
            all_goals dsimp only
            all_goals try omega
            all_goals try simp_all
            all_goals try omega
          · simp only [if_neg hwe0]
            have h3 := h2 hwe0
            refine chunksOccupied_of_insert st _ wsID _ rfl hinv ?_
            refine chunkOccupied_of_insert _ _ _ _ rfl hbase ?_
            repeat' split
            all_goals dsimp only
            all_goals try omega
            all_goals try simp_all
            all_goals try omega
        · simp only [if_pos hf0]
          by_cases hwe0 : ch.types (col % ChunkCols * ChunkRows + row % ChunkRows)
              = CellValueTypeEmpty
          · simp only [if_pos hwe0]
            refine chunksOccupied_of_insert st _ wsID _ rfl hinv ?_
            refine chunkOccupied_of_insert _ _ _ _ rfl hbase ?_
            repeat' split
            all_goals dsimp only
            all_goals try omega
            all_goals try simp_all
            all_goals try omega
          · simp only [if_neg hwe0]
            have h3 := h2 hwe0
            refine chunksOccupied_of_insert st _ wsID _ rfl hinv ?_
            refine chunkOccupied_of_insert _ _ _ _ rfl hbase ?_
            repeat' split
            all_goals dsimp only
            all_goals try omega
            all_goals try simp_all
            all_goals try omega
      · rcases hi : st.strings.intern t with ⟨sid, strs⟩
        simp only [hi]
        by_cases hf0 : f = ""
        · have hnf : ¬(f ≠ "") := by simp [hf0]
          simp only [if_neg hnf]
          by_cases hwe0 : ch.types (col % ChunkCols * ChunkRows + row % ChunkRows)
              = CellValueTypeEmpty
          · simp only [if_pos hwe0]
            refine chunksOccupied_of_insert st _ wsID _ rfl hinv ?_
            refine chunkOccupied_of_insert _ _ _ _ rfl hbase ?_
            repeat' split
            all_goals dsimp only
            all_goals try omega
            all_goals try simp_all
            all_goals try omega
          · simp only [if_neg hwe0]
            have h3 := h2 hwe0
            refine chunksOccupied_of_insert st _ wsID _ rfl hinv ?_
            refine chunkOccupied_of_insert _ _ _ _ rfl hbase ?_
            repeat' split
            all_goals dsimp only
            all_goals try omega
            all_goals try simp_all
            all_goals try omega
        · simp only [if_pos hf0]
          by_cases hwe0 : ch.types (col % ChunkCols * ChunkRows + row % ChunkRows)
              = CellValueTypeEmpty
          · simp only [if_pos hwe0]
            refine chunksOccupied_of_insert st _ wsID _ rfl hinv ?_
            refine chunkOccupied_of_insert _ _ _ _ rfl hbase ?_
            repeat' split
            all_goals dsimp only
            all_goals try omega
            all_goals try simp_all
            all_goals try omega
          · simp only [if_neg hwe0]
            have h3 := h2 hwe0
            refine chunksOccupied_of_insert st _ wsID _ rfl hinv ?_
            refine chunkOccupied_of_insert _ _ _ _ rfl hbase ?_
            repeat' split
            all_goals dsimp only
            all_goals try omega
            all_goals try simp_all
            all_goals try omega
      · by_cases hf0 : f = ""
        · have hnf : ¬(f ≠ "") := by simp [hf0]
          simp only [if_neg hnf]
          by_cases hwe0 : ch.types (col % ChunkCols * ChunkRows + row % ChunkRows)
              = CellValueTypeEmpty
          · simp only [if_pos hwe0]
            refine chunksOccupied_of_insert st _ wsID _ rfl hinv ?_
            refine chunkOccupied_of_insert _ _ _ _ rfl hbase ?_
            repeat' split
            all_goals dsimp only
            all_goals try omega
            all_goals try simp_all
            all_goals try omega
          · simp only [if_neg hwe0]
            have h3 := h2 hwe0
            refine chunksOccupied_of_insert st _ wsID _ rfl hinv ?_
            refine chunkOccupied_of_insert _ _ _ _ rfl hbase ?_
            repeat' split
            all_goals dsimp only
            all_goals try omega
            all_goals try simp_all
            all_goals try omega
        · simp only [if_pos hf0]
          by_cases hwe0 : ch.types (col % ChunkCols * ChunkRows + row % ChunkRows)
              = CellValueTypeEmpty
          · simp only [if_pos hwe0]
            refine chunksOccupied_of_insert st _ wsID _ rfl hinv ?_
            refine chunkOccupied_of_insert _ _ _ _ rfl hbase ?_
            repeat' split
            all_goals dsimp only
            all_goals try omega
            all_goals try simp_all
            all_goals try omega
          · simp only [if_neg hwe0]
            have h3 := h2 hwe0
            refine chunksOccupied_of_insert st _ wsID _ rfl hinv ?_
            refine chunkOccupied_of_insert _ _ _ _ rfl hbase ?_
            repeat' split
            all_goals dsimp only
            all_goals try omega
            all_goals try simp_all
            all_goals try omega
      · rcases hi : st.strings.intern er.Message with ⟨sid, strs⟩
        simp only [hi]
        by_cases hf0 : f = ""
        · have hnf : ¬(f ≠ "") := by simp [hf0]
          simp only [if_neg hnf]
          by_cases hwe0 : ch.types (col % ChunkCols * ChunkRows + row % ChunkRows)
              = CellValueTypeEmpty
          · simp only [if_pos hwe0]
            refine chunksOccupied_of_insert st _ wsID _ rfl hinv ?_
            refine chunkOccupied_of_insert _ _ _ _ rfl hbase ?_
            repeat' split
            all_goals dsimp only
            all_goals try omega
            all_goals try simp_all
            all_goals try omega
          · simp only [if_neg hwe0]
            have h3 := h2 hwe0
            refine chunksOccupied_of_insert st _ wsID _ rfl hinv ?_
            refine chunkOccupied_of_insert _ _ _ _ rfl hbase ?_
            repeat' split
            all_goals dsimp only
            all_goals try omega
            all_goals try simp_all
            all_goals try omega
        · simp only [if_pos hf0]
          by_cases hwe0 : ch.types (col % ChunkCols * ChunkRows + row % ChunkRows)
              = CellValueTypeEmpty
          · simp only [if_pos hwe0]
            refine chunksOccupied_of_insert st _ wsID _ rfl hinv ?_
            refine chunkOccupied_of_insert _ _ _ _ rfl hbase ?_
            repeat' split
            all_goals dsimp only
            all_goals try omega
            all_goals try simp_all
            all_goals try omega
          · simp only [if_neg hwe0]
            have h3 := h2 hwe0
            refine chunksOccupied_of_insert st _ wsID _ rfl hinv ?_
            refine chunkOccupied_of_insert _ _ _ _ rfl hbase ?_
            repeat' split
            all_goals dsimp only
            all_goals try omega
            all_goals try simp_all
            all_goals try omega
    | none =>
      have hgc : w.getChunk (row / ChunkRows) (col / ChunkCols) =
          (Chunk.fresh,
           { w with chunks :=
              w.chunks ++ [((row / ChunkRows, col / ChunkCols), Chunk.fresh)] }) := by
        unfold Worksheet.getChunk
        dsimp only
        rw [hc]
      rw [hgc]
      dsimp only
      have hweT : Chunk.fresh.types (col % ChunkCols * ChunkRows + row % ChunkRows)
          = CellValueTypeEmpty := rfl
      have hbase : ∀ e ∈ w.chunks ++ [((row / ChunkRows, col / ChunkCols), Chunk.fresh)],
          e.1 ≠ (row / ChunkRows, col / ChunkCols) → 0 < e.2.nonEmptyCount := by
        intro e he hne
        rcases List.mem_append.mp he with h | h
        · exact hinv _ (lookupA_mem hw) e h
        · exfalso
          apply hne
          have : e = ((row / ChunkRows, col / ChunkCols), Chunk.fresh) := by simpa using h
          rw [this]
      simp only [if_neg hx]
      rcases x with _ | q | t | b | er
      · by_cases hf0 : f = ""
        · exact absurd ⟨rfl, hf0⟩ hx
        · simp only [if_pos hf0]
          simp only [if_pos hweT]
          refine chunksOccupied_of_insert st _ wsID _ rfl hinv ?_
          refine chunkOccupied_of_insert _ _ _ _ rfl hbase ?_
          simp [Chunk.fresh, upd, CellValueTypeNumber, CellValueTypeEmpty,
            CellValueTypeString, CellValueTypeBoolean, CellValueTypeError]
      · by_cases hf0 : f = ""
        · have hnf : ¬(f ≠ "") := by simp [hf0]
          simp only [if_neg hnf]
          simp only [if_pos hweT]
          refine chunksOccupied_of_insert st _ wsID _ rfl hinv ?_
          refine chunkOccupied_of_insert _ _ _ _ rfl hbase ?_
          simp [Chunk.fresh, upd, CellValueTypeNumber, CellValueTypeEmpty,
            CellValueTypeString, CellValueTypeBoolean, CellValueTypeError]
        · simp only [if_pos hf0]
          simp only [if_pos hweT]
          refine chunksOccupied_of_insert st _ wsID _ rfl hinv ?_
          refine chunkOccupied_of_insert _ _ _ _ rfl hbase ?_
          simp [Chunk.fresh, upd, CellValueTypeNumber, CellValueTypeEmpty,
            CellValueTypeString, CellValueTypeBoolean, CellValueTypeError]
      · rcases hi : st.strings.intern t with ⟨sid, strs⟩
        simp only [hi]
        by_cases hf0 : f = ""
        · have hnf : ¬(f ≠ "") := by simp [hf0]
          simp only [if_neg hnf]
          simp only [if_pos hweT]
          refine chunksOccupied_of_insert st _ wsID _ rfl hinv ?_
          refine chunkOccupied_of_insert _ _ _ _ rfl hbase ?_
          simp [Chunk.fresh, upd, CellValueTypeNumber, CellValueTypeEmpty,
            CellValueTypeString, CellValueTypeBoolean, CellValueTypeError]
        · simp only [if_pos hf0]
          simp only [if_pos hweT]
          refine chunksOccupied_of_insert st _ wsID _ rfl hinv ?_
          refine chunkOccupied_of_insert _ _ _ _ rfl hbase ?_
          simp [Chunk.fresh, upd, CellValueTypeNumber, CellValueTypeEmpty,
            CellValueTypeString, CellValueTypeBoolean, CellValueTypeError]
      · by_cases hf0 : f = ""
        · have hnf : ¬(f ≠ "") := by simp [hf0]
          simp only [if_neg hnf]
          simp only [if_pos hweT]
          refine chunksOccupied_of_insert st _ wsID _ rfl hinv ?_
          refine chunkOccupied_of_insert _ _ _ _ rfl hbase ?_
          simp [Chunk.fresh, upd, CellValueTypeNumber, CellValueTypeEmpty,
            CellValueTypeString, CellValueTypeBoolean, CellValueTypeError]
        · simp only [if_pos hf0]
          simp only [if_pos hweT]
          refine chunksOccupied_of_insert st _ wsID _ rfl hinv ?_
          refine chunkOccupied_of_insert _ _ _ _ rfl hbase ?_
          simp [Chunk.fresh, upd, CellValueTypeNumber, CellValueTypeEmpty,
            CellValueTypeString, CellValueTypeBoolean, CellValueTypeError]
      · rcases hi : st.strings.intern er.Message with ⟨sid, strs⟩
        simp only [hi]
        by_cases hf0 : f = ""
        · have hnf : ¬(f ≠ "") := by simp [hf0]
          simp only [if_neg hnf]
          simp only [if_pos hweT]
          refine chunksOccupied_of_insert st _ wsID _ rfl hinv ?_
          refine chunkOccupied_of_insert _ _ _ _ rfl hbase ?_
          simp [Chunk.fresh, upd, CellValueTypeNumber, CellValueTypeEmpty,
            CellValueTypeString, CellValueTypeBoolean, CellValueTypeError]
        · simp only [if_pos hf0]
          simp only [if_pos hweT]
          refine chunksOccupied_of_insert st _ wsID _ rfl hinv ?_
          refine chunkOccupied_of_insert _ _ _ _ rfl hbase ?_
          simp [Chunk.fresh, upd, CellValueTypeNumber, CellValueTypeEmpty,
            CellValueTypeString, CellValueTypeBoolean, CellValueTypeError]

lemma chunkOccupied_of_remove (w' : Worksheet) (base : List ((Nat × Nat) × Chunk))
    (key : Nat × Nat)
    (hch : w'.chunks = removeA base key)
    (hbase : ∀ e ∈ base, 0 < e.2.nonEmptyCount) : chunkOccupied w' := by
  intro e he
  rw [hch] at he
  exact hbase e (removeA_mem he)

set_option maxHeartbeats 2000000 in
lemma removeCell_chunksOccupied (st : Storage) (wsID row col : Nat)
    (hinv : chunksOccupied st) : chunksOccupied (st.removeCell wsID row col) := by
  unfold Storage.removeCell
  cases hw : lookupA st.worksheets wsID with
  | none => exact hinv
  | some w =>
    try dsimp only
    cases hc : lookupA w.chunks (row / ChunkRows, col / ChunkCols) with
    | none => exact hinv
    | some ch =>
      try dsimp only
      by_cases hty : ch.types (col % ChunkCols * ChunkRows + row % ChunkRows)
          = CellValueTypeEmpty
      · simp only [if_pos hty]
        exact hinv
      · simp only [if_neg hty]
        have hpos : (0 : Int) < ch.nonEmptyCount :=
          hinv _ (lookupA_mem hw) _ (lookupA_mem hc)
        have hbase : ∀ e ∈ w.chunks, e.1 ≠ (row / ChunkRows, col / ChunkCols) →
            0 < e.2.nonEmptyCount := fun e he _ => hinv _ (lookupA_mem hw) e he
        rcases hfid : ch.formulaIDs with _ | fn
        · simp only [hfid]
          by_cases hse : ch.types (col % ChunkCols * ChunkRows + row % ChunkRows) = CellValueTypeString
              ∨ ch.types (col % ChunkCols * ChunkRows + row % ChunkRows) = CellValueTypeError
          · simp only [if_pos hse]
            rcases hsid : ch.stringIDs with _ | sids
            · simp only [hsid]
              try dsimp only
              by_cases h0 : ch.nonEmptyCount - 1 = 0
              · simp only [if_pos h0]
                refine chunksOccupied_of_insert st _ wsID _ rfl hinv ?_
                refine chunkOccupied_of_remove _ _ _ rfl ?_
                exact fun e he => hinv _ (lookupA_mem hw) e he
              · simp only [if_neg h0]
                refine chunksOccupied_of_insert st _ wsID _ rfl hinv ?_
                refine chunkOccupied_of_insert _ _ _ _ rfl hbase ?_
                try dsimp only
                omega
            · simp only [hsid]
              by_cases hs0 : sids (col % ChunkCols * ChunkRows + row % ChunkRows) = 0
              · simp only [ne_eq, hs0, not_true_eq_false, if_false]
                try dsimp only
                by_cases h0 : ch.nonEmptyCount - 1 = 0
                · simp only [if_pos h0]
                  refine chunksOccupied_of_insert st _ wsID _ rfl hinv ?_
                  refine chunkOccupied_of_remove _ _ _ rfl ?_
                  exact fun e he => hinv _ (lookupA_mem hw) e he
                · simp only [if_neg h0]
                  refine chunksOccupied_of_insert st _ wsID _ rfl hinv ?_
                  refine chunkOccupied_of_insert _ _ _ _ rfl hbase ?_
                  try dsimp only
                  omega
              · simp only [ne_eq, hs0, not_false_eq_true, if_true]
                rcases hrr : st.strings.removeReference
                    (sids (col % ChunkCols * ChunkRows + row % ChunkRows)) with ⟨u, strs⟩
                simp only [hrr]
                try dsimp only
                by_cases h0 : ch.nonEmptyCount - 1 = 0
                · simp only [if_pos h0]
                  refine chunksOccupied_of_insert st _ wsID _ rfl hinv ?_
                  refine chunkOccupied_of_remove _ _ _ rfl ?_
                  exact fun e he => hinv _ (lookupA_mem hw) e he
                · simp only [if_neg h0]
                  refine chunksOccupied_of_insert st _ wsID _ rfl hinv ?_
                  refine chunkOccupied_of_insert _ _ _ _ rfl hbase ?_
                  try dsimp only
                  omega
          · simp only [if_neg hse]
            try dsimp only
            by_cases h0 : ch.nonEmptyCount - 1 = 0
            · simp only [if_pos h0]
              refine chunksOccupied_of_insert st _ wsID _ rfl hinv ?_
              refine chunkOccupied_of_remove _ _ _ rfl ?_
              exact fun e he => hinv _ (lookupA_mem hw) e he
            · simp only [if_neg h0]
              refine chunksOccupied_of_insert st _ wsID _ rfl hinv ?_
              refine chunkOccupied_of_insert _ _ _ _ rfl hbase ?_
              try dsimp only
              omega
        · simp only [hfid]
          by_cases hfn : fn (col % ChunkCols * ChunkRows + row % ChunkRows) = 0
          · simp only [ne_eq, hfn, not_true_eq_false, if_false]
            by_cases hse : ch.types (col % ChunkCols * ChunkRows + row % ChunkRows) = CellValueTypeString
                ∨ ch.types (col % ChunkCols * ChunkRows + row % ChunkRows) = CellValueTypeError
            · simp only [if_pos hse]
              rcases hsid : ch.stringIDs with _ | sids
              · simp only [hsid]
                try dsimp only
                by_cases h0 : ch.nonEmptyCount - 1 = 0
                · simp only [if_pos h0]
                  refine chunksOccupied_of_insert st _ wsID _ rfl hinv ?_
                  refine chunkOccupied_of_remove _ _ _ rfl ?_
                  exact fun e he => hinv _ (lookupA_mem hw) e he
                · simp only [if_neg h0]
                  refine chunksOccupied_of_insert st _ wsID _ rfl hinv ?_
                  refine chunkOccupied_of_insert _ _ _ _ rfl hbase ?_
                  try dsimp only
                  omega
              · simp only [hsid]
                by_cases hs0 : sids (col % ChunkCols * ChunkRows + row % ChunkRows) = 0
                · simp only [ne_eq, hs0, not_true_eq_false, if_false]
                  try dsimp only
                  by_cases h0 : ch.nonEmptyCount - 1 = 0
                  · simp only [if_pos h0]
                    refine chunksOccupied_of_insert st _ wsID _ rfl hinv ?_
                    refine chunkOccupied_of_remove _ _ _ rfl ?_
                    exact fun e he => hinv _ (lookupA_mem hw) e he
                  · simp only [if_neg h0]
                    refine chunksOccupied_of_insert st _ wsID _ rfl hinv ?_
                    refine chunkOccupied_of_insert _ _ _ _ rfl hbase ?_
                    try dsimp only
                    omega
                · simp only [ne_eq, hs0, not_false_eq_true, if_true]
                  rcases hrr : st.strings.removeReference
                      (sids (col % ChunkCols * ChunkRows + row % ChunkRows)) with ⟨u, strs⟩
                  simp only [hrr]
                  try dsimp only
                  by_cases h0 : ch.nonEmptyCount - 1 = 0
                  · simp only [if_pos h0]
                    refine chunksOccupied_of_insert st _ wsID _ rfl hinv ?_
                    refine chunkOccupied_of_remove _ _ _ rfl ?_
                    exact fun e he => hinv _ (lookupA_mem hw) e he
                  · simp only [if_neg h0]
                    refine chunksOccupied_of_insert st _ wsID _ rfl hinv ?_
                    refine chunkOccupied_of_insert _ _ _ _ rfl hbase ?_
                    try dsimp only
                    omega
            · simp only [if_neg hse]
              try dsimp only
              by_cases h0 : ch.nonEmptyCount - 1 = 0
              · simp only [if_pos h0]
                refine chunksOccupied_of_insert st _ wsID _ rfl hinv ?_
                refine chunkOccupied_of_remove _ _ _ rfl ?_
                exact fun e he => hinv _ (lookupA_mem hw) e he
              · simp only [if_neg h0]
                refine chunksOccupied_of_insert st _ wsID _ rfl hinv ?_
                refine chunkOccupied_of_insert _ _ _ _ rfl hbase ?_
                try dsimp only
                omega
          · simp only [ne_eq, hfn, not_false_eq_true, if_true]
            by_cases hse : ch.types (col % ChunkCols * ChunkRows + row % ChunkRows) = CellValueTypeString
                ∨ ch.types (col % ChunkCols * ChunkRows + row % ChunkRows) = CellValueTypeError
            · simp only [if_pos hse]
              rcases hsid : ch.stringIDs with _ | sids
              · simp only [hsid]
                try dsimp only
                by_cases h0 : ch.nonEmptyCount - 1 = 0
                · simp only [if_pos h0]
                  refine chunksOccupied_of_insert st _ wsID _ rfl hinv ?_
                  refine chunkOccupied_of_remove _ _ _ rfl ?_
                  exact fun e he => hinv _ (lookupA_mem hw) e he
                · simp only [if_neg h0]
                  refine chunksOccupied_of_insert st _ wsID _ rfl hinv ?_
                  refine chunkOccupied_of_insert _ _ _ _ rfl hbase ?_
                  try dsimp only
                  omega
              · simp only [hsid]
                by_cases hs0 : sids (col % ChunkCols * ChunkRows + row % ChunkRows) = 0
                · simp only [ne_eq, hs0, not_true_eq_false, if_false]
                  try dsimp only
                  by_cases h0 : ch.nonEmptyCount - 1 = 0
                  · simp only [if_pos h0]
                    refine chunksOccupied_of_insert st _ wsID _ rfl hinv ?_
                    refine chunkOccupied_of_remove _ _ _ rfl ?_
                    exact fun e he => hinv _ (lookupA_mem hw) e he
                  · simp only [if_neg h0]
                    refine chunksOccupied_of_insert st _ wsID _ rfl hinv ?_
                    refine chunkOccupied_of_insert _ _ _ _ rfl hbase ?_
                    try dsimp only
                    omega
                · simp only [ne_eq, hs0, not_false_eq_true, if_true]
                  rcases hrr : st.strings.removeReference
                      (sids (col % ChunkCols * ChunkRows + row % ChunkRows)) with ⟨u, strs⟩
                  simp only [hrr]
                  try dsimp only
                  by_cases h0 : ch.nonEmptyCount - 1 = 0
                  · simp only [if_pos h0]
                    refine chunksOccupied_of_insert st _ wsID _ rfl hinv ?_
                    refine chunkOccupied_of_remove _ _ _ rfl ?_
                    exact fun e he => hinv _ (lookupA_mem hw) e he
                  · simp only [if_neg h0]
                    refine chunksOccupied_of_insert st _ wsID _ rfl hinv ?_
                    refine chunkOccupied_of_insert _ _ _ _ rfl hbase ?_
                    try dsimp only
                    omega
            · simp only [if_neg hse]
              try dsimp only
              by_cases h0 : ch.nonEmptyCount - 1 = 0
              · simp only [if_pos h0]
                refine chunksOccupied_of_insert st _ wsID _ rfl hinv ?_
                refine chunkOccupied_of_remove _ _ _ rfl ?_
                exact fun e he => hinv _ (lookupA_mem hw) e he
              · simp only [if_neg h0]
                refine chunksOccupied_of_insert st _ wsID _ rfl hinv ?_
                refine chunkOccupied_of_insert _ _ _ _ rfl hbase ?_
                try dsimp only
                omega

set_option maxHeartbeats 2000000 in
lemma removeCell_deletes_emptied_chunk (st : Storage) (wsID row col : Nat)
    (w : Worksheet) (ch : Chunk)
    (hw : lookupA st.worksheets wsID = some w)
    (hc : lookupA w.chunks (row / ChunkRows, col / ChunkCols) = some ch)
    (hty : ¬ ch.types (col % ChunkCols * ChunkRows + row % ChunkRows) = CellValueTypeEmpty)
    (h0 : ch.nonEmptyCount - 1 = 0) :
    ∃ w', lookupA (st.removeCell wsID row col).worksheets wsID = some w' ∧
      lookupA w'.chunks (row / ChunkRows, col / ChunkCols) = none := by
  unfold Storage.removeCell
  rw [hw]
  dsimp only
  rw [hc]
  dsimp only
  simp only [if_neg hty]
  rcases hfid : ch.formulaIDs with _ | fn
  · simp only [hfid]
    by_cases hse : ch.types (col % ChunkCols * ChunkRows + row % ChunkRows) = CellValueTypeString
        ∨ ch.types (col % ChunkCols * ChunkRows + row % ChunkRows) = CellValueTypeError
    · simp only [if_pos hse]
      rcases hsid : ch.stringIDs with _ | sids
      · simp only [hsid]
        try dsimp only
        simp only [if_pos h0]
        exact ⟨_, lookupA_insertA _ _ _, lookupA_removeA _ _⟩
      · simp only [hsid]
        by_cases hs0 : sids (col % ChunkCols * ChunkRows + row % ChunkRows) = 0
        · simp only [ne_eq, hs0, not_true_eq_false, if_false]
          try dsimp only
          simp only [if_pos h0]
          exact ⟨_, lookupA_insertA _ _ _, lookupA_removeA _ _⟩
        · simp only [ne_eq, hs0, not_false_eq_true, if_true]
          rcases hrr : st.strings.removeReference
              (sids (col % ChunkCols * ChunkRows + row % ChunkRows)) with ⟨u, strs⟩
          try simp only [hrr]
          try dsimp only
          simp only [if_pos h0]
          exact ⟨_, lookupA_insertA _ _ _, lookupA_removeA _ _⟩
    · simp only [if_neg hse]
      try dsimp only
      simp only [if_pos h0]
      exact ⟨_, lookupA_insertA _ _ _, lookupA_removeA _ _⟩
  · simp only [hfid]
    by_cases hfn : fn (col % ChunkCols * ChunkRows + row % ChunkRows) = 0
    · simp only [ne_eq, hfn, not_true_eq_false, if_false]
      by_cases hse : ch.types (col % ChunkCols * ChunkRows + row % ChunkRows) = CellValueTypeString
          ∨ ch.types (col % ChunkCols * ChunkRows + row % ChunkRows) = CellValueTypeError
      · simp only [if_pos hse]
        rcases hsid : ch.stringIDs with _ | sids
        · simp only [hsid]
          try dsimp only
          simp only [if_pos h0]
          exact ⟨_, lookupA_insertA _ _ _, lookupA_removeA _ _⟩
        · simp only [hsid]
          by_cases hs0 : sids (col % ChunkCols * ChunkRows + row % ChunkRows) = 0
          · simp only [ne_eq, hs0, not_true_eq_false, if_false]
            try dsimp only
            simp only [if_pos h0]
            exact ⟨_, lookupA_insertA _ _ _, lookupA_removeA _ _⟩
          · simp only [ne_eq, hs0, not_false_eq_true, if_true]
            rcases hrr : st.strings.removeReference
                (sids (col % ChunkCols * ChunkRows + row % ChunkRows)) with ⟨u, strs⟩
            try simp only [hrr]
            try dsimp only
            simp only [if_pos h0]
            exact ⟨_, lookupA_insertA _ _ _, lookupA_removeA _ _⟩
      · simp only [if_neg hse]
        try dsimp only
        simp only [if_pos h0]
        exact ⟨_, lookupA_insertA _ _ _, lookupA_removeA _ _⟩
    · simp only [ne_eq, hfn, not_false_eq_true, if_true]
      by_cases hse : ch.types (col % ChunkCols * ChunkRows + row % ChunkRows) = CellValueTypeString
          ∨ ch.types (col % ChunkCols * ChunkRows + row % ChunkRows) = CellValueTypeError
      · simp only [if_pos hse]
        rcases hsid : ch.stringIDs with _ | sids
        · simp only [hsid]
          try dsimp only
          simp only [if_pos h0]
          exact ⟨_, lookupA_insertA _ _ _, lookupA_removeA _ _⟩
        · simp only [hsid]
          by_cases hs0 : sids (col % ChunkCols * ChunkRows + row % ChunkRows) = 0
          · simp only [ne_eq, hs0, not_true_eq_false, if_false]
            try dsimp only
            simp only [if_pos h0]
            exact ⟨_, lookupA_insertA _ _ _, lookupA_removeA _ _⟩
          · simp only [ne_eq, hs0, not_false_eq_true, if_true]
            rcases hrr : st.strings.removeReference
                (sids (col % ChunkCols * ChunkRows + row % ChunkRows)) with ⟨u, strs⟩
            try simp only [hrr]
            try dsimp only
            simp only [if_pos h0]
            exact ⟨_, lookupA_insertA _ _ _, lookupA_removeA _ _⟩
      · simp only [if_neg hse]
        try dsimp only
        simp only [if_pos h0]
        exact ⟨_, lookupA_insertA _ _ _, lookupA_removeA _ _⟩

/-- C8 (counterexample): clearing a cell with `nil` on a fresh worksheet
leaves a chunk with zero occupied cells in the chunk map, so the claimed
invariant fails after a `Set` of `nil`. -/
theorem set_nil_empty_chunk_counterexample :
    ∃ w, lookupA ((Spreadsheet.new.addWorksheet 1).setLiteral 1 0 0
          Prim.empty).storage.worksheets 1 = some w ∧
      w.chunks.map (fun e => e.2.nonEmptyCount) = [0] :=
  ⟨_, rfl, rfl⟩

/-- C8 (amended): a `SetCell` that stores a value or formula placeholder
preserves the occupancy invariant, `RemoveCell` preserves it as well, and
`RemoveCell` deletes the chunk whose occupied count reaches zero; only the
`nil`-clearing branch of `SetCell` violates the invariant. -/
theorem chunk_occupancy_invariant :
    (∀ (st : Storage) (wsID row col : Nat) (x : Prim) (f : String),
        ¬(x = Prim.empty ∧ f = "") → chunksOccupied st →
        chunksOccupied (st.setCell wsID row col x f))
    ∧ (∀ (st : Storage) (wsID row col : Nat), chunksOccupied st →
        chunksOccupied (st.removeCell wsID row col))
    ∧ (∀ (st : Storage) (wsID row col : Nat) (w : Worksheet) (ch : Chunk),
        lookupA st.worksheets wsID = some w →
        lookupA w.chunks (row / ChunkRows, col / ChunkCols) = some ch →
        ¬ ch.types (col % ChunkCols * ChunkRows + row % ChunkRows) = CellValueTypeEmpty →
        ch.nonEmptyCount - 1 = 0 →
        ∃ w', lookupA (st.removeCell wsID row col).worksheets wsID = some w' ∧
          lookupA w'.chunks (row / ChunkRows, col / ChunkCols) = none) :=
  ⟨fun st wsID row col x f hx hinv => setCell_chunksOccupied st wsID row col x f hx hinv,
   fun st wsID row col hinv => removeCell_chunksOccupied st wsID row col hinv,
   fun st wsID row col w ch hw hc hty h0 =>
     removeCell_deletes_emptied_chunk st wsID row col w ch hw hc hty h0⟩

/-- Witness for the occupancy theorem at a concrete one-cell store. -/
theorem chunk_occupancy_invariant_witness :
    chunksOccupied ((Spreadsheet.new.addWorksheet 1).storage.setCell 1 0 0 (Prim.num 5) "")
    ∧ chunksOccupied (((Spreadsheet.new.addWorksheet 1).storage.setCell 1 0 0
        (Prim.num 5) "").removeCell 1 0 0)
    ∧ ∃ w', lookupA ((((Spreadsheet.new.addWorksheet 1).storage.setCell 1 0 0
          (Prim.num 5) "").removeCell 1 0 0).worksheets) 1 = some w' ∧
        lookupA w'.chunks (0 / ChunkRows, 0 / ChunkCols) = none := by
  have h1 := chunk_occupancy_invariant.1 (Spreadsheet.new.addWorksheet 1).storage
    1 0 0 (Prim.num 5) "" (by simp)
    (by
      unfold chunksOccupied chunkOccupied
      decide)
  have h2 := chunk_occupancy_invariant.2.1
    ((Spreadsheet.new.addWorksheet 1).storage.setCell 1 0 0 (Prim.num 5) "") 1 0 0 h1
  have h3 := chunk_occupancy_invariant.2.2
    ((Spreadsheet.new.addWorksheet 1).storage.setCell 1 0 0 (Prim.num 5) "") 1 0 0
    _ _ rfl rfl (by decide) (by decide)
  exact ⟨h1, h2, h3⟩

/-! ## C7: range self-inclusion stores REF -/

lemma errorCodeOfRat_toNat (c : ErrorCode) : errorCodeOfRat ((c.toNat : ℚ)) = c := by
  cases c
  all_goals decide

lemma setFormulaResult_get_err (st : Storage) (wsID row col : Nat) (er : SpreadsheetError)
    (w : Worksheet) (ch : Chunk) (fn : Nat → Nat)
    (hw : lookupA st.worksheets wsID = some w)
    (hc : lookupA w.chunks (row / ChunkRows, col / ChunkCols) = some ch)
    (hfid : ch.formulaIDs = some fn)
    (hfn : fn ((col % ChunkCols) * ChunkRows + (row % ChunkRows)) ≠ 0)
    (hwf : StringTable.WF st.strings) :
    ∃ w', lookupA (st.setFormulaResult wsID row col (.prim (.err er))).worksheets wsID
        = some w' ∧
      (Worksheet.getCell w' (st.setFormulaResult wsID row col (.prim (.err er))).strings
        row col).map Cell.value = some (.err er) := by
  have hst := intern_getString st.strings er.Message hwf
  unfold Storage.setFormulaResult
  rw [hw]
  dsimp only
  rw [hc]
  dsimp only
  rcases hi : st.strings.intern er.Message with ⟨sid, strs⟩
  try simp only [hi]
  rw [hi] at hst
  refine ⟨_, lookupA_insertA _ _ _, ?_⟩
  simp [Worksheet.getCell, lookupA_insertA, upd, hfid, hfn, CellValueTypeNumber,
    CellValueTypeEmpty, CellValueTypeDate, CellValueTypeString, CellValueTypeBoolean,
    CellValueTypeError, hst, errorCodeOfRat_toNat]

/-- C7: when `calculateCell` evaluates a formula cell one of whose range
precedents contains the cell itself, it stores the `REF`
circular-reference error as the cell's formula result and returns that
error. -/
theorem range_self_inclusion_ref (fuel : Nat) (s : Spreadsheet) (cellAddr : CellAddress)
    (w : Worksheet) (cell : Cell) (ast : AST) (ch : Chunk) (fn : Nat → Nat)
    (hws : cellAddr.WorksheetID ≠ 0)
    (hcomp : s.calculationStack.isCompleted cellAddr = false)
    (hproc : s.calculationStack.isProcessing cellAddr = false)
    (hw : lookupA s.storage.worksheets cellAddr.WorksheetID = some w)
    (hcell : w.getCell s.storage.strings cellAddr.Row cellAddr.Column = some cell)
    (hfid0 : ¬ cell.formulaID = 0)
    (hast : s.storage.formulas.getAST cell.formulaID = some ast)
    (hrange : (s.storage.graph.getRangePrecedents cellAddr).any
        (fun r => DependencyGraph.isInRange cellAddr r) = true)
    (hc : lookupA w.chunks (cellAddr.Row / ChunkRows, cellAddr.Column / ChunkCols) = some ch)
    (hfid : ch.formulaIDs = some fn)
    (hfn : fn ((cellAddr.Column % ChunkCols) * ChunkRows + (cellAddr.Row % ChunkRows)) ≠ 0)
    (hwf : StringTable.WF s.storage.strings) :
    ∃ s', Spreadsheet.calculateCell (fuel + 1) s cellAddr
        = some (s', some circularRefError) ∧
      s'.get cellAddr.WorksheetID cellAddr.Row cellAddr.Column = .err circularRefError := by
  obtain ⟨w', hw', hv⟩ := setFormulaResult_get_err s.storage cellAddr.WorksheetID
    cellAddr.Row cellAddr.Column circularRefError w ch fn hw hc hfid hfn hwf
  unfold Spreadsheet.calculateCell calcCellF
  simp only [hcomp, hproc, Bool.false_eq_true, if_false]
  unfold calcBodyF
  dsimp only
  rw [hw]
  dsimp only
  rw [hcell]
  dsimp only
  simp only [if_neg hfid0]
  rw [hast]
  dsimp only
  simp only [hrange, if_true]
  refine ⟨_, rfl, ?_⟩
  exact get_eq_of_getCell _ cellAddr.WorksheetID cellAddr.Row cellAddr.Column w' _ hws hw' hv

/-- The spec's range self-inclusion scenario before `Calculate`:
`A1 = "=SUM(A1:A3)"`. -/
def selfRangeSheet : Spreadsheet :=
  (Spreadsheet.new.addWorksheet 1).setFormulaAST 1 0 0 "=SUM(A1:A3)"
    (.funcCall "SUM" [.rangeRef 0 0 0 2 0])

/-- Witness: the self-inclusion theorem applied to the `=SUM(A1:A3)`
scenario, together with the end-to-end `Calculate` outcome. -/
theorem range_self_inclusion_ref_witness :
    (∃ s', Spreadsheet.calculateCell (selfRangeSheet.calcFuel + 1) selfRangeSheet
        ⟨1, 0, 0⟩ = some (s', some circularRefError) ∧
      s'.get 1 0 0 = .err circularRefError)
    ∧ selfRangeSheet.calculate.get 1 0 0 = .err circularRefError := by
  constructor
  · exact range_self_inclusion_ref selfRangeSheet.calcFuel selfRangeSheet ⟨1, 0, 0⟩
      _ _ _ _ _ (by decide) rfl rfl rfl rfl (by decide) rfl (by decide) rfl rfl
      (by decide) (by refine ⟨by decide, ?_⟩; decide)
  · decide

/-! ## C2: reference cycles -/

/-- The spec's two-cell cycle before and after `Calculate`:
`A1 = "=B1"`, `B1 = "=A1"`. -/
def scenarioCycle : Spreadsheet :=
  let s := Spreadsheet.new.addWorksheet 1
  let s := s.setFormulaAST 1 0 0 "=B1" (.cellRef 0 0 1)
  let s := s.setFormulaAST 1 0 1 "=A1" (.cellRef 0 0 (-1))
  s.calculate

/-- A multi-branch cycle: `A1 = "=B1+C1"`, `B1 = "=IF(FALSE,A1,42)"`,
`C1 = "=IF(FALSE,A1,42)"`.  Both `B1` and `C1` lie on a cycle through
`A1`, yet only the branch walked first propagates `REF`. -/
def scenarioMultiCycle : Spreadsheet :=
  let s := Spreadsheet.new.addWorksheet 1
  let s := s.setFormulaAST 1 0 0 "=B1+C1"
    (.binOp .add (.cellRef 0 0 1) (.cellRef 0 0 2))
  let s := s.setFormulaAST 1 0 1 "=IF(FALSE,A1,42)"
    (.funcCall "IF" [.boolNode false, .cellRef 0 0 (-1), .numNode 42])
  let s := s.setFormulaAST 1 0 2 "=IF(FALSE,A1,42)"
    (.funcCall "IF" [.boolNode false, .cellRef 0 0 (-2), .numNode 42])
  s.calculate

/-- C2 (counterexample): `C1` is a formula cell on a reference cycle with
`A1` (each is a direct precedent of the other through the recorded graph),
yet after `Calculate` its stored formula result is the number `42`, not
`Error(REF)`: its evaluation runs after `A1` completed with `REF`, and the
`IF` discards the untaken error branch. -/
theorem cycle_cell_value_counterexample :
    (⟨1, 0, 0⟩ : CellAddress) ∈ scenarioMultiCycle.storage.graph.getDirectPrecedents ⟨1, 0, 2⟩
    ∧ (⟨1, 0, 2⟩ : CellAddress) ∈ scenarioMultiCycle.storage.graph.getDirectPrecedents ⟨1, 0, 0⟩
    ∧ (lookupA scenarioMultiCycle.storage.graph.nodes ⟨1, 0, 2⟩).map DependencyNode.formula
        = some "=IF(FALSE,A1,42)"
    ∧ scenarioMultiCycle.get 1 0 0 = Prim.err circularRefError
    ∧ scenarioMultiCycle.get 1 0 2 = Prim.num 42 := by decide

/-- C2 (amended): in the spec's own two-cell cycle every cell of the cycle
is walked by the detecting evaluation, and both end up with the stored
formula result `Error(REF)`. -/
theorem two_cell_cycle_both_ref :
    (⟨1, 0, 1⟩ : CellAddress) ∈ scenarioCycle.storage.graph.getDirectPrecedents ⟨1, 0, 0⟩
    ∧ (⟨1, 0, 0⟩ : CellAddress) ∈ scenarioCycle.storage.graph.getDirectPrecedents ⟨1, 0, 1⟩
    ∧ scenarioCycle.get 1 0 0 = Prim.err circularRefError
    ∧ scenarioCycle.get 1 0 1 = Prim.err circularRefError := by decide

/-! ## Recalculation chain scenarios (used by the termination analysis) -/

/-- `A1 = 1`, `A2 = "=A1+1"`, `A3 = "=A2+1"`, calculated. -/
def chain1 : Spreadsheet :=
  let s := Spreadsheet.new.addWorksheet 1
  let s := s.setLiteral 1 0 0 (.num 1)
  let s := s.setFormulaAST 1 1 0 "=A1+1" (.binOp .add (.cellRef 0 (-1) 0) (.numNode 1))
  let s := s.setFormulaAST 1 2 0 "=A2+1" (.binOp .add (.cellRef 0 (-1) 0) (.numNode 1))
  s.calculate

/-- `chain1` with `A1` overwritten to `10` and recalculated: the lazy
propagation reaches `A3` across iterations. -/
def chain2 : Spreadsheet := (chain1.setLiteral 1 0 0 (.num 10)).calculate

/-! ## Termination of `Calculate` (C3) -/

/-- The addresses that have a node in the graph. -/
def keyList (g : DependencyGraph) : List CellAddress := g.nodes.map Prod.fst

/-- Well-formedness of the dependency graph maintained by the engine: node
keys are distinct and every address the graph stores (dirty marks, edges,
range observers, volatile marks) is itself a node key. -/
def GraphWF (g : DependencyGraph) : Prop :=
  (keyList g).Nodup ∧
  (∀ a ∈ g.dirtySet, a ∈ keyList g) ∧
  (∀ e ∈ g.nodes, (∀ p ∈ e.2.cellPrecedents, p ∈ keyList g) ∧
    (∀ d ∈ e.2.cellDependents, d ∈ keyList g)) ∧
  (∀ ro ∈ g.rangeObservers, ∀ a ∈ ro.2, a ∈ keyList g) ∧
  (∀ v ∈ g.volatileCells, v ∈ keyList g)

lemma updNode_keyList (g : DependencyGraph) (a : CellAddress)
    (f : DependencyNode → DependencyNode) :
    keyList (g.updNode a f) = keyList g := by
  unfold keyList DependencyGraph.updNode
  dsimp only
  rw [List.map_map]
  apply List.map_congr_left
  intro e _
  by_cases h : e.1 = a
  · simp [h]
  · simp [h]

lemma updNode_mem {g : DependencyGraph} {a : CellAddress}
    {f : DependencyNode → DependencyNode} {e : CellAddress × DependencyNode}
    (h : e ∈ (g.updNode a f).nodes) :
    e ∈ g.nodes ∨ ∃ n, (a, n) ∈ g.nodes ∧ e = (a, f n) := by
  unfold DependencyGraph.updNode at h
  dsimp only at h
  obtain ⟨x, hx, hxe⟩ := List.mem_map.mp h
  by_cases hxa : x.1 = a
  · right
    refine ⟨x.2, ?_, ?_⟩
    · rw [← hxa]
      exact hx
    · rw [← hxe]
      simp [hxa]
  · left
    rw [← hxe]
    simpa [hxa] using hx

lemma updNode_dirty (g : DependencyGraph) (a : CellAddress)
    (f : DependencyNode → DependencyNode) :
    (g.updNode a f).dirtySet = g.dirtySet := rfl

lemma updNode_rangeObservers (g : DependencyGraph) (a : CellAddress)
    (f : DependencyNode → DependencyNode) :
    (g.updNode a f).rangeObservers = g.rangeObservers := rfl

lemma updNode_volatile (g : DependencyGraph) (a : CellAddress)
    (f : DependencyNode → DependencyNode) :
    (g.updNode a f).volatileCells = g.volatileCells := rfl

/-- WF is preserved by edge-preserving node updates (such as toggling the
dirty flag). -/
lemma GraphWF_updNode {g : DependencyGraph} {a : CellAddress}
    {f : DependencyNode → DependencyNode}
    (hf : ∀ n, (f n).cellPrecedents = n.cellPrecedents ∧
      (f n).cellDependents = n.cellDependents)
    (h : GraphWF g) : GraphWF (g.updNode a f) := by
  obtain ⟨h1, h2, h3, h4, h5⟩ := h
  refine ⟨?_, ?_, ?_, ?_, ?_⟩
  · rw [updNode_keyList]; exact h1
  · intro x hx
    rw [updNode_keyList]
    exact h2 x (by simpa [updNode_dirty] using hx)
  · intro e he
    rw [updNode_keyList]
    rcases updNode_mem he with hmem | ⟨n, hn, rfl⟩
    · exact h3 e hmem
    · constructor
      · intro p hp
        rw [(hf n).1] at hp
        exact (h3 (a, n) hn).1 p hp
      · intro d hd
        rw [(hf n).2] at hd
        exact (h3 (a, n) hn).2 d hd
  · intro ro hro x hx
    rw [updNode_keyList]
    exact h4 ro (by simpa [updNode_rangeObservers] using hro) x hx
  · intro v hv
    rw [updNode_keyList]
    exact h5 v (by simpa [updNode_volatile] using hv)

lemma setAdd_mem {α : Type} [DecidableEq α] {l : List α} {a x : α}
    (h : x ∈ setAdd l a) : x ∈ l ∨ x = a := by
  unfold setAdd at h
  by_cases hm : a ∈ l
  · rw [if_pos hm] at h; exact Or.inl h
  · rw [if_neg hm] at h
    rcases List.mem_append.mp h with h | h
    · exact Or.inl h
    · right; simpa using h

lemma mem_setAdd_self {α : Type} [DecidableEq α] (l : List α) (a : α) :
    a ∈ setAdd l a := by
  unfold setAdd
  by_cases hm : a ∈ l
  · rw [if_pos hm]; exact hm
  · rw [if_neg hm]; simp

lemma mem_setAdd_of_mem {α : Type} [DecidableEq α] {l : List α} {x : α} (a : α)
    (h : x ∈ l) : x ∈ setAdd l a := by
  unfold setAdd
  by_cases hm : a ∈ l
  · rw [if_pos hm]; exact h
  · rw [if_neg hm]; exact List.mem_append_left _ h

lemma setRemove_subset {α : Type} [DecidableEq α] {l : List α} {a x : α}
    (h : x ∈ setRemove l a) : x ∈ l :=
  List.mem_of_mem_filter h

/-- `clearDirty` preserves WF and the key list, and only shrinks the dirty
set. -/
lemma clearDirty_keyList (g : DependencyGraph) (a : CellAddress) :
    keyList (g.clearDirty a) = keyList g := by
  unfold DependencyGraph.clearDirty
  dsimp only
  cases h : lookupA g.nodes a with
  | none => rfl
  | some n => rw [updNode_keyList]; rfl

lemma clearDirty_dirty_subset {g : DependencyGraph} {a x : CellAddress}
    (h : x ∈ (g.clearDirty a).dirtySet) : x ∈ g.dirtySet := by
  unfold DependencyGraph.clearDirty at h
  dsimp only at h
  rcases hl : lookupA g.nodes a with _ | n
  all_goals
    simp only [hl] at h
  · exact setRemove_subset h
  · rw [updNode_dirty] at h
    exact setRemove_subset h

lemma GraphWF_clearDirty {g : DependencyGraph} (a : CellAddress)
    (h : GraphWF g) : GraphWF (g.clearDirty a) := by
  unfold DependencyGraph.clearDirty
  dsimp only
  have hsub : GraphWF { g with dirtySet := setRemove g.dirtySet a } := by
    obtain ⟨h1, h2, h3, h4, h5⟩ := h
    exact ⟨h1, fun x hx => h2 x (setRemove_subset hx), h3, h4, h5⟩
  cases hl : lookupA g.nodes a with
  | none => exact hsub
  | some n => exact GraphWF_updNode (by intro n; exact ⟨rfl, rfl⟩) hsub

lemma lookupA_isSome_of_mem_keyList {g : DependencyGraph} {a : CellAddress}
    (ha : a ∈ keyList g) : ∃ n, lookupA g.nodes a = some n := by
  obtain ⟨x, hx, hxa⟩ := List.mem_map.mp ha
  unfold lookupA
  cases hf : g.nodes.find? (fun e => decide (e.1 = a)) with
  | none =>
    exfalso
    have := List.find?_eq_none.mp hf x hx
    simp [hxa] at this
  | some e => exact ⟨e.2, by simp [lookupA, hf]⟩

lemma markDirty_keyList {g : DependencyGraph} {a : CellAddress}
    (ha : a ∈ keyList g) : keyList (g.markDirty a) = keyList g := by
  unfold DependencyGraph.markDirty
  dsimp only
  obtain ⟨n, hn⟩ := lookupA_isSome_of_mem_keyList (g := g) ha
  rw [show lookupA g.nodes a = some n from hn]
  rw [updNode_keyList]
  rfl

lemma markDirty_dirty (g : DependencyGraph) (a : CellAddress) :
    (g.markDirty a).dirtySet = setAdd g.dirtySet a := by
  unfold DependencyGraph.markDirty
  dsimp only
  cases hl : lookupA g.nodes a with
  | none => rfl
  | some n => rw [updNode_dirty]

lemma GraphWF_markDirty {g : DependencyGraph} {a : CellAddress}
    (ha : a ∈ keyList g) (h : GraphWF g) : GraphWF (g.markDirty a) := by
  unfold DependencyGraph.markDirty
  dsimp only
  have hadd : GraphWF { g with dirtySet := setAdd g.dirtySet a } := by
    obtain ⟨h1, h2, h3, h4, h5⟩ := h
    refine ⟨h1, ?_, h3, h4, h5⟩
    intro x hx
    rcases setAdd_mem hx with hx | rfl
    · exact h2 x hx
    · exact ha
  obtain ⟨n, hn⟩ := lookupA_isSome_of_mem_keyList (g := g) ha
  rw [show lookupA g.nodes a = some n from hn]
  exact GraphWF_updNode (by intro n; exact ⟨rfl, rfl⟩) hadd

/-- Engine-state well-formedness: the graph invariant. -/
def StateWF (s : Spreadsheet) : Prop := GraphWF s.storage.graph

/-- The node keys of the engine state's graph. -/
def keysOf (s : Spreadsheet) : List CellAddress := keyList s.storage.graph

/-- What every piece of `calculateCell` preserves: the stack's item and
processing lists, the completed set (monotonically), the node keys, and
graph well-formedness. -/
def BodyPost (s s' : Spreadsheet) : Prop :=
  s'.calculationStack.items = s.calculationStack.items ∧
  s'.calculationStack.processing = s.calculationStack.processing ∧
  (∀ a ∈ s.calculationStack.completed, a ∈ s'.calculationStack.completed) ∧
  keysOf s' = keysOf s ∧
  (GraphWF s.storage.graph → GraphWF s'.storage.graph)

lemma BodyPost_refl (s : Spreadsheet) : BodyPost s s :=
  ⟨rfl, rfl, fun _ h => h, rfl, fun h => h⟩

lemma BodyPost_trans {s t u : Spreadsheet} (h1 : BodyPost s t) (h2 : BodyPost t u) :
    BodyPost s u :=
  ⟨h2.1.trans h1.1, h2.2.1.trans h1.2.1,
   fun a ha => h2.2.2.1 a (h1.2.2.1 a ha),
   h2.2.2.2.1.trans h1.2.2.2.1,
   fun h => h2.2.2.2.2 (h1.2.2.2.2 h)⟩

lemma BodyPost_withGraph_clearDirty (s : Spreadsheet) (a : CellAddress) :
    BodyPost s (s.withGraph (fun g => g.clearDirty a)) := by
  refine ⟨rfl, rfl, fun _ h => h, ?_, ?_⟩
  · unfold keysOf Spreadsheet.withGraph
    dsimp only
    exact clearDirty_keyList _ _
  · intro h
    exact GraphWF_clearDirty a h

lemma BodyPost_withGraph_markDirty {s : Spreadsheet} {a : CellAddress}
    (ha : a ∈ keysOf s) :
    BodyPost s (s.withGraph (fun g => g.markDirty a)) := by
  refine ⟨rfl, rfl, fun _ h => h, ?_, ?_⟩
  · unfold keysOf Spreadsheet.withGraph
    dsimp only
    exact markDirty_keyList ha
  · intro h
    exact GraphWF_markDirty ha h

lemma setFormulaResult_graph (st : Storage) (wsID row col : Nat) (v : Value) :
    (st.setFormulaResult wsID row col v).graph = st.graph := by
  unfold Storage.setFormulaResult
  dsimp only
  repeat' split
  all_goals rfl

lemma BodyPost_storeFormulaResult (s : Spreadsheet) (a : CellAddress) (v : Value) :
    BodyPost s (s.storeFormulaResult a v) := by
  refine ⟨rfl, rfl, fun _ h => h, ?_, ?_⟩
  · unfold keysOf keyList Spreadsheet.storeFormulaResult
    dsimp only
    rw [setFormulaResult_graph]
  · intro h
    unfold Spreadsheet.storeFormulaResult
    dsimp only
    rw [setFormulaResult_graph]
    exact h

lemma BodyPost_currentAddress (s : Spreadsheet) (c : CellAddress) :
    BodyPost s { s with currentAddress := c } :=
  ⟨rfl, rfl, fun _ h => h, rfl, fun h => h⟩

lemma BodyPost_foldl_markDirty (deps : List CellAddress) (s : Spreadsheet)
    (h : ∀ a ∈ deps, a ∈ keysOf s) :
    BodyPost s (deps.foldl (fun s dep => s.withGraph (fun g => g.markDirty dep)) s) := by
  induction deps generalizing s with
  | nil => exact BodyPost_refl s
  | cons d rest ih =>
    simp only [List.foldl_cons]
    have h1 := BodyPost_withGraph_markDirty (h d (by simp))
    refine BodyPost_trans h1 (ih _ ?_)
    intro a ha
    rw [h1.2.2.2.1]
    exact h a (by simp [ha])

lemma dirty_subset_keys {s : Spreadsheet} (hwf : StateWF s) :
    ∀ a ∈ s.storage.graph.dirtySet, a ∈ keysOf s := hwf.2.1

lemma precedents_subset_keys {s : Spreadsheet} (hwf : StateWF s) (c : CellAddress) :
    ∀ p ∈ s.storage.graph.getDirectPrecedents c, p ∈ keysOf s := by
  intro p hp
  unfold DependencyGraph.getDirectPrecedents at hp
  cases hl : lookupA s.storage.graph.nodes c with
  | none => rw [hl] at hp; simp at hp
  | some node =>
    rw [hl] at hp
    exact (hwf.2.2.1 (c, node) (lookupA_mem hl)).1 p hp

lemma dependents_subset_keys {s : Spreadsheet} (hwf : StateWF s) (c : CellAddress) :
    ∀ d ∈ s.storage.graph.getDirectDependents c, d ∈ keysOf s := by
  intro p hp
  unfold DependencyGraph.getDirectDependents at hp
  cases hl : lookupA s.storage.graph.nodes c with
  | none => rw [hl] at hp; simp at hp
  | some node =>
    rw [hl] at hp
    exact (hwf.2.2.1 (c, node) (lookupA_mem hl)).2 p hp

/-- What a full (push-bracketed) `calculateCell` call additionally
guarantees: if it completed nothing new, it changed nothing at all. -/
def CalcPost (s s' : Spreadsheet) : Prop :=
  BodyPost s s' ∧
  (s'.calculationStack.completed = s.calculationStack.completed → s' = s)

/-- The number of tracked cells not currently on the processing stack: the
quantity the recursion fuel has to dominate. -/
def freeCount (s : Spreadsheet) : Nat :=
  ((keysOf s).filter (fun a => a ∉ s.calculationStack.processing)).length

lemma freeCount_eq_of_bodyPost {s s' : Spreadsheet} (h : BodyPost s s') :
    freeCount s' = freeCount s := by
  unfold freeCount
  rw [h.2.2.2.1, h.2.1]

lemma lookupA_eq_none_of_not_mem_keyList {g : DependencyGraph} {a : CellAddress}
    (ha : a ∉ keyList g) : lookupA g.nodes a = none := by
  unfold lookupA
  cases hf : g.nodes.find? (fun e => decide (e.1 = a)) with
  | none => rfl
  | some e =>
    exfalso
    apply ha
    have h1 : e.1 = a := by simpa using List.find?_some hf
    have h2 := List.mem_of_find?_eq_some hf
    exact h1 ▸ List.mem_map_of_mem Prod.fst h2

lemma setRemove_setAdd {α : Type} [DecidableEq α] {l : List α} {a : α}
    (h : a ∉ l) : setRemove (setAdd l a) a = l := by
  unfold setAdd setRemove
  rw [if_neg h]
  rw [List.filter_append]
  have h1 : l.filter (fun x => decide ¬x = a) = l := by
    apply List.filter_eq_self.mpr
    intro x hx
    simp only [decide_eq_true_eq]
    intro hxa
    exact h (hxa ▸ hx)
  have h2 : [a].filter (fun x => decide ¬x = a) = [] := by simp
  rw [h1, h2, List.append_nil]

lemma filter_push_count {keys P : List CellAddress} {c : CellAddress}
    (hnd : keys.Nodup) (hc : c ∈ keys) (hcp : c ∉ P) :
    (keys.filter (fun a => a ∉ P ++ [c])).length + 1
      = (keys.filter (fun a => a ∉ P)).length := by
  induction keys with
  | nil => simp at hc
  | cons k rest ih =>
    by_cases hkc : k = c
    · have hcr : c ∉ rest := by
        rw [← hkc]
        exact (List.nodup_cons.mp hnd).1
      have hfk : rest.filter (fun a => decide (a ∉ P ++ [c]))
          = rest.filter (fun a => decide (a ∉ P)) := by
        apply List.filter_congr
        intro x hx
        have hxc : x ≠ c := fun hxe => hcr (hxe ▸ hx)
        simp [hxc]
      simp only [List.filter_cons]
      rw [if_neg (by simp [hkc]), if_pos (by simp [hkc, hcp])]
      rw [hfk]
      simp
    · have hcr : c ∈ rest := by
        rcases List.mem_cons.mp hc with h | h
        · exact absurd h.symm hkc
        · exact h
      have ihr := ih (List.nodup_cons.mp hnd).2 hcr
      simp only [List.filter_cons]
      by_cases hkP : k ∈ P
      · rw [if_neg (by simp [hkP]), if_neg (by simp [hkP])]
        exact ihr
      · rw [if_pos (by simp [hkP, hkc]), if_pos (by simpa using hkP)]
        simp only [List.length_cons]
        omega

lemma precLoop_post (rec : Spreadsheet → CellAddress →
      Option (Spreadsheet × Option SpreadsheetError))
    (hrec : ∀ s c s' r, StateWF s → rec s c = some (s', r) → CalcPost s s') :
    ∀ (l : List CellAddress) (cellAddr : CellAddress) (s s' : Spreadsheet)
      (r : Option SpreadsheetError),
      StateWF s → precLoop rec cellAddr s l = some (s', r) → BodyPost s s' := by
  intro l
  induction l with
  | nil =>
    intro cellAddr s s' r hwf h
    unfold precLoop at h
    simp only [Option.some_inj, Prod.mk.injEq] at h
    obtain ⟨rfl, -⟩ := h
    exact BodyPost_refl s
  | cons p rest ih =>
    intro cellAddr s s' r hwf h
    unfold precLoop at h
    cases hr : rec s p with
    | none => rw [hr] at h; exact absurd h (by simp)
    | some pr =>
      rw [hr] at h
      obtain ⟨s₁, r₁⟩ := pr
      have hpost := (hrec s p s₁ r₁ hwf hr).1
      have hwf1 := hpost.2.2.2.2 hwf
      cases r₁ with
      | none =>
        dsimp only at h
        exact BodyPost_trans hpost (ih cellAddr s₁ s' r hwf1 h)
      | some e =>
        dsimp only at h
        by_cases he : e.ErrorCode = ErrorCode.ref
        · rw [if_pos he] at h
          simp only [Option.some_inj, Prod.mk.injEq] at h
          obtain ⟨rfl, -⟩ := h
          exact BodyPost_trans hpost
            (BodyPost_trans (BodyPost_storeFormulaResult s₁ cellAddr (.prim (.err e)))
              (BodyPost_withGraph_clearDirty _ cellAddr))
        · rw [if_neg he] at h
          exact BodyPost_trans hpost (ih cellAddr s₁ s' r hwf1 h)

lemma rangeLoop_post (rec : Spreadsheet → CellAddress →
      Option (Spreadsheet × Option SpreadsheetError))
    (hrec : ∀ s c s' r, StateWF s → rec s c = some (s', r) → CalcPost s s') :
    ∀ (l : List CellAddress) (s s' : Spreadsheet),
      StateWF s → rangeLoop rec s l = some s' → BodyPost s s' := by
  intro l
  induction l with
  | nil =>
    intro s s' hwf h
    unfold rangeLoop at h
    simp only [Option.some_inj] at h
    rw [← h]
    exact BodyPost_refl s
  | cons rc rest ih =>
    intro s s' hwf h
    unfold rangeLoop at h
    by_cases hd : rc ∈ s.storage.graph.dirtySet
    · rw [if_pos hd] at h
      cases hr : rec s rc with
      | none => rw [hr] at h; exact absurd h (by simp)
      | some pr =>
        rw [hr] at h
        obtain ⟨s₁, r₁⟩ := pr
        have hpost := (hrec s rc s₁ r₁ hwf hr).1
        have hwf1 := hpost.2.2.2.2 hwf
        dsimp only at h
        exact BodyPost_trans hpost (ih s₁ s' hwf1 h)
    · rw [if_neg hd] at h
      exact ih s s' hwf h

lemma calcBodyF_post (rec : Spreadsheet → CellAddress →
      Option (Spreadsheet × Option SpreadsheetError))
    (hrec : ∀ s c s' r, StateWF s → rec s c = some (s', r) → CalcPost s s') :
    ∀ (s : Spreadsheet) (c : CellAddress) (s' : Spreadsheet) (r : Option SpreadsheetError),
      StateWF s → calcBodyF rec s c = some (s', r) → BodyPost s s' := by
  intro s c s' r hwf h
  unfold calcBodyF at h
  cases hw : lookupA s.storage.worksheets c.WorksheetID with
  | none =>
    rw [hw] at h
    simp only [Option.some_inj, Prod.mk.injEq] at h
    obtain ⟨rfl, -⟩ := h
    exact BodyPost_refl s
  | some w =>
    rw [hw] at h
    dsimp only at h
    cases hcell : w.getCell s.storage.strings c.Row c.Column with
    | none =>
      rw [hcell] at h
      simp only [Option.some_inj, Prod.mk.injEq] at h
      obtain ⟨rfl, -⟩ := h
      exact BodyPost_withGraph_clearDirty s c
    | some cell =>
      rw [hcell] at h
      dsimp only at h
      by_cases hfid : cell.formulaID = 0
      · rw [if_pos hfid] at h
        simp only [Option.some_inj, Prod.mk.injEq] at h
        obtain ⟨rfl, -⟩ := h
        exact BodyPost_withGraph_clearDirty s c
      · rw [if_neg hfid] at h
        cases hast : s.storage.formulas.getAST cell.formulaID with
        | none =>
          rw [hast] at h
          simp only [Option.some_inj, Prod.mk.injEq] at h
          obtain ⟨rfl, -⟩ := h
          exact BodyPost_refl s
        | some ast =>
          rw [hast] at h
          dsimp only at h
          by_cases hrange : (s.storage.graph.getRangePrecedents c).any
              (fun ra => DependencyGraph.isInRange c ra) = true
          · rw [if_pos hrange] at h
            simp only [Option.some_inj, Prod.mk.injEq] at h
            obtain ⟨rfl, -⟩ := h
            exact BodyPost_trans
              (BodyPost_storeFormulaResult s c (.prim (.err circularRefError)))
              (BodyPost_withGraph_clearDirty _ c)
          · rw [if_neg hrange] at h
            cases hpl : precLoop rec c s (s.storage.graph.getDirectPrecedents c) with
            | none => rw [hpl] at h; exact absurd h (by simp)
            | some pres =>
              rw [hpl] at h
              obtain ⟨s₂, r₂⟩ := pres
              have hpost2 := precLoop_post rec hrec _ c s s₂ r₂ hwf hpl
              have hwf2 := hpost2.2.2.2.2 hwf
              cases r₂ with
              | some e =>
                dsimp only at h
                simp only [Option.some_inj, Prod.mk.injEq] at h
                obtain ⟨rfl, -⟩ := h
                exact hpost2
              | none =>
                dsimp only at h
                cases hrl : rangeLoop rec s₂
                    ((s₂.storage.graph.getRangePrecedents c).flatMap rangeCellAddresses) with
                | none => rw [hrl] at h; exact absurd h (by simp)
                | some s₃ =>
                  rw [hrl] at h
                  dsimp only at h
                  have hpost3 := rangeLoop_post rec hrec _ s₂ s₃ hwf2 hrl
                  have hwf3 := hpost3.2.2.2.2 hwf2
                  have hpostCur := BodyPost_currentAddress s₃ c
                  have hchain := BodyPost_trans hpost2 (BodyPost_trans hpost3 hpostCur)
                  have hwf4 : StateWF { s₃ with currentAddress := c } := hwf3
                  cases heval : evalAST { s₃ with currentAddress := c } ast with
                  | error e =>
                    rw [heval] at h
                    simp only [Option.some_inj, Prod.mk.injEq] at h
                    obtain ⟨rfl, -⟩ := h
                    exact BodyPost_trans hchain
                      (BodyPost_storeFormulaResult _ c (.prim (.err e)))
                  | ok result =>
                    rw [heval] at h
                    dsimp only at h
                    have hsucc : ∀ res : Value,
                        (let s₅ := (({ s₃ with currentAddress := c }).storeFormulaResult c
                            res).withGraph (fun g => g.clearDirty c)
                         some ((s₅.storage.graph.getDirectDependents c).foldl
                            (fun s dep => s.withGraph (fun g => g.markDirty dep)) s₅,
                          (none : Option SpreadsheetError)) = some (s', r)) →
                        BodyPost s s' := by
                      intro res hh
                      dsimp only at hh
                      simp only [Option.some_inj, Prod.mk.injEq] at hh
                      obtain ⟨rfl, -⟩ := hh
                      have hb5 := BodyPost_storeFormulaResult
                        { s₃ with currentAddress := c } c res
                      have hwf5 := hb5.2.2.2.2 hwf4
                      have hb6 := BodyPost_withGraph_clearDirty
                        (({ s₃ with currentAddress := c }).storeFormulaResult c res) c
                      have hwf6 := hb6.2.2.2.2 hwf5
                      have hb7 := BodyPost_foldl_markDirty
                        (((({ s₃ with currentAddress := c }).storeFormulaResult c
                            res).withGraph (fun g =>
                          g.clearDirty c)).storage.graph.getDirectDependents c) _
                        (dependents_subset_keys hwf6 c)
                      exact BodyPost_trans hchain
                        (BodyPost_trans hb5 (BodyPost_trans hb6 hb7))
                    cases result with
                    | range vs => exact hsucc _ h
                    | prim p =>
                      cases p with
                      | err e =>
                        simp only [Option.some_inj, Prod.mk.injEq] at h
                        obtain ⟨rfl, -⟩ := h
                        exact BodyPost_trans hchain
                          (BodyPost_storeFormulaResult _ c (.prim (.err e)))
                      | empty => exact hsucc _ h
                      | num q => exact hsucc _ h
                      | str t => exact hsucc _ h
                      | bool b => exact hsucc _ h

lemma precLoop_suff (rec : Spreadsheet → CellAddress →
      Option (Spreadsheet × Option SpreadsheetError)) (F : Nat)
    (hrecPost : ∀ s c s' r, StateWF s → rec s c = some (s', r) → CalcPost s s')
    (hrecSuff : ∀ s c, StateWF s → freeCount s + 1 ≤ F → rec s c ≠ none) :
    ∀ (l : List CellAddress) (cellAddr : CellAddress) (s : Spreadsheet),
      StateWF s → freeCount s + 1 ≤ F → precLoop rec cellAddr s l ≠ none := by
  intro l
  induction l with
  | nil =>
    intro cellAddr s hwf hF
    unfold precLoop
    simp
  | cons p rest ih =>
    intro cellAddr s hwf hF
    unfold precLoop
    cases hr : rec s p with
    | none => exact absurd hr (hrecSuff s p hwf hF)
    | some pr =>
      obtain ⟨s₁, r₁⟩ := pr
      have hpost := (hrecPost s p s₁ r₁ hwf hr).1
      have hwf1 := hpost.2.2.2.2 hwf
      have hF1 : freeCount s₁ + 1 ≤ F := by
        rw [freeCount_eq_of_bodyPost hpost]
        exact hF
      cases r₁ with
      | none =>
        dsimp only
        exact ih cellAddr s₁ hwf1 hF1
      | some e =>
        dsimp only
        by_cases he : e.ErrorCode = ErrorCode.ref
        · rw [if_pos he]
          simp
        · rw [if_neg he]
          exact ih cellAddr s₁ hwf1 hF1

lemma rangeLoop_suff (rec : Spreadsheet → CellAddress →
      Option (Spreadsheet × Option SpreadsheetError)) (F : Nat)
    (hrecPost : ∀ s c s' r, StateWF s → rec s c = some (s', r) → CalcPost s s')
    (hrecSuff : ∀ s c, StateWF s → freeCount s + 1 ≤ F → rec s c ≠ none) :
    ∀ (l : List CellAddress) (s : Spreadsheet),
      StateWF s → freeCount s + 1 ≤ F → rangeLoop rec s l ≠ none := by
  intro l
  induction l with
  | nil =>
    intro s hwf hF
    unfold rangeLoop
    simp
  | cons rc rest ih =>
    intro s hwf hF
    unfold rangeLoop
    by_cases hd : rc ∈ s.storage.graph.dirtySet
    · rw [if_pos hd]
      cases hr : rec s rc with
      | none => exact absurd hr (hrecSuff s rc hwf hF)
      | some pr =>
        obtain ⟨s₁, r₁⟩ := pr
        have hpost := (hrecPost s rc s₁ r₁ hwf hr).1
        have hwf1 := hpost.2.2.2.2 hwf
        have hF1 : freeCount s₁ + 1 ≤ F := by
          rw [freeCount_eq_of_bodyPost hpost]
          exact hF
        dsimp only
        exact ih s₁ hwf1 hF1
    · rw [if_neg hd]
      exact ih s hwf hF

lemma calcBodyF_suff (rec : Spreadsheet → CellAddress →
      Option (Spreadsheet × Option SpreadsheetError)) (F : Nat)
    (hrecPost : ∀ s c s' r, StateWF s → rec s c = some (s', r) → CalcPost s s')
    (hrecSuff : ∀ s c, StateWF s → freeCount s + 1 ≤ F → rec s c ≠ none) :
    ∀ (s : Spreadsheet) (c : CellAddress),
      StateWF s → freeCount s + 1 ≤ F → calcBodyF rec s c ≠ none := by
  intro s c hwf hF
  unfold calcBodyF
  cases hw : lookupA s.storage.worksheets c.WorksheetID with
  | none => simp
  | some w =>
    dsimp only
    cases hcell : w.getCell s.storage.strings c.Row c.Column with
    | none => simp
    | some cell =>
      dsimp only
      by_cases hfid : cell.formulaID = 0
      · rw [if_pos hfid]
        simp
      · rw [if_neg hfid]
        cases hast : s.storage.formulas.getAST cell.formulaID with
        | none => simp
        | some ast =>
          dsimp only
          by_cases hrange : (s.storage.graph.getRangePrecedents c).any
              (fun ra => DependencyGraph.isInRange c ra) = true
          · rw [if_pos hrange]
            simp
          · rw [if_neg hrange]
            cases hpl : precLoop rec c s (s.storage.graph.getDirectPrecedents c) with
            | none =>
              exact absurd hpl (precLoop_suff rec F hrecPost hrecSuff _ c s hwf hF)
            | some pres =>
              obtain ⟨s₂, r₂⟩ := pres
              have hpost2 := precLoop_post rec hrecPost _ c s s₂ r₂ hwf hpl
              have hwf2 := hpost2.2.2.2.2 hwf
              have hF2 : freeCount s₂ + 1 ≤ F := by
                rw [freeCount_eq_of_bodyPost hpost2]
                exact hF
              cases r₂ with
              | some e => simp
              | none =>
                dsimp only
                cases hrl : rangeLoop rec s₂
                    ((s₂.storage.graph.getRangePrecedents c).flatMap
                      rangeCellAddresses) with
                | none =>
                  exact absurd hrl (rangeLoop_suff rec F hrecPost hrecSuff _ s₂ hwf2 hF2)
                | some s₃ =>
                  dsimp only
                  cases heval : evalAST { s₃ with currentAddress := c } ast with
                  | error e => simp
                  | ok result =>
                    cases result with
                    | range vs => simp
                    | prim p => cases p <;> simp

lemma calcBodyF_no_node (rec : Spreadsheet → CellAddress →
      Option (Spreadsheet × Option SpreadsheetError))
    (s : Spreadsheet) (c : CellAddress)
    (hc : c ∉ keyList s.storage.graph) : calcBodyF rec s c ≠ none := by
  have hpre : s.storage.graph.getDirectPrecedents c = [] := by
    unfold DependencyGraph.getDirectPrecedents
    rw [lookupA_eq_none_of_not_mem_keyList hc]
  have hrge : s.storage.graph.getRangePrecedents c = [] := by
    unfold DependencyGraph.getRangePrecedents
    rw [lookupA_eq_none_of_not_mem_keyList hc]
  unfold calcBodyF
  cases hw : lookupA s.storage.worksheets c.WorksheetID with
  | none => simp
  | some w =>
    dsimp only
    cases hcell : w.getCell s.storage.strings c.Row c.Column with
    | none => simp
    | some cell =>
      dsimp only
      by_cases hfid : cell.formulaID = 0
      · rw [if_pos hfid]
        simp
      · rw [if_neg hfid]
        cases hast : s.storage.formulas.getAST cell.formulaID with
        | none => simp
        | some ast =>
          dsimp only
          rw [hrge, hpre]
          simp only [List.any_nil, Bool.false_eq_true, if_false]
          have hploop : precLoop rec c s [] = some (s, none) := rfl
          rw [hploop]
          dsimp only
          rw [hrge]
          have hrloop : rangeLoop rec s ([].flatMap rangeCellAddresses) = some s := rfl
          rw [hrloop]
          dsimp only
          cases heval : evalAST { s with currentAddress := c } ast with
          | error e => simp
          | ok result =>
            cases result with
            | range vs => simp
            | prim p => cases p <;> simp

lemma push_items (cs : CalculationStack) (c : CellAddress) :
    (cs.push c).items = cs.items ++ [c] := rfl

lemma push_processing (cs : CalculationStack) (c : CellAddress) :
    (cs.push c).processing = setAdd cs.processing c := rfl


lemma pop_completed (cs : CalculationStack) :
    (cs.pop).completed = cs.completed := by
  unfold CalculationStack.pop
  cases h : cs.items.getLast? with
  | none => rfl
  | some a => rfl

/-- The combined fuel induction: whenever `calculateCell` returns, it
restored the stack shape, grew the completed set, kept the node keys and
graph invariant (and changed nothing at all if it completed nothing); and
with fuel exceeding the number of free tracked cells it never runs out. -/
lemma calc_main : ∀ fuel : Nat,
    (∀ s c s' r, StateWF s → calcCellF fuel s c = some (s', r) → CalcPost s s') ∧
    (∀ s c, StateWF s → freeCount s + 1 ≤ fuel → calcCellF fuel s c ≠ none) := by
  intro fuel
  induction fuel with
  | zero =>
    constructor
    · intro s c s' r hwf h
      exact absurd h (by simp [calcCellF])
    · intro s c hwf hb
      omega
  | succ fuel ih =>
    obtain ⟨ihPost, ihSuff⟩ := ih
    constructor
    · intro s c s' r hwf h
      unfold calcCellF at h
      by_cases hcomp : s.calculationStack.isCompleted c = true
      · rw [if_pos hcomp] at h
        simp only [Option.some_inj, Prod.mk.injEq] at h
        obtain ⟨rfl, -⟩ := h
        exact ⟨BodyPost_refl s, fun _ => rfl⟩
      · rw [if_neg hcomp] at h
        by_cases hproc : s.calculationStack.isProcessing c = true
        · rw [if_pos hproc] at h
          simp only [Option.some_inj, Prod.mk.injEq] at h
          obtain ⟨rfl, -⟩ := h
          exact ⟨BodyPost_refl s, fun _ => rfl⟩
        · rw [if_neg hproc] at h
          dsimp only at h
          cases hb : calcBodyF (calcCellF fuel)
              { s with calculationStack := s.calculationStack.push c } c with
          | none => rw [hb] at h; exact absurd h (by simp)
          | some pr =>
            rw [hb] at h
            obtain ⟨s₂, res⟩ := pr
            dsimp only at h
            simp only [Option.some_inj, Prod.mk.injEq] at h
            obtain ⟨rfl, -⟩ := h
            have hwf1 : StateWF { s with calculationStack := s.calculationStack.push c } :=
              hwf
            have hbp := calcBodyF_post (calcCellF fuel) ihPost _ c s₂ res hwf1 hb
            have hitems : s₂.calculationStack.items
                = s.calculationStack.items ++ [c] := by
              rw [hbp.1]
              rfl
            have hprocs : s₂.calculationStack.processing
                = setAdd s.calculationStack.processing c := by
              rw [hbp.2.1]
              rfl
            have hcnotp : c ∉ s.calculationStack.processing := by
              intro hmem
              apply hproc
              unfold CalculationStack.isProcessing
              simpa using hmem
            have hlast : (s.calculationStack.items ++ [c]).getLast? = some c := by
              simp
            have hpopproc : (s₂.calculationStack.pop).processing
                = s.calculationStack.processing := by
              unfold CalculationStack.pop
              rw [hitems, hlast]
              dsimp only
              rw [hprocs]
              exact setRemove_setAdd hcnotp
            have hpopitems : (s₂.calculationStack.pop).items
                = s.calculationStack.items := by
              unfold CalculationStack.pop
              rw [hitems, hlast]
              dsimp only
              simp
            constructor
            · refine ⟨?_, ?_, ?_, ?_, ?_⟩
              · exact hpopitems
              · exact hpopproc
              · intro a ha
                have := hbp.2.2.1 a ha
                rw [← pop_completed s₂.calculationStack] at this
                exact mem_setAdd_of_mem c this
              · exact hbp.2.2.2.1
              · exact hbp.2.2.2.2
            · intro hceq
              exfalso
              apply hcomp
              have hcin : c ∈ ((s₂.calculationStack.pop).markCompleted c).completed :=
                mem_setAdd_self _ c
              rw [show ((s₂.calculationStack.pop).markCompleted c).completed
                  = s.calculationStack.completed from hceq] at hcin
              unfold CalculationStack.isCompleted
              simpa using hcin
    · intro s c hwf hfuel
      unfold calcCellF
      by_cases hcomp : s.calculationStack.isCompleted c = true
      · rw [if_pos hcomp]
        simp
      · rw [if_neg hcomp]
        by_cases hproc : s.calculationStack.isProcessing c = true
        · rw [if_pos hproc]
          simp
        · rw [if_neg hproc]
          dsimp only
          have hwf1 : StateWF { s with calculationStack := s.calculationStack.push c } :=
            hwf
          cases hb : calcBodyF (calcCellF fuel)
              { s with calculationStack := s.calculationStack.push c } c with
          | none =>
            exfalso
            by_cases hck : c ∈ keysOf s
            · have hcnotp : c ∉ s.calculationStack.processing := by
                intro hmem
                apply hproc
                unfold CalculationStack.isProcessing
                simpa using hmem
              have hcnt : freeCount { s with
                    calculationStack := s.calculationStack.push c } + 1
                  = freeCount s := by
                unfold freeCount
                have : ({ s with calculationStack :=
                    s.calculationStack.push c }).calculationStack.processing
                    = s.calculationStack.processing ++ [c] := by
                  rw [push_processing]
                  unfold setAdd
                  rw [if_neg hcnotp]
                rw [this]
                exact filter_push_count hwf.1 hck hcnotp
              have hF1 : freeCount { s with
                  calculationStack := s.calculationStack.push c } + 1 ≤ fuel := by
                omega
              exact absurd hb
                (calcBodyF_suff (calcCellF fuel) fuel ihPost ihSuff _ c hwf1 hF1)
            · exact absurd hb (calcBodyF_no_node (calcCellF fuel) _ c hck)
          | some pr =>
            obtain ⟨s₂, res⟩ := pr
            simp

lemma filter_length_mono {α : Type} {l : List α} {p q : α → Bool}
    (h : ∀ a ∈ l, p a = true → q a = true) :
    (l.filter p).length ≤ (l.filter q).length := by
  induction l with
  | nil => simp
  | cons x rest ih =>
    have ihr := ih (fun a ha => h a (List.mem_cons_of_mem _ ha))
    simp only [List.filter_cons]
    by_cases hp : p x = true
    · rw [if_pos hp, if_pos (h x (by simp) hp)]
      simpa using ihr
    · rw [if_neg hp]
      by_cases hq : q x = true
      · rw [if_pos hq]
        exact le_trans ihr (by simp)
      · rw [if_neg hq]
        exact ihr

lemma filter_length_strict {α : Type} {l : List α} {p q : α → Bool}
    (h : ∀ a ∈ l, p a = true → q a = true)
    (x : α) (hx : x ∈ l) (hq : q x = true) (hp : p x = false) :
    (l.filter p).length < (l.filter q).length := by
  induction l with
  | nil => simp at hx
  | cons y rest ih =>
    have hmono := filter_length_mono (fun a ha => h a (List.mem_cons_of_mem _ ha))
    simp only [List.filter_cons]
    rcases List.mem_cons.mp hx with rfl | hxr
    · rw [if_neg (by simp [hp]), if_pos hq]
      simp only [List.length_cons]
      omega
    · have ihr := ih (fun a ha => h a (List.mem_cons_of_mem _ ha)) hxr
      by_cases hpy : p y = true
      · rw [if_pos hpy, if_pos (h y (by simp) hpy)]
        simpa using ihr
      · rw [if_neg hpy]
        by_cases hqy : q y = true
        · rw [if_pos hqy]
          calc (rest.filter p).length < (rest.filter q).length := ihr
            _ ≤ (y :: rest.filter q).length := by simp
        · rw [if_neg hqy]
          exact ihr

lemma mem_setRemove {α : Type} [DecidableEq α] {l : List α} {a x : α}
    (h : x ∈ setRemove l a) : x ∈ l ∧ x ≠ a := by
  unfold setRemove at h
  have h1 := List.mem_of_mem_filter h
  have h2 := List.of_mem_filter h
  simp only [decide_eq_true_eq] at h2
  exact ⟨h1, h2⟩

lemma clearDirty_dirty_eq (g : DependencyGraph) (a : CellAddress) :
    (g.clearDirty a).dirtySet = setRemove g.dirtySet a := by
  unfold DependencyGraph.clearDirty
  dsimp only
  cases hl : lookupA g.nodes a with
  | none => rfl
  | some n => rw [updNode_dirty]

lemma calcCellF_completes {fuel : Nat} {s : Spreadsheet} {c : CellAddress}
    {s' : Spreadsheet} {r : Option SpreadsheetError}
    (hcomp : ¬ s.calculationStack.isCompleted c = true)
    (hproc : ¬ s.calculationStack.isProcessing c = true)
    (h : calcCellF fuel s c = some (s', r)) :
    c ∈ s'.calculationStack.completed := by
  cases fuel with
  | zero => exact absurd h (by simp [calcCellF])
  | succ fuel =>
    unfold calcCellF at h
    rw [if_neg hcomp, if_neg hproc] at h
    dsimp only at h
    cases hb : calcBodyF (calcCellF fuel)
        { s with calculationStack := s.calculationStack.push c } c with
    | none => rw [hb] at h; exact absurd h (by simp)
    | some pr =>
      rw [hb] at h
      obtain ⟨s₂, res⟩ := pr
      dsimp only at h
      simp only [Option.some_inj, Prod.mk.injEq] at h
      obtain ⟨rfl, -⟩ := h
      exact mem_setAdd_self _ c

/-- Pending work: tracked cells not yet marked completed in this
`Calculate` run. -/
def pendingCount (s : Spreadsheet) : Nat :=
  ((keysOf s).filter (fun a => a ∉ s.calculationStack.completed)).length

lemma calcFuel_ge (s : Spreadsheet) : freeCount s + 1 ≤ s.calcFuel := by
  unfold freeCount Spreadsheet.calcFuel
  have h1 : ((keysOf s).filter
      (fun a => a ∉ s.calculationStack.processing)).length ≤ (keysOf s).length :=
    List.length_filter_le _ _
  have h2 : (keysOf s).length = s.storage.graph.nodes.length := by
    unfold keysOf keyList
    exact List.length_map _ _
  omega

lemma pendingCount_le (s : Spreadsheet) : pendingCount s ≤ s.storage.graph.nodes.length := by
  unfold pendingCount
  have h1 := List.length_filter_le (fun a => decide (a ∉ s.calculationStack.completed)) (keysOf s)
  have h2 : (keysOf s).length = s.storage.graph.nodes.length := by
    unfold keysOf keyList
    exact List.length_map _ _
  omega

lemma processSnapshot_post : ∀ (l : List CellAddress) (s : Spreadsheet),
    StateWF s → BodyPost s (Spreadsheet.processSnapshot l s) := by
  intro l
  induction l with
  | nil =>
    intro s hwf
    exact BodyPost_refl s
  | cons c rest ih =>
    intro s hwf
    unfold Spreadsheet.processSnapshot
    by_cases hd : c ∈ s.storage.graph.dirtySet
    · rw [if_pos hd]
      by_cases hcm : s.calculationStack.isCompleted c = true
      · rw [if_pos hcm]
        have h1 := BodyPost_withGraph_clearDirty s c
        exact BodyPost_trans h1 (ih _ (h1.2.2.2.2 hwf))
      · rw [if_neg hcm]
        cases hr : Spreadsheet.calculateCell s.calcFuel s c with
        | none => exact ih s hwf
        | some pr =>
          obtain ⟨s₁, r₁⟩ := pr
          dsimp only
          have hpost := ((calc_main s.calcFuel).1 s c s₁ r₁ hwf hr).1
          exact BodyPost_trans hpost (ih _ (hpost.2.2.2.2 hwf))
    · rw [if_neg hd]
      exact ih s hwf

lemma processSnapshot_drain : ∀ (l : List CellAddress) (s : Spreadsheet),
    StateWF s → s.calculationStack.processing = [] →
    (∀ a ∈ s.storage.graph.dirtySet, a ∈ l) →
    (Spreadsheet.processSnapshot l s).calculationStack.completed
        = s.calculationStack.completed →
    (Spreadsheet.processSnapshot l s).storage.graph.dirtySet = [] := by
  intro l
  induction l with
  | nil =>
    intro s hwf hproc hcov hceq
    unfold Spreadsheet.processSnapshot
    exact List.eq_nil_iff_forall_not_mem.mpr (fun a ha => by simpa using hcov a ha)
  | cons c rest ih =>
    intro s hwf hproc hcov hceq
    unfold Spreadsheet.processSnapshot at hceq ⊢
    by_cases hd : c ∈ s.storage.graph.dirtySet
    · rw [if_pos hd] at hceq ⊢
      by_cases hcm : s.calculationStack.isCompleted c = true
      · rw [if_pos hcm] at hceq ⊢
        have h1 := BodyPost_withGraph_clearDirty s c
        apply ih _ (h1.2.2.2.2 hwf)
        · rw [h1.2.1]
          exact hproc
        · intro a ha
          have ha' : a ∈ setRemove s.storage.graph.dirtySet c := by
            have : (s.withGraph (fun g => g.clearDirty c)).storage.graph.dirtySet
                = setRemove s.storage.graph.dirtySet c := clearDirty_dirty_eq _ _
            rw [← this]
            exact ha
          obtain ⟨hmem, hne⟩ := mem_setRemove ha'
          rcases List.mem_cons.mp (hcov a hmem) with rfl | h
          · exact absurd rfl hne
          · exact h
        · exact hceq
      · rw [if_neg hcm] at hceq ⊢
        cases hr : Spreadsheet.calculateCell s.calcFuel s c with
        | none =>
          exact absurd hr ((calc_main s.calcFuel).2 s c hwf (calcFuel_ge s))
        | some pr =>
          obtain ⟨s₁, r₁⟩ := pr
          rw [hr] at hceq
          dsimp only at hceq
          exfalso
          have hnotproc : ¬ s.calculationStack.isProcessing c = true := by
            unfold CalculationStack.isProcessing
            rw [hproc]
            simp
          have hcc : c ∈ s₁.calculationStack.completed :=
            calcCellF_completes hcm hnotproc hr
          have hpost := ((calc_main s.calcFuel).1 s c s₁ r₁ hwf hr).1
          have hmono := (processSnapshot_post rest s₁ (hpost.2.2.2.2 hwf)).2.2.1
          have hfin : c ∈ (Spreadsheet.processSnapshot rest s₁).calculationStack.completed :=
            hmono c hcc
          rw [hceq] at hfin
          apply hcm
          unfold CalculationStack.isCompleted
          simpa using hfin
    · rw [if_neg hd] at hceq ⊢
      apply ih s hwf hproc ?_ hceq
      intro a ha
      rcases List.mem_cons.mp (hcov a ha) with rfl | h
      · exact absurd ha hd
      · exact h

lemma processSnapshot_witness : ∀ (l : List CellAddress) (s : Spreadsheet),
    StateWF s → s.calculationStack.processing = [] →
    ¬ (Spreadsheet.processSnapshot l s).calculationStack.completed
        = s.calculationStack.completed →
    ∃ c, c ∈ keysOf s ∧ c ∉ s.calculationStack.completed ∧
      c ∈ (Spreadsheet.processSnapshot l s).calculationStack.completed := by
  intro l
  induction l with
  | nil =>
    intro s hwf hproc hne
    exact absurd rfl hne
  | cons c rest ih =>
    intro s hwf hproc hne
    unfold Spreadsheet.processSnapshot at hne ⊢
    by_cases hd : c ∈ s.storage.graph.dirtySet
    · rw [if_pos hd] at hne ⊢
      by_cases hcm : s.calculationStack.isCompleted c = true
      · rw [if_pos hcm] at hne ⊢
        have h1 := BodyPost_withGraph_clearDirty s c
        have hres := ih _ (h1.2.2.2.2 hwf) (by rw [h1.2.1]; exact hproc) hne
        obtain ⟨c', hk, hnc, hin⟩ := hres
        exact ⟨c', by rw [← h1.2.2.2.1]; exact hk, hnc, hin⟩
      · rw [if_neg hcm] at hne ⊢
        cases hr : Spreadsheet.calculateCell s.calcFuel s c with
        | none =>
          exact absurd hr ((calc_main s.calcFuel).2 s c hwf (calcFuel_ge s))
        | some pr =>
          obtain ⟨s₁, r₁⟩ := pr
          dsimp only at hne ⊢
          have hnotproc : ¬ s.calculationStack.isProcessing c = true := by
            unfold CalculationStack.isProcessing
            rw [hproc]
            simp
          have hcc : c ∈ s₁.calculationStack.completed :=
            calcCellF_completes hcm hnotproc hr
          have hpost := ((calc_main s.calcFuel).1 s c s₁ r₁ hwf hr).1
          have hmono := (processSnapshot_post rest s₁ (hpost.2.2.2.2 hwf)).2.2.1
          refine ⟨c, dirty_subset_keys hwf c hd, ?_, hmono c hcc⟩
          intro hmem
          apply hcm
          unfold CalculationStack.isCompleted
          simpa using hmem
    · rw [if_neg hd] at hne ⊢
      exact ih s hwf hproc hne

lemma calcLoop_of_empty (n : Nat) (s : Spreadsheet)
    (h : s.storage.graph.dirtySet = []) : calcLoop n s = s := by
  cases n with
  | zero => rfl
  | succ n => unfold calcLoop; rw [if_pos h]

lemma calculateIteration_post (s : Spreadsheet) (hwf : StateWF s) :
    BodyPost s s.calculateIteration :=
  processSnapshot_post _ s hwf

lemma iteration_progress (s : Spreadsheet) (hwf : StateWF s)
    (hproc : s.calculationStack.processing = []) :
    s.calculateIteration.storage.graph.dirtySet = [] ∨
    pendingCount s.calculateIteration < pendingCount s := by
  unfold Spreadsheet.calculateIteration
  have hcov : ∀ a ∈ s.storage.graph.dirtySet,
      a ∈ s.storage.graph.dirtySet.insertionSort (fun a b => addrLe a b) := by
    intro a ha
    exact ((List.perm_insertionSort _ _).mem_iff).mpr ha
  by_cases hceq : (Spreadsheet.processSnapshot
      (s.storage.graph.dirtySet.insertionSort (fun a b => addrLe a b))
      s).calculationStack.completed = s.calculationStack.completed
  · exact Or.inl (processSnapshot_drain _ s hwf hproc hcov hceq)
  · right
    obtain ⟨c, hk, hnc, hin⟩ := processSnapshot_witness _ s hwf hproc hceq
    have hpost := processSnapshot_post
      (s.storage.graph.dirtySet.insertionSort (fun a b => addrLe a b)) s hwf
    unfold pendingCount
    rw [hpost.2.2.2.1]
    refine filter_length_strict ?_ c hk ?_ ?_
    · intro a _ hpa
      simp only [decide_eq_true_eq] at hpa ⊢
      intro hmem
      exact hpa (hpost.2.2.1 a hmem)
    · simp only [decide_eq_true_eq]
      exact hnc
    · simp only [decide_eq_false_iff_not, not_not]
      exact hin

lemma calcLoop_drains : ∀ (n : Nat) (s : Spreadsheet), StateWF s →
    s.calculationStack.processing = [] →
    pendingCount s + 2 ≤ n →
    (calcLoop n s).storage.graph.dirtySet = [] := by
  intro n
  induction n with
  | zero => intro s _ _ hn; omega
  | succ n ih =>
    intro s hwf hproc hn
    unfold calcLoop
    by_cases hd : s.storage.graph.dirtySet = []
    · rw [if_pos hd]
      exact hd
    · rw [if_neg hd]
      have hpost := calculateIteration_post s hwf
      rcases iteration_progress s hwf hproc with hempty | hlt
      · rw [calcLoop_of_empty n _ hempty]
        exact hempty
      · exact ih _ (hpost.2.2.2.2 hwf) (hpost.2.1.trans hproc) (by omega)

lemma calcLoop_fuel_indep : ∀ (n m : Nat) (s : Spreadsheet), StateWF s →
    s.calculationStack.processing = [] → pendingCount s + 2 ≤ n → n ≤ m →
    calcLoop m s = calcLoop n s := by
  intro n
  induction n with
  | zero => intro m s _ _ hn; omega
  | succ n ih =>
    intro m s hwf hproc hn hm
    obtain ⟨m', rfl⟩ : ∃ m', m = m' + 1 := ⟨m - 1, by omega⟩
    show calcLoop (m' + 1) s = calcLoop (n + 1) s
    unfold calcLoop
    by_cases hd : s.storage.graph.dirtySet = []
    · rw [if_pos hd, if_pos hd]
    · rw [if_neg hd, if_neg hd]
      have hpost := calculateIteration_post s hwf
      rcases iteration_progress s hwf hproc with hempty | hlt
      · rw [calcLoop_of_empty m' _ hempty, calcLoop_of_empty n _ hempty]
      · exact ih m' _ (hpost.2.2.2.2 hwf) (hpost.2.1.trans hproc) (by omega) (by omega)

lemma GraphWF_foldl_markDirty : ∀ (l : List CellAddress) (g : DependencyGraph),
    (∀ a ∈ l, a ∈ keyList g) → GraphWF g →
    GraphWF (l.foldl (fun g a => g.markDirty a) g) ∧
    keyList (l.foldl (fun g a => g.markDirty a) g) = keyList g := by
  intro l
  induction l with
  | nil => intro g _ hwf; exact ⟨hwf, rfl⟩
  | cons c rest ih =>
    intro g hsub hwf
    simp only [List.foldl_cons]
    have hc : c ∈ keyList g := hsub c (by simp)
    have hk := markDirty_keyList hc
    have hres := ih _ (fun a ha => by
      rw [hk]
      exact hsub a (List.mem_cons_of_mem _ ha)) (GraphWF_markDirty hc hwf)
    exact ⟨hres.1, hres.2.trans hk⟩

lemma GraphWF_markAllVolatileDirty {g : DependencyGraph} (hwf : GraphWF g) :
    GraphWF g.markAllVolatileDirty := by
  unfold DependencyGraph.markAllVolatileDirty
  exact (GraphWF_foldl_markDirty g.volatileCells g hwf.2.2.2.2 hwf).1

/-- The state at the entry of the while-dirty loop of `Calculate`: volatile
cells marked dirty and a fresh calculation stack. -/
def calcEntry (s : Spreadsheet) : Spreadsheet :=
  { s.withGraph (fun g => g.markAllVolatileDirty) with
    calculationStack := CalculationStack.new }

lemma calculate_eq_calcEntry (s : Spreadsheet) :
    s.calculate = (calcLoop (calcEntry s).calcFuel (calcEntry s)).withGraph
      (fun g => g.clearAllDirty) := rfl

lemma StateWF_calcEntry {s : Spreadsheet} (hwf : GraphWF s.storage.graph) :
    StateWF (calcEntry s) := by
  unfold StateWF calcEntry Spreadsheet.withGraph
  dsimp only
  exact GraphWF_markAllVolatileDirty hwf

/-- The fuel passed to `calculateCell` by the drain loop is never exhausted:
on a well-formed state the evaluator always returns a result. -/
lemma calculateCell_fuel_sufficient (s : Spreadsheet) (c : CellAddress)
    (hwf : StateWF s) :
    Spreadsheet.calculateCell s.calcFuel s c ≠ none :=
  (calc_main s.calcFuel).2 s c hwf (calcFuel_ge s)

/-- The fuel the driver passes to the outer while-dirty loop always
suffices: the loop exits through its genuine exit condition, the empty
dirty set. -/
lemma calculate_loop_reaches_empty (s : Spreadsheet) (hwf : GraphWF s.storage.graph) :
    (calcLoop (calcEntry s).calcFuel (calcEntry s)).storage.graph.dirtySet = [] := by
  refine calcLoop_drains _ _ (StateWF_calcEntry hwf) rfl ?_
  have h1 := pendingCount_le (calcEntry s)
  unfold Spreadsheet.calcFuel
  omega

/-- A1 holds "=1/0": a single formula cell whose graph node has no
precedents and no dependents, so the longest dependency chain has length
one. -/
def errSheet : Spreadsheet :=
  (Spreadsheet.new.addWorksheet 1).setFormulaAST 1 0 0 "=1/0"
    (.binOp .div (.numNode 1) (.numNode 0))

/-- C3: on a well-formed dependency graph, `Calculate` terminates: the
outer while-dirty loop reaches the empty dirty set within the driver fuel,
running it with any larger fuel changes nothing, and the dirty set is
empty when `Calculate` returns. -/
theorem calculate_termination (s : Spreadsheet) (hwf : GraphWF s.storage.graph) :
    (calcLoop (calcEntry s).calcFuel (calcEntry s)).storage.graph.dirtySet = [] ∧
    (∀ m, (calcEntry s).calcFuel ≤ m →
      calcLoop m (calcEntry s) = calcLoop (calcEntry s).calcFuel (calcEntry s)) ∧
    s.calculate.storage.graph.dirtySet = [] := by
  refine ⟨calculate_loop_reaches_empty s hwf, ?_, ?_⟩
  · intro m hm
    refine calcLoop_fuel_indep _ m _ (StateWF_calcEntry hwf) rfl ?_ hm
    have h1 := pendingCount_le (calcEntry s)
    unfold Spreadsheet.calcFuel
    omega
  · rw [calculate_eq_calcEntry]
    rfl

/-- C3 counterexample to the iteration bound: `errSheet`'s single node has
no cell or range precedents and no dependents (every dependency chain has
length one), yet one iteration of the while-dirty loop leaves the dirty
set non-empty — only the second drains it — because the error-storing
evaluation does not clear the dirty flag. -/
theorem calc_iteration_bound_counterexample :
    (∀ e ∈ (calcEntry errSheet).storage.graph.nodes,
        e.2.cellPrecedents = [] ∧ e.2.cellDependents = [] ∧
        e.2.rangePrecedents = []) ∧
    (calcEntry errSheet).storage.graph.dirtySet = [⟨1, 0, 0⟩] ∧
    (calcEntry errSheet).calculateIteration.storage.graph.dirtySet ≠ [] ∧
    (calcEntry errSheet).calculateIteration.calculateIteration.storage.graph.dirtySet
      = [] := by
  decide

theorem calculate_termination_witness :
    GraphWF errSheet.storage.graph ∧
    errSheet.calculate.storage.graph.dirtySet = [] :=
  ⟨by unfold GraphWF keyList; decide,
   (calculate_termination errSheet (by unfold GraphWF keyList; decide)).2.2⟩


end GoSpreadsheet
